import Mathlib

/-!
# Allocation engine of the event-registration platform

A shallow embedding of the handlers in `backend/routes/events.js`,
`backend/routes/teams.js`, `backend/routes/tickets.js`, `backend/routes/auth.js`,
`backend/routes/users.js` and `backend/routes/admin.js` together with the schemas of
`backend/models` and the role check of `backend/middleware/roleMiddleware.js`.

Conventions of the embedding.

* A collection is a list of documents in insertion order; `findOne` returns the
  first match, `countDocuments` counts the matches, and saving a document that
  was obtained by `findOne` rewrites that same document in place.
* Object ids are natural numbers; a fresh id is taken from the counter
  `Store.nextId` when a document is inserted.
* A number of a document or of a request body (`maxParticipants`, `stock`, team
  sizes, `maxTeams`, the value of an answer) is a finite IEEE double, given by
  its exact value as a rational; the schema has no validator that asks for a
  whole number.  An update `$inc` adds with the rounding of doubles
  (`roundDouble`).  Points in time are whole numbers of milliseconds.
* A handler is a function from the store and the request to the new store and
  the response.  Requests are taken after `authMiddleware` and `checkRole`
  have let them through, and the authenticated user exists; the routes `putEvent`
  and `patchPublish` are given with their `checkRole` gate.
* The accounts are kept in a store of their own, `UserStore`.  A stored password
  is the `Hash` of a text, and a text matches a hash exactly when the hash was
  made from it.
* A text is a string of Unicode characters.  `trim()` and the class `\S` go by
  the white space of JavaScript (`isJsWhitespace`), `length` counts UTF-16 code
  units (`jsLength`), and the method `toLowerCase()` is a parameter of the
  account handlers, which the sample requests fill with `asciiLowerCase`.
* Outbound e-mail and QR rendering do not touch the store and are left out.
-/

namespace Felicity

/-! ## Data model -/

/-- Values a JSON request can put in the `value` of an answer (schema type Mixed). -/
inductive JsValue
  | undefined
  | null
  | bool (b : Bool)
  | num (n : ℚ)
  | str (s : String)
  | object
  deriving DecidableEq, Repr

/-- Truthiness of a value, as tested by `!answer.value`. -/
def JsValue.truthy : JsValue → Bool
  | .undefined => false
  | .null => false
  | .bool b => b
  | .num n => n != 0
  | .str s => s != ""
  | .object => true

/-- Truthiness of a numeric field that may be null, as tested by `if (event.maxParticipants)`. -/
def numTruthy : Option ℚ → Bool
  | none => false
  | some n => n != 0

inductive EventType
  | Normal
  | Merch
  deriving DecidableEq, Repr

inductive EventStatus
  | Draft
  | Published
  | Ongoing
  | Completed
  | Closed
  | Cancelled
  deriving DecidableEq, Repr

inductive TicketStatus
  | Confirmed
  | Cancelled
  deriving DecidableEq, Repr

inductive TeamStatus
  | Forming
  | Complete
  deriving DecidableEq, Repr

/-- An entry of `event.formFields`; only the parts read by the handlers. -/
structure FormField where
  label : String
  required : Bool
  deriving DecidableEq, Repr

/-- An entry of `ticket.answers`. -/
structure Answer where
  label : String
  value : JsValue
  deriving DecidableEq, Repr

/-- The Event document (`models/Event.js`). -/
structure Event where
  id : Nat
  organizerId : Nat
  type : EventType
  status : EventStatus
  registrationDeadline : Int
  formFields : List FormField
  participants : List Nat
  maxParticipants : Option ℚ
  stock : Option ℚ
  isTeamEvent : Bool
  minTeamSize : ℚ
  maxTeamSize : ℚ
  maxTeams : Option ℚ
  deriving DecidableEq, Repr

/-- The Ticket document (`models/Ticket.js`). -/
structure Ticket where
  id : Nat
  userId : Nat
  eventId : Nat
  teamId : Option Nat
  answers : List Answer
  status : TicketStatus
  checkedIn : Bool
  deriving DecidableEq, Repr

/-- The Team document (`models/Team.js`). -/
structure Team where
  id : Nat
  name : String
  code : String
  leaderId : Nat
  members : List Nat
  eventId : Nat
  status : TeamStatus
  deriving DecidableEq, Repr

/-- The three collections and the source of fresh object ids. -/
structure Store where
  events : List Event
  tickets : List Ticket
  teams : List Team
  nextId : Nat
  deriving DecidableEq, Repr

/-! ## Store primitives -/

/-- The query `Event.findById(id)`. -/
def findEvent (s : Store) (id : Nat) : Option Event :=
  s.events.find? (fun e => e.id == id)

/-- The number of halvings that bring `n` below 2, at most `fuel` of them. -/
def log2Fuel : Nat → Nat → Nat
  | 0, _ => 0
  | fuel + 1, n => if n < 2 then 0 else log2Fuel fuel (n / 2) + 1

/-- The position of the highest bit of `n`: the largest `k` with `2 ^ k ≤ n`, for
`n ≥ 1`. -/
def bitLog (n : Nat) : Nat :=
  log2Fuel n n

/-- The whole number nearest to `q`; of two nearest ones, the even one. -/
def roundHalfEven (q : ℚ) : ℤ :=
  if q - ⌊q⌋ < 1 / 2 then ⌊q⌋
  else if 1 / 2 < q - ⌊q⌋ then ⌊q⌋ + 1
  else if ⌊q⌋ % 2 = 0 then ⌊q⌋ else ⌊q⌋ + 1

/-- The exponent `e` with `2 ^ e ≤ |q| < 2 ^ (e + 1)`, for `q ≠ 0`. -/
def binade (q : ℚ) : ℤ :=
  if (2 : ℚ) ^ ((bitLog q.num.natAbs : ℤ) - (bitLog q.den : ℤ)) ≤ |q| then
    (bitLog q.num.natAbs : ℤ) - (bitLog q.den : ℤ)
  else (bitLog q.num.natAbs : ℤ) - (bitLog q.den : ℤ) - 1

/-- The exponent of the spacing of the doubles around `q`: a double has 53 significant
bits, and no spacing is below `2 ^ (-1074)`. -/
def ulpExponent (q : ℚ) : ℤ :=
  max (binade q - 52) (-1074)

/-- The double nearest to `q`, the one with the even significand of two nearest ones
(the rounding of IEEE 754 arithmetic, as long as the result is finite). -/
def roundDouble (q : ℚ) : ℚ :=
  if q = 0 then 0 else (roundHalfEven (q / 2 ^ ulpExponent q) : ℚ) * 2 ^ ulpExponent q

/-- The operator `{ $inc: { stock: d } }` applied to one event document: the sum is
rounded to a double. -/
def Event.addStock (e : Event) (d : ℚ) : Event :=
  { e with stock := e.stock.map (fun k => roundDouble (k + d)) }

/-- The update `Event.findByIdAndUpdate(id, { $inc: { stock: d } })` on the collection. -/
def incStockIn (id : Nat) (d : ℚ) : List Event → List Event
  | [] => []
  | e :: es =>
    if e.id = id then e.addStock d :: es
    else e :: incStockIn id d es

/-- The update `Event.findByIdAndUpdate(id, { $inc: { stock: d } })`. -/
def incStock (s : Store) (id : Nat) (d : ℚ) : Store :=
  { s with events := incStockIn id d s.events }

/-- The filter `{ eventId, status: 'Confirmed' }`. -/
def isConfirmedFor (eventId : Nat) (t : Ticket) : Bool :=
  t.eventId == eventId && t.status == TicketStatus.Confirmed

/-- The query `Ticket.countDocuments({ eventId, status: 'Confirmed' })`. -/
def confirmedCount (s : Store) (eventId : Nat) : Nat :=
  s.tickets.countP (isConfirmedFor eventId)

/-- The filter `{ userId, eventId }`. -/
def isTicketOf (userId eventId : Nat) (t : Ticket) : Bool :=
  t.userId == userId && t.eventId == eventId

/-- The query `Ticket.findOne({ userId, eventId })`. -/
def findTicket (s : Store) (userId eventId : Nat) : Option Ticket :=
  s.tickets.find? (isTicketOf userId eventId)

/-- The filter `{ userId, eventId, status: 'Confirmed' }`. -/
def isConfirmedTicketOf (userId eventId : Nat) (t : Ticket) : Bool :=
  t.userId == userId && t.eventId == eventId && t.status == TicketStatus.Confirmed

/-- The query `Ticket.findOne({ userId, eventId, status: 'Confirmed' })`. -/
def findConfirmedTicket (s : Store) (userId eventId : Nat) : Option Ticket :=
  s.tickets.find? (isConfirmedTicketOf userId eventId)

/-- Reasons for which `ticket.save()` of a new document throws. -/
inductive SaveError
  | validation
  | duplicateKey
  deriving DecidableEq, Repr

/-- Schema validation of a ticket: every answer has a label (required String)
and a value (required Mixed). -/
def ticketSchemaValid (t : Ticket) : Bool :=
  t.answers.all (fun a => a.label != "" && a.value != JsValue.undefined && a.value != JsValue.null)

/-- The document `new Ticket({ userId, eventId, teamId, answers, status: 'Confirmed' })`. -/
def newTicket (s : Store) (userId eventId : Nat) (teamId : Option Nat)
    (answers : List Answer) : Ticket :=
  { id := s.nextId, userId := userId, eventId := eventId, teamId := teamId,
    answers := answers, status := TicketStatus.Confirmed, checkedIn := false }

/-- The call `ticket.save()` for a new ticket: schema validation, then the insert,
which the unique index on `(userId, eventId)` refuses when the pair is taken. -/
def saveNewTicket (s : Store) (t : Ticket) : Except SaveError Store :=
  if ticketSchemaValid t = false then Except.error SaveError.validation
  else if s.tickets.any (isTicketOf t.userId t.eventId) then Except.error SaveError.duplicateKey
  else Except.ok { s with tickets := s.tickets ++ [t], nextId := s.nextId + 1 }

/-! ## POST /api/events/:id/register -/

inductive RegisterResult
  | eventNotFound
  | cannotRegister
  | registrationClosed
  | eventFull
  | alreadyRegistered
  | invalidRequest
  | missingRequiredField (label : String)
  | outOfStock
  | serverError
  | success (ticketId : Nat)
  deriving DecidableEq, Repr

/-- The capacity test: `event.maxParticipants` is truthy and the number of
Confirmed tickets has reached it. -/
def capacityReached (s : Store) (event : Event) : Bool :=
  match event.maxParticipants with
  | none => false
  | some n => n != 0 && decide (n ≤ (confirmedCount s event.id : ℚ))

/-- The test `!answer || !answer.value` for the first answer carrying the label of the field. -/
def fieldUnanswered (answers : List Answer) (field : FormField) : Bool :=
  match answers.find? (fun a => a.label == field.label) with
  | none => true
  | some a => !a.value.truthy

/-- The loop over `event.formFields`: the label of the first required field left unanswered. -/
def firstMissingField (fields : List FormField) (answers : List Answer) : Option String :=
  (fields.find? (fun f => f.required && fieldUnanswered answers f)).map (fun f => f.label)

/-- The stock test for merchandise: `type === 'Merch' && stock !== null`. -/
def tracksStock (event : Event) : Bool :=
  event.type == EventType.Merch && event.stock.isSome

/-- The test `event.stock <= 0` under `tracksStock`. -/
def outOfStock (event : Event) : Bool :=
  match event.stock with
  | none => false
  | some k => tracksStock event && decide (k ≤ 0)

/-- The handler of `POST /:id/register`; `answers` is `none` when the body has no
array under `answers`, and `now` is the value of `new Date()`. -/
def register (s : Store) (userId eventId : Nat) (answers : Option (List Answer)) (now : Int) :
    Store × RegisterResult :=
  match findEvent s eventId with
  | none => (s, RegisterResult.eventNotFound)
  | some event =>
    if event.status ≠ EventStatus.Published then (s, RegisterResult.cannotRegister)
    else if event.registrationDeadline < now then (s, RegisterResult.registrationClosed)
    else if capacityReached s event then (s, RegisterResult.eventFull)
    else if (findTicket s userId event.id).isSome then (s, RegisterResult.alreadyRegistered)
    else
      match answers with
      | none => (s, RegisterResult.invalidRequest)
      | some answers =>
        match firstMissingField event.formFields answers with
        | some label => (s, RegisterResult.missingRequiredField label)
        | none =>
          if outOfStock event then (s, RegisterResult.outOfStock)
          else
            let ticket := newTicket s userId event.id none answers
            match saveNewTicket s ticket with
            | Except.error SaveError.duplicateKey => (s, RegisterResult.alreadyRegistered)
            | Except.error SaveError.validation => (s, RegisterResult.serverError)
            | Except.ok s1 =>
              if tracksStock event then (incStock s1 event.id (-1), RegisterResult.success ticket.id)
              else (s1, RegisterResult.success ticket.id)

/-! ## POST /api/events/:id/cancel -/

inductive CancelResult
  | eventNotFound
  | registrationNotFound
  | success (ticketId : Nat)
  deriving DecidableEq, Repr

/-- The assignment `ticket.status = 'Cancelled'`. -/
def Ticket.cancelled (t : Ticket) : Ticket :=
  { t with status := TicketStatus.Cancelled }

/-- The update `ticket.status = 'Cancelled'; ticket.save()` for the ticket returned by
`Ticket.findOne({ userId, eventId, status: 'Confirmed' })`. -/
def cancelTicketIn (userId eventId : Nat) : List Ticket → List Ticket
  | [] => []
  | t :: ts =>
    if isConfirmedTicketOf userId eventId t then t.cancelled :: ts
    else t :: cancelTicketIn userId eventId ts

/-- The handler of `POST /:id/cancel`. -/
def cancel (s : Store) (userId eventId : Nat) : Store × CancelResult :=
  match findEvent s eventId with
  | none => (s, CancelResult.eventNotFound)
  | some event =>
    match findConfirmedTicket s userId event.id with
    | none => (s, CancelResult.registrationNotFound)
    | some ticket =>
      let s1 := { s with tickets := cancelTicketIn userId event.id s.tickets }
      if tracksStock event then (incStock s1 event.id 1, CancelResult.success ticket.id)
      else (s1, CancelResult.success ticket.id)

/-! ## Teams (`routes/teams.js`) -/

/-- The method `toUpperCase()`, on the letters a to z. -/
def toUpperCase (s : String) : String :=
  String.mk (s.data.map Char.toUpper)

/-- White space of JavaScript, the characters that `trim()` removes and that `\s` matches:
tab, line feed, vertical tab, form feed, carriage return, space, U+00A0, U+1680, U+2000 to
U+200A, U+2028, U+2029, U+202F, U+205F, U+3000 and U+FEFF. -/
def isJsWhitespace (c : Char) : Bool :=
  (9 ≤ c.toNat && c.toNat ≤ 13) || c.toNat == 32 || c.toNat == 160 || c.toNat == 5760 ||
    (8192 ≤ c.toNat && c.toNat ≤ 8202) || c.toNat == 8232 || c.toNat == 8233 ||
    c.toNat == 8239 || c.toNat == 8287 || c.toNat == 12288 || c.toNat == 65279

/-- The method `trim()`: white space is removed at both ends. -/
def trimmed (s : String) : String :=
  String.mk ((s.data.dropWhile isJsWhitespace).reverse.dropWhile isJsWhitespace).reverse

/-- The property `length` of a string: the number of UTF-16 code units, two for a
character above U+FFFF. -/
def jsLength (s : String) : Nat :=
  (s.data.map (fun c => if c.toNat < 65536 then 1 else 2)).sum

/-- The method `substring(2, 8)`: the characters at positions 2 to 7. -/
def substring2to8 (s : String) : String :=
  String.mk ((s.data.drop 2).take 6)

/-- The candidate code `r.substring(2, 8).toUpperCase()`, where `r` is the text
returned by `Math.random().toString(36)`. -/
def candidateCode (r : String) : String :=
  toUpperCase (substring2to8 r)

/-- The loop of `generateTeamCode`, run on the successive texts returned by
`Math.random().toString(36)`; `none` when every draw supplied collides, in which
case the loop is still running. -/
def generateTeamCode (s : Store) : List String → Option String
  | [] => none
  | r :: rs =>
    if s.teams.any (fun t => t.code == candidateCode r) then generateTeamCode s rs
    else some (candidateCode r)

/-- The filter `{ eventId, $or: [{ leaderId: userId }, { members: userId }] }`. -/
def isTeamOf (userId eventId : Nat) (t : Team) : Bool :=
  t.eventId == eventId && (t.leaderId == userId || t.members.contains userId)

/-- The query `Team.countDocuments({ eventId })`. -/
def teamCount (s : Store) (eventId : Nat) : Nat :=
  s.teams.countP (fun t => t.eventId == eventId)

/-- The test on `event.maxTeams`: truthy and reached by the number of teams. -/
def teamLimitReached (s : Store) (event : Event) (eventId : Nat) : Bool :=
  match event.maxTeams with
  | none => false
  | some n => n != 0 && decide (n ≤ (teamCount s eventId : ℚ))

/-- The call `team.save()` for a new team: the schema trims the name and the code,
requires a name and a code of exactly 6 characters, upper-cases the code, and the
unique index on `code` refuses a code in use. -/
def saveNewTeam (s : Store) (t : Team) : Option Store :=
  if trimmed t.name = "" then none
  else if (trimmed t.code).length ≠ 6 then none
  else if s.teams.any (fun u => u.code == toUpperCase (trimmed t.code)) then none
  else
    some { s with
      teams := s.teams ++
        [{ t with name := trimmed t.name, code := toUpperCase (trimmed t.code) }],
      nextId := s.nextId + 1 }

inductive CreateTeamResult
  | missingFields
  | eventNotFound
  | notTeamEvent
  | alreadyInTeam
  | alreadyHasTicket
  | maxTeamsReached
  | codeLoopRunning
  | serverError
  | success (teamId : Nat) (ticketId : Option Nat)
  deriving DecidableEq, Repr

/-- The handler of `POST /api/teams/create`; `name` is empty and `eventId` is `none`
when the body lacks them, and `rnd` lists the texts returned by the successive
calls of `Math.random().toString(36)`. -/
def createTeam (s : Store) (userId : Nat) (name : String) (eventId : Option Nat)
    (rnd : List String) : Store × CreateTeamResult :=
  match eventId with
  | none => (s, CreateTeamResult.missingFields)
  | some eventId =>
    if name = "" then (s, CreateTeamResult.missingFields)
    else
      match findEvent s eventId with
      | none => (s, CreateTeamResult.eventNotFound)
      | some event =>
        if event.isTeamEvent = false then (s, CreateTeamResult.notTeamEvent)
        else if s.teams.any (isTeamOf userId eventId) then (s, CreateTeamResult.alreadyInTeam)
        else if (findConfirmedTicket s userId eventId).isSome then
          (s, CreateTeamResult.alreadyHasTicket)
        else if teamLimitReached s event eventId then (s, CreateTeamResult.maxTeamsReached)
        else
          match generateTeamCode s rnd with
          | none => (s, CreateTeamResult.codeLoopRunning)
          | some code =>
            let team : Team :=
              { id := s.nextId, name := name, code := code, leaderId := userId,
                members := [userId], eventId := eventId,
                status := if event.minTeamSize ≤ 1 then TeamStatus.Complete
                          else TeamStatus.Forming }
            match saveNewTeam s team with
            | none => (s, CreateTeamResult.serverError)
            | some s1 =>
              if team.status = TeamStatus.Complete then
                let ticket := newTicket s1 userId event.id (some team.id) []
                match saveNewTicket s1 ticket with
                | Except.error _ => (s1, CreateTeamResult.serverError)
                | Except.ok s2 => (s2, CreateTeamResult.success team.id (some ticket.id))
              else (s1, CreateTeamResult.success team.id none)

/-- The team document after `team.members.push(userId)` and the status update. -/
def Team.withMembers (t : Team) (members : List Nat) (status : TeamStatus) : Team :=
  { t with members := members, status := status }

/-- The update `team.save()` for the team returned by `Team.findOne({ code, eventId })`:
the first team with that code and event is replaced by the saved document. -/
def updateTeamIn (code : String) (eventId : Nat) (saved : Team) : List Team → List Team
  | [] => []
  | t :: ts =>
    if t.code = code ∧ t.eventId = eventId then saved :: ts
    else t :: updateTeamIn code eventId saved ts

/-- The fan-out `team.members.map(memberId => new Ticket(...).save())` awaited by
`Promise.all`: one insert per member, each on its own; the flag tells whether
every insert went through. -/
def issueTeamTickets (eventId teamId : Nat) : List Nat → Store → Store × Bool
  | [], s => (s, true)
  | m :: ms, s =>
    match saveNewTicket s (newTicket s m eventId (some teamId) []) with
    | Except.ok s1 => issueTeamTickets eventId teamId ms s1
    | Except.error _ => ((issueTeamTickets eventId teamId ms s).1, false)

/-- The test `team.members.length >= event.minTeamSize && team.status === 'Forming'`,
made after the push; it sets `ticketsGenerated`. -/
def completesTeam (event : Event) (team : Team) (members : List Nat) : Bool :=
  decide (event.minTeamSize ≤ (members.length : ℚ)) && team.status == TeamStatus.Forming

inductive JoinTeamResult
  | missingFields
  | invalidCode
  | teamFull
  | alreadyInTeam
  | alreadyHasTicket
  | serverError
  | success (teamId : Nat) (ticketId : Option Nat)
  deriving DecidableEq, Repr

/-- The handler of `POST /api/teams/join`; `code` is empty and `eventId` is `none`
when the body lacks them. -/
def joinTeam (s : Store) (userId : Nat) (code : String) (eventId : Option Nat) :
    Store × JoinTeamResult :=
  match eventId with
  | none => (s, JoinTeamResult.missingFields)
  | some eventId =>
    if code = "" then (s, JoinTeamResult.missingFields)
    else
      match s.teams.find? (fun t => t.code == code && t.eventId == eventId) with
      | none => (s, JoinTeamResult.invalidCode)
      | some team =>
        match findEvent s eventId with
        | none => (s, JoinTeamResult.serverError)
        | some event =>
          if event.maxTeamSize ≤ (team.members.length : ℚ) then (s, JoinTeamResult.teamFull)
          else if s.teams.any (isTeamOf userId eventId) then (s, JoinTeamResult.alreadyInTeam)
          else if (findConfirmedTicket s userId eventId).isSome then
            (s, JoinTeamResult.alreadyHasTicket)
          else
            let members := team.members ++ [userId]
            let ticketsGenerated := completesTeam event team members
            let status := if ticketsGenerated then TeamStatus.Complete else team.status
            let s1 : Store :=
              { s with teams := updateTeamIn code eventId (team.withMembers members status) s.teams }
            if ticketsGenerated then
              let issued := issueTeamTickets event.id team.id members s1
              if issued.2 = false then (issued.1, JoinTeamResult.serverError)
              else
                (issued.1, JoinTeamResult.success team.id
                  ((findTicket issued.1 userId eventId).map (fun t => t.id)))
            else if status = TeamStatus.Complete then
              let ticket := newTicket s1 userId event.id (some team.id) []
              match saveNewTicket s1 ticket with
              | Except.error _ => (s1, JoinTeamResult.serverError)
              | Except.ok s2 => (s2, JoinTeamResult.success team.id (some ticket.id))
            else (s1, JoinTeamResult.success team.id none)

/-! ## Sequences of requests -/

/-- A request to one of the four allocation handlers. -/
inductive Op
  | register (userId eventId : Nat) (answers : Option (List Answer)) (now : Int)
  | cancel (userId eventId : Nat)
  | createTeam (userId : Nat) (name : String) (eventId : Option Nat) (rnd : List String)
  | joinTeam (userId : Nat) (code : String) (eventId : Option Nat)
  deriving DecidableEq, Repr

/-- The store after serving one request. -/
def Op.apply (s : Store) : Op → Store
  | Op.register u e a now => (Felicity.register s u e a now).1
  | Op.cancel u e => (Felicity.cancel s u e).1
  | Op.createTeam u n e rnd => (Felicity.createTeam s u n e rnd).1
  | Op.joinTeam u c e => (Felicity.joinTeam s u c e).1

/-- The request is one to register or to cancel. -/
def Op.isTicketRequest : Op → Bool
  | Op.register _ _ _ _ => true
  | Op.cancel _ _ => true
  | _ => false

/-- The store after serving a sequence of requests one after the other. -/
def run (s : Store) (ops : List Op) : Store :=
  ops.foldl Op.apply s

/-! ## Admission by register, stated on the store -/

/-- The store left by `register` when it admits the user: the new Confirmed ticket is
appended and, for merchandise with tracked stock, one unit is taken. -/
def afterRegister (s : Store) (ev : Event) (u : Nat) (ans : List Answer) : Store :=
  let s1 : Store :=
    { s with tickets := s.tickets ++ [newTicket s u ev.id none ans], nextId := s.nextId + 1 }
  if tracksStock ev then incStock s1 ev.id (-1) else s1

/-- Every guard of `register` lets the request through. -/
structure Admissible (s : Store) (ev : Event) (u : Nat) (ans : List Answer) (now : Int) :
    Prop where
  published : ev.status = EventStatus.Published
  beforeDeadline : ¬ ev.registrationDeadline < now
  capacity : capacityReached s ev = false
  noTicket : findTicket s u ev.id = none
  answered : firstMissingField ev.formFields ans = none
  inStock : outOfStock ev = false
  wellFormed : ticketSchemaValid (newTicket s u ev.id none ans) = true

/-- One `register` request. -/
structure RegisterCall where
  userId : Nat
  eventId : Nat
  answers : Option (List Answer)
  now : Int
  deriving DecidableEq, Repr

/-- The store after serving a sequence of `register` requests one after the other. -/
def registerAll (s : Store) (calls : List RegisterCall) : Store :=
  calls.foldl (fun s c => (register s c.userId c.eventId c.answers c.now).1) s

/-- The value of `maxParticipants` of the event with the given id, if the event exists. -/
def capacityOf (s : Store) (eventId : Nat) : Option (Option ℚ) :=
  (findEvent s eventId).map (fun ev => ev.maxParticipants)

/-! ## Sample data used to instantiate the theorems -/

/-- A published individual event with one required form field and room for one participant. -/
def sampleEvent : Event :=
  { id := 7, organizerId := 1, type := EventType.Normal, status := EventStatus.Published,
    registrationDeadline := 100, formFields := [{ label := "Name", required := true }],
    participants := [], maxParticipants := some 1, stock := none, isTeamEvent := false,
    minTeamSize := 1, maxTeamSize := 1, maxTeams := none }

/-- Answers that satisfy the form of `sampleEvent`. -/
def sampleAnswers : List Answer :=
  [{ label := "Name", value := JsValue.str "Ada" }]

/-- A store holding `sampleEvent` and nothing else. -/
def sampleStore : Store :=
  { events := [sampleEvent], tickets := [], teams := [], nextId := 0 }

/-- The store `sampleStore` with the capacity of its event set to the number 1.5. -/
def halfCapacityStore : Store :=
  { sampleStore with events := [{ sampleEvent with maxParticipants := some (3 / 2) }] }

/-- Users 1 and 2 ask in turn to register for event 7, with the answers of
`sampleAnswers`. -/
def twoRegisterCalls : List RegisterCall :=
  [{ userId := 1, eventId := 7, answers := some sampleAnswers, now := 5 },
   { userId := 2, eventId := 7, answers := some sampleAnswers, now := 6 }]

/-- The store `sampleStore` with the capacity of its event set to the number 0. -/
def zeroCapacityStore : Store :=
  { sampleStore with events := [{ sampleEvent with maxParticipants := some 0 }] }

/-! ## Effects of cancel and of the team handlers, stated on the store -/

/-- The store left by `cancel` when it finds the Confirmed ticket of the user: the ticket
is marked Cancelled and, for merchandise with tracked stock, one unit is given back. -/
def afterCancel (s : Store) (ev : Event) (u : Nat) : Store :=
  let s1 : Store := { s with tickets := cancelTicketIn u ev.id s.tickets }
  if tracksStock ev then incStock s1 ev.id 1 else s1

/-- The store is left as it was, or only its teams (and the id counter) changed, or on
top of that one team-tagged Confirmed ticket was inserted. -/
def TeamEffect (s s2 : Store) : Prop :=
  s2 = s ∨ ∃ teams n, s2 = { s with teams := teams, nextId := n } ∨
    ∃ t : Ticket, t.teamId.isSome = true ∧ t.status = TicketStatus.Confirmed ∧
      saveNewTicket { s with teams := teams, nextId := n } t = Except.ok s2

/-- A Confirmed ticket of the event that carries no team id, that is, one issued by
`register`. -/
def isIndividualConfirmedFor (eventId : Nat) (t : Ticket) : Bool :=
  isConfirmedFor eventId t && t.teamId.isNone

/-- The number of Confirmed tickets of the event that carry no team id. -/
def individualConfirmedCount (s : Store) (eventId : Nat) : Nat :=
  s.tickets.countP (isIndividualConfirmedFor eventId)

/-- The key of the unique index of the Ticket collection. -/
def ticketKey (t : Ticket) : Nat × Nat :=
  (t.userId, t.eventId)

/-- The unique index on `(userId, eventId)` holds in the store. -/
def UniqueKeys (s : Store) : Prop :=
  (s.tickets.map ticketKey).Nodup

/-- A team event whose `maxParticipants` is 1 and whose teams are complete with one member. -/
def soloTeamEvent : Event :=
  { sampleEvent with formFields := [], isTeamEvent := true }

/-- A store holding `soloTeamEvent` and nothing else. -/
def soloTeamStore : Store :=
  { events := [soloTeamEvent], tickets := [], teams := [], nextId := 0 }

/-! ## Repeated requests and their answers -/

/-- The store and the answers after serving a sequence of `register` requests one after
the other. -/
def registerSeq : Store → List RegisterCall → Store × List RegisterResult
  | s, [] => (s, [])
  | s, c :: cs =>
    ((registerSeq (register s c.userId c.eventId c.answers c.now).1 cs).1,
      (register s c.userId c.eventId c.answers c.now).2 ::
        (registerSeq (register s c.userId c.eventId c.answers c.now).1 cs).2)

/-- The answer to a duplicate request for an event: the capacity guard comes first. -/
def duplicateAnswer (s : Store) (ev : Event) : RegisterResult :=
  if capacityReached s ev then RegisterResult.eventFull else RegisterResult.alreadyRegistered

/-! ## Counting purchases and cancellations -/

/-- The answer of `register` is the 201 response. -/
def RegisterResult.isSuccess : RegisterResult → Bool
  | RegisterResult.success _ => true
  | _ => false

/-- The answer of `cancel` is the success response. -/
def CancelResult.isSuccess : CancelResult → Bool
  | CancelResult.success _ => true
  | _ => false

/-- The value 1 when the request is a `register` for the event that succeeds on the store,
0 otherwise. -/
def purchased (s : Store) (eventId : Nat) : Op → Nat
  | Op.register u e a now =>
    if e = eventId ∧ (register s u e a now).2.isSuccess = true then 1 else 0
  | _ => 0

/-- The value 1 when the request is a `cancel` for the event that succeeds on the store,
0 otherwise. -/
def released (s : Store) (eventId : Nat) : Op → Nat
  | Op.cancel u e => if e = eventId ∧ (cancel s u e).2.isSuccess = true then 1 else 0
  | _ => 0

/-- The number of successful purchases of the event in a sequence of requests. -/
def purchases (eventId : Nat) : Store → List Op → Nat
  | _, [] => 0
  | s, op :: ops => purchased s eventId op + purchases eventId (op.apply s) ops

/-- The number of successful cancellations for the event in a sequence of requests. -/
def cancellations (eventId : Nat) : Store → List Op → Nat
  | _, [] => 0
  | s, op :: ops => released s eventId op + cancellations eventId (op.apply s) ops

/-- A merchandise event with 2 units in stock. -/
def merchEvent : Event :=
  { sampleEvent with type := EventType.Merch, maxParticipants := none, stock := some 2 }

/-- A merchandise event with 9007199254740994 units in stock (2^53 + 2). -/
def bigStockEvent : Event :=
  { sampleEvent with
    type := EventType.Merch, maxParticipants := none, stock := some 9007199254740994 }

/-- A store holding `bigStockEvent` and nothing else. -/
def bigStockStore : Store :=
  { events := [bigStockEvent], tickets := [], teams := [], nextId := 0 }

/-- A merchandise event with half a unit in stock. -/
def halfStockEvent : Event :=
  { sampleEvent with type := EventType.Merch, maxParticipants := none, stock := some (1 / 2) }

/-- A store holding `halfStockEvent` and nothing else. -/
def halfStockStore : Store :=
  { events := [halfStockEvent], tickets := [], teams := [], nextId := 0 }

/-- A store holding `merchEvent` and nothing else. -/
def merchStore : Store :=
  { events := [merchEvent], tickets := [], teams := [], nextId := 0 }

/-- Three purchases of `merchEvent` by three users, then the cancellation of the first. -/
def merchRequests : List Op :=
  [Op.register 1 7 (some sampleAnswers) 5, Op.register 2 7 (some sampleAnswers) 5,
   Op.register 3 7 (some sampleAnswers) 5, Op.cancel 1 7]

/-! ## The register handler between its await points

`register` above runs one request from beginning to end. The handler is an `async`
function: it can be suspended at each `await`, and another request can run in between.
`registerStep` runs one request from one `await` to the next; the store operation awaited
is performed against the store as it is at that moment. -/

/-- Where a `register` request stands: which `await` comes next, with the local variables
the rest of the handler uses. -/
inductive RegPhase
  | start
  | counting (event : Event)
  | finding (event : Event)
  | saving (event : Event) (answers : List Answer)
  | decrementing (event : Event) (ticketId : Nat)
  | done (r : RegisterResult)
  deriving DecidableEq, Repr

/-- One step of a `register` request, from the `await` named by the phase up to the next
one: `Event.findById`, `Ticket.countDocuments`, `Ticket.findOne`, `ticket.save()`,
`Event.findByIdAndUpdate`. -/
def registerStep (s : Store) (c : RegisterCall) : RegPhase → Store × RegPhase
  | RegPhase.start =>
    match findEvent s c.eventId with
    | none => (s, RegPhase.done RegisterResult.eventNotFound)
    | some event =>
      if event.status ≠ EventStatus.Published then
        (s, RegPhase.done RegisterResult.cannotRegister)
      else if event.registrationDeadline < c.now then
        (s, RegPhase.done RegisterResult.registrationClosed)
      else if numTruthy event.maxParticipants then (s, RegPhase.counting event)
      else (s, RegPhase.finding event)
  | RegPhase.counting event =>
    if capacityReached s event then (s, RegPhase.done RegisterResult.eventFull)
    else (s, RegPhase.finding event)
  | RegPhase.finding event =>
    if (findTicket s c.userId event.id).isSome then
      (s, RegPhase.done RegisterResult.alreadyRegistered)
    else
      match c.answers with
      | none => (s, RegPhase.done RegisterResult.invalidRequest)
      | some answers =>
        match firstMissingField event.formFields answers with
        | some label => (s, RegPhase.done (RegisterResult.missingRequiredField label))
        | none =>
          if outOfStock event then (s, RegPhase.done RegisterResult.outOfStock)
          else (s, RegPhase.saving event answers)
  | RegPhase.saving event answers =>
    match saveNewTicket s (newTicket s c.userId event.id none answers) with
    | Except.error SaveError.duplicateKey => (s, RegPhase.done RegisterResult.alreadyRegistered)
    | Except.error SaveError.validation => (s, RegPhase.done RegisterResult.serverError)
    | Except.ok s1 =>
      if tracksStock event then (s1, RegPhase.decrementing event s.nextId)
      else (s1, RegPhase.done (RegisterResult.success s.nextId))
  | RegPhase.decrementing event ticketId =>
    (incStock s event.id (-1), RegPhase.done (RegisterResult.success ticketId))
  | RegPhase.done r => (s, RegPhase.done r)

/-- A number of consecutive steps of one request. -/
def registerSteps (c : RegisterCall) : Nat → Store × RegPhase → Store × RegPhase
  | 0, x => x
  | n + 1, x => registerSteps c n (registerStep x.1 c x.2)

/-- Two requests served concurrently: the schedule says, step after step, which of the
two runs up to its next `await` (`true` for the first request). -/
def interleave (a b : RegisterCall) :
    List Bool → Store × RegPhase × RegPhase → Store × RegPhase × RegPhase
  | [], x => x
  | true :: sched, (s, pa, pb) =>
    interleave a b sched ((registerStep s a pa).1, (registerStep s a pa).2, pb)
  | false :: sched, (s, pa, pb) =>
    interleave a b sched ((registerStep s b pb).1, pa, (registerStep s b pb).2)

/-- The request of user 1 for the single place of `sampleEvent`. -/
def firstRequest : RegisterCall :=
  { userId := 1, eventId := 7, answers := some sampleAnswers, now := 5 }

/-- The request of user 2 for the single place of `sampleEvent`. -/
def secondRequest : RegisterCall :=
  { userId := 2, eventId := 7, answers := some sampleAnswers, now := 5 }

/-- The schedule in which the two requests take turns at every `await`. -/
def alternating : List Bool :=
  [true, false, true, false, true, false, true, false]

/-! ## Admission by createTeam and joinTeam, stated on the store -/

/-- The document `new Team({ name, code, leaderId, members: [leaderId], eventId, status })`
built by `createTeam`. -/
def newTeam (s : Store) (u : Nat) (name code : String) (eid : Nat) (ev : Event) : Team :=
  { id := s.nextId, name := name, code := code, leaderId := u, members := [u], eventId := eid,
    status := if ev.minTeamSize ≤ 1 then TeamStatus.Complete else TeamStatus.Forming }

/-- The team document as the schema stores it: name and code trimmed, code upper-cased. -/
def storedTeam (t : Team) : Team :=
  { t with name := trimmed t.name, code := toUpperCase (trimmed t.code) }

/-- Every guard of `createTeam` lets the request through. -/
structure CreateAdmissible (s : Store) (u : Nat) (name : String) (eid : Nat) (ev : Event) :
    Prop where
  named : name ≠ ""
  found : findEvent s eid = some ev
  teamEvent : ev.isTeamEvent = true
  notInTeam : s.teams.any (isTeamOf u eid) = false
  noTicket : findConfirmedTicket s u eid = none
  room : teamLimitReached s ev eid = false

/-- The filter `{ code, eventId }`; the code is compared as the request sends it. -/
def isTeamWithCode (code : String) (eid : Nat) (t : Team) : Bool :=
  t.code == code && t.eventId == eid

/-- Every guard of `joinTeam` lets the request through; `team` is the team the code
resolves to. -/
structure JoinAdmissible (s : Store) (u : Nat) (code : String) (eid : Nat) (team : Team)
    (ev : Event) : Prop where
  coded : code ≠ ""
  resolved : s.teams.find? (isTeamWithCode code eid) = some team
  found : findEvent s eid = some ev
  notFull : ¬ ev.maxTeamSize ≤ (team.members.length : ℚ)
  notInTeam : s.teams.any (isTeamOf u eid) = false
  noTicket : findConfirmedTicket s u eid = none

/-- The team document saved by `joinTeam`: the joiner is pushed and the status is set to
Complete when the push completes a Forming team. -/
def joinedTeam (ev : Event) (team : Team) (u : Nat) : Team :=
  team.withMembers (team.members ++ [u])
    (if completesTeam ev team (team.members ++ [u]) then TeamStatus.Complete else team.status)

/-- The store after `team.save()` in `joinTeam`. -/
def afterJoinSave (s : Store) (code : String) (eid : Nat) (ev : Event) (team : Team)
    (u : Nat) : Store :=
  { s with teams := updateTeamIn code eid (joinedTeam ev team u) s.teams }

/-! ## Invariants of the team collection -/

/-- No user is leader or member of two teams of one event, and no member list repeats a
user. -/
def OneTeamPerUser (ts : List Team) : Prop :=
  (∀ t ∈ ts, t.members.Nodup) ∧
    ts.Pairwise (fun a b => ∀ u e, ¬ (isTeamOf u e a = true ∧ isTeamOf u e b = true))

/-- A team event whose teams need two members and may have up to three. -/
def duoEvent : Event :=
  { sampleEvent with
    formFields := [], isTeamEvent := true, maxParticipants := none, minTeamSize := 2,
    maxTeamSize := 3 }

/-- A store holding `duoEvent` and nothing else. -/
def duoStore : Store :=
  { events := [duoEvent], tickets := [], teams := [], nextId := 0 }

/-- The store `duoStore` after user 1 has created the team "Alpha", whose code is ABCDEF. -/
def duoFormingStore : Store :=
  (createTeam duoStore 1 "Alpha" (some 7) ["0.abcdefgh"]).1

/-- The store `duoFormingStore` after user 2 has joined the team, which completes it. -/
def duoCompleteStore : Store :=
  (joinTeam duoFormingStore 2 "ABCDEF" (some 7)).1

/-- User 1 creates the team "Alpha" on `duoEvent`; users 2, 3 and 4 then ask to join it. -/
def duoRequests : List Op :=
  [Op.createTeam 1 "Alpha" (some 7) ["0.abcdefgh"], Op.joinTeam 2 "ABCDEF" (some 7),
   Op.joinTeam 3 "ABCDEF" (some 7), Op.joinTeam 4 "ABCDEF" (some 7)]

/-- The event `duoEvent` with a team size limit of 2.5. -/
def halfDuoEvent : Event :=
  { duoEvent with maxTeamSize := 5 / 2 }

/-- A store holding `halfDuoEvent` and nothing else. -/
def halfDuoStore : Store :=
  { events := [halfDuoEvent], tickets := [], teams := [], nextId := 0 }

/-- User 1 creates the team "Alpha"; users 2 and 3 then ask to join it. -/
def trioRequests : List Op :=
  [Op.createTeam 1 "Alpha" (some 7) ["0.abcdefgh"], Op.joinTeam 2 "ABCDEF" (some 7),
   Op.joinTeam 3 "ABCDEF" (some 7)]

/-- A team that is Complete at some position of the first collection is Complete, with the
same id, at the same position of the second. -/
def StaysComplete (ts ts2 : List Team) : Prop :=
  ∀ (i : Nat) (t : Team), ts[i]? = some t → t.status = TeamStatus.Complete →
    ∃ t2, ts2[i]? = some t2 ∧ t2.id = t.id ∧ t2.status = TeamStatus.Complete

/-! ## Tickets of a team -/

/-- The ticket with id `n` that a team handler inserts for a member: Confirmed, tagged
with the team id, without answers. -/
def teamTicket (e tid n m : Nat) : Ticket :=
  { id := n, userId := m, eventId := e, teamId := some tid, answers := [],
    status := TicketStatus.Confirmed, checkedIn := false }

/-- The tickets inserted by a fan-out in which every insert goes through: one ticket per
member, with consecutive fresh ids. -/
def teamTickets (e tid : Nat) : Nat → List Nat → List Ticket
  | _, [] => []
  | n, m :: ms => teamTicket e tid n m :: teamTickets e tid (n + 1) ms

/-- A Confirmed ticket of the user for the event that is tagged with the team id. -/
def isTeamTicketOf (userId eventId teamId : Nat) (t : Ticket) : Bool :=
  isConfirmedTicketOf userId eventId t && t.teamId == some teamId

/-- The team "Alpha" as stored in `duoFormingStore`. -/
def alphaForming : Team :=
  { id := 0, name := "Alpha", code := "ABCDEF", leaderId := 1, members := [1], eventId := 7,
    status := TeamStatus.Forming }

/-- The team "Alpha" as stored in `duoCompleteStore`. -/
def alphaComplete : Team :=
  { id := 0, name := "Alpha", code := "ABCDEF", leaderId := 1, members := [1, 2], eventId := 7,
    status := TeamStatus.Complete }

/-- On `duoEvent`, user 1 registers and cancels, then creates the team "Alpha": the
leader keeps a Cancelled ticket row for the event. -/
def leaderCancelledStore : Store :=
  run duoStore [Op.register 1 7 (some []) 5, Op.cancel 1 7,
    Op.createTeam 1 "Alpha" (some 7) ["0.abcdefgh"]]

/-- On `duoEvent`, user 2 registers and cancels, then user 1 creates the team "Alpha": the
future joiner keeps a Cancelled ticket row for the event. -/
def joinerCancelledStore : Store :=
  run duoStore [Op.register 2 7 (some []) 5, Op.cancel 2 7,
    Op.createTeam 1 "Alpha" (some 7) ["0.abcdefgh"]]

/-- The members of a team that hold no Confirmed ticket for the event. -/
def unticketed (s : Store) (e : Nat) (members : List Nat) : List Nat :=
  members.filter (fun m => (findConfirmedTicket s m e).isNone)

/-- The team "Alpha" as stored in `leaderCancelledStore` and in `joinerCancelledStore`. -/
def alphaLate : Team :=
  { alphaForming with id := 1 }

/-- On `soloTeamEvent`, user 1 has registered and cancelled: a Cancelled ticket row of
user 1 remains. -/
def cancelledSoloStore : Store :=
  run soloTeamStore [Op.register 1 7 (some []) 5, Op.cancel 1 7]

/-- A published event without capacity bound whose form has the required field "Age". -/
def ageEvent : Event :=
  { sampleEvent with
    formFields := [{ label := "Age", required := true }], maxParticipants := none }

/-- A store holding `ageEvent` and nothing else. -/
def ageStore : Store :=
  { events := [ageEvent], tickets := [], teams := [], nextId := 0 }

/-- The answer to "Age" is the number 0. -/
def zeroAnswers : List Answer :=
  [{ label := "Age", value := JsValue.num 0 }]

/-- The answer to "Age" is the number 1. -/
def oneAnswers : List Answer :=
  [{ label := "Age", value := JsValue.num 1 }]

/-- The store `soloTeamStore` with its event still a Draft. -/
def draftSoloStore : Store :=
  { soloTeamStore with events := [{ soloTeamEvent with status := EventStatus.Draft }] }

/-- The store `soloTeamStore` with the registration deadline of its event at time 0. -/
def lateSoloStore : Store :=
  { soloTeamStore with events := [{ soloTeamEvent with registrationDeadline := 0 }] }

/-- The store `duoFormingStore` after the organizer has closed the event, with the
registration deadline at time 0. -/
def closedDuoStore : Store :=
  { duoFormingStore with
    events := [{ duoEvent with status := EventStatus.Closed, registrationDeadline := 0 }] }

/-- The team "Alpha" as stored after `duoRequests`: users 2 and 3 have joined, user 4 was
refused. -/
def alphaFull : Team :=
  { alphaComplete with members := [1, 2, 3] }

/-! ## Accounts (`routes/auth.js`, `routes/users.js`, `routes/admin.js`, `models/User.js`) -/

inductive Role
  | Participant
  | Organizer
  | Admin
  deriving DecidableEq, Repr

/-- The stored credential.  `hashPassword` and `comparePassword` of `utils/auth.js` are
taken as a pair for which the hash of `p` matches `q` exactly when `p = q`; the hash is
kept as the text it was made from. -/
structure Hash where
  plain : String
  deriving DecidableEq, Repr

/-- The function `hashPassword(password)`. -/
def hashPassword (password : String) : Hash :=
  { plain := password }

/-- The function `comparePassword(password, hash)`. -/
def comparePassword (password : String) (hash : Hash) : Bool :=
  hash.plain == password

/-- The User document (`models/User.js`); only the parts read by the handlers. -/
structure User where
  id : Nat
  name : String
  email : String
  password : Hash
  role : Role
  isIIIT : Bool
  deriving DecidableEq, Repr

/-- The collection of users and the source of fresh object ids. -/
structure UserStore where
  users : List User
  nextId : Nat
  deriving DecidableEq, Repr

/-- The method `toLowerCase()` on a text whose letters are those of ASCII: A to Z become
a to z and every other character stays.  The sample requests are of this kind; the handlers
take the method as their parameter `toLowerCase`, so that what is proved of them holds for
the method on every text. -/
def asciiLowerCase (s : String) : String :=
  String.mk (s.data.map Char.toLower)

/-- The tail `\S+\.\S+$` of the e-mail pattern on a text without white space: some dot
has a character before it and a character after it. -/
def dotInside (cs : List Char) : Bool :=
  (cs.drop 1).dropLast.contains '.'

/-- The part `@\S+\.\S+$` of the e-mail pattern, tried at every position. -/
def atInside : List Char → Bool
  | [] => false
  | c :: cs => (c == '@' && dotInside cs) || atInside cs

/-- The validator `match: /^\S+@\S+\.\S+$/` of `userSchema.email`. -/
def emailPattern (s : String) : Bool :=
  s.data.all (fun c => !isJsWhitespace c) &&
    match s.data with
    | [] => false
    | _ :: cs => atInside cs

/-- The class `[a-zA-Z0-9._%+-]` of the IIIT pattern. -/
def isLocalChar (c : Char) : Bool :=
  c.isAlphanum || c == '.' || c == '_' || c == '%' || c == '+' || c == '-'

/-- The class `[a-zA-Z0-9-]` of the IIIT pattern. -/
def isLabelChar (c : Char) : Bool :=
  c.isAlphanum || c == '-'

/-- The part `([a-zA-Z0-9-]+\.)*iiit\.ac\.in$` of the IIIT pattern, flag `i`; the flag
tells whether a label has been entered. -/
def iiitDomain : Bool → List Char → Bool
  | _, [] => false
  | inLabel, c :: cs =>
    (!inLabel && (c :: cs).map Char.toLower == "iiit.ac.in".data) ||
      (isLabelChar c && iiitDomain true cs) ||
      (inLabel && c == '.' && iiitDomain false cs)

/-- The part `[a-zA-Z0-9._%+-]*@...` of the IIIT pattern, after the first character. -/
def iiitLocal : List Char → Bool
  | [] => false
  | c :: cs => (c == '@' && iiitDomain false cs) || (isLocalChar c && iiitLocal cs)

/-- The test `IIIT_EMAIL_REGEX.test(email)`, for
`/^[a-zA-Z0-9._%+-]+@([a-zA-Z0-9-]+\.)*iiit\.ac\.in$/i`. -/
def IIIT_EMAIL_REGEX (email : String) : Bool :=
  match email.data with
  | [] => false
  | c :: cs => isLocalChar c && iiitLocal cs

/-- The setters `lowercase: true` and `trim: true` of `userSchema.email`.  They run on a
value that is assigned to a document and on the value of a query filter, the one declared
last first: the value is trimmed, then lower-cased. -/
def emailSetter (toLowerCase : String → String) (email : String) : String :=
  toLowerCase (trimmed email)

/-- The document as the setters of the schema store it: the name is trimmed, the e-mail
goes through `emailSetter`. -/
def storedUser (toLowerCase : String → String) (u : User) : User :=
  { u with name := trimmed u.name, email := emailSetter toLowerCase u.email }

/-- Schema validation of a user: a name and an e-mail are required and the e-mail
matches the pattern.  The stored password is a bcrypt hash, longer than the 6
characters the schema asks for. -/
def userSchemaValid (toLowerCase : String → String) (u : User) : Bool :=
  (storedUser toLowerCase u).name != "" && emailPattern (storedUser toLowerCase u).email

/-- The call `user.save()` for a new user: schema validation, then the insert.  The
collection has no unique index on `email`. -/
def saveNewUser (toLowerCase : String → String) (s : UserStore) (u : User) :
    Option UserStore :=
  if userSchemaValid toLowerCase u then
    some { users := s.users ++ [storedUser toLowerCase u], nextId := s.nextId + 1 }
  else none

/-- The filter `{ email }` of `User.find` and `User.findOne`: the value of the filter goes
through the setters of the schema, then the stored e-mail is compared with it. -/
def hasEmail (toLowerCase : String → String) (email : String) (u : User) : Bool :=
  u.email == emailSetter toLowerCase email

inductive RegisterUserResult
  | missingFields
  | passwordTooShort
  | invalidEmailDomain
  | emailAlreadyRegistered
  | passwordInUse
  | serverError
  | created (user : User)
  deriving DecidableEq, Repr

/-- The document `new User({ name, email, password, role, isIIIT })`. -/
def newUser (s : UserStore) (name email : String) (password : Hash) (role : Role)
    (isIIIT : Bool) : User :=
  { id := s.nextId, name := name, email := email, password := password, role := role,
    isIIIT := isIIIT }

/-- The tail of `POST /api/auth/register`: hash, create, save. -/
def createUser (toLowerCase : String → String) (s : UserStore)
    (name normalizedEmail password : String) (isIIIT : Bool) :
    UserStore × RegisterUserResult :=
  let user := newUser s name normalizedEmail (hashPassword password) Role.Participant isIIIT
  match saveNewUser toLowerCase s user with
  | none => (s, RegisterUserResult.serverError)
  | some s1 => (s1, RegisterUserResult.created (storedUser toLowerCase user))

/-- The handler of `POST /api/auth/register`; a field the body lacks is the empty text.
The parameter `toLowerCase` is the method of that name. -/
def registerUser (toLowerCase : String → String) (s : UserStore)
    (name email password : String) (isIIIT : Bool) : UserStore × RegisterUserResult :=
  if name = "" ∨ email = "" ∨ password = "" then (s, RegisterUserResult.missingFields)
  else if jsLength password < 6 then (s, RegisterUserResult.passwordTooShort)
  else
    let normalizedEmail := toLowerCase email
    if isIIIT then
      if IIIT_EMAIL_REGEX normalizedEmail = false then
        (s, RegisterUserResult.invalidEmailDomain)
      else if (s.users.find? (hasEmail toLowerCase normalizedEmail)).isSome then
        (s, RegisterUserResult.emailAlreadyRegistered)
      else createUser toLowerCase s name normalizedEmail password isIIIT
    else
      let existingUsers := s.users.filter (hasEmail toLowerCase normalizedEmail)
      if existingUsers.any (fun user => comparePassword password user.password) then
        (s, RegisterUserResult.passwordInUse)
      else createUser toLowerCase s name normalizedEmail password isIIIT

inductive LoginResult
  | missingFields
  | invalidCredentials
  | success (user : User)
  deriving DecidableEq, Repr

/-- The handler of `POST /api/auth/login`.  The parameter `toLowerCase` is the method of
that name. -/
def login (toLowerCase : String → String) (s : UserStore) (email password : String) :
    LoginResult :=
  if email = "" ∨ password = "" then LoginResult.missingFields
  else
    let users := s.users.filter (hasEmail toLowerCase (toLowerCase email))
    if users.length = 0 then LoginResult.invalidCredentials
    else
      match users.find? (fun user => comparePassword password user.password) with
      | none => LoginResult.invalidCredentials
      | some authenticatedUser => LoginResult.success authenticatedUser

inductive ChangePasswordResult
  | serverError
  | invalidCurrentPassword
  | success
  deriving DecidableEq, Repr

/-- The update `user.save()` after `user.password = hash`, for the user found by id. -/
def setPasswordIn (userId : Nat) (hash : Hash) : List User → List User
  | [] => []
  | u :: us =>
    if u.id = userId then { u with password := hash } :: us
    else u :: setPasswordIn userId hash us

/-- The handler of `POST /api/users/change-password`; `userId` comes from the token.
Reading the password of a user that is not found throws, which the handler answers
with 500. -/
def changePassword (s : UserStore) (userId : Nat) (currentPassword newPassword : String) :
    UserStore × ChangePasswordResult :=
  match s.users.find? (fun u => u.id == userId) with
  | none => (s, ChangePasswordResult.serverError)
  | some user =>
    if comparePassword currentPassword user.password = false then
      (s, ChangePasswordResult.invalidCurrentPassword)
    else
      ({ s with users := setPasswordIn userId (hashPassword newPassword) s.users },
        ChangePasswordResult.success)

inductive CreateOrganizerResult
  | missingFields
  | emailAlreadyRegistered
  | serverError
  | created (user : User) (password : String)
  deriving DecidableEq, Repr

/-- The handler of `POST /api/admin/organizers`, behind `checkRole(['Admin'])`.  The
helper `generatePassword` of `utils/passwordGenerator` is not part of the sources at
hand: the text it returns is the parameter `generatedPassword`. -/
def createOrganizer (toLowerCase : String → String) (s : UserStore)
    (name email generatedPassword : String) : UserStore × CreateOrganizerResult :=
  if name = "" ∨ email = "" then (s, CreateOrganizerResult.missingFields)
  else if (s.users.find? (hasEmail toLowerCase (toLowerCase email))).isSome then
    (s, CreateOrganizerResult.emailAlreadyRegistered)
  else
    let organizer :=
      newUser s name (toLowerCase email) (hashPassword generatedPassword) Role.Organizer false
    match saveNewUser toLowerCase s organizer with
    | none => (s, CreateOrganizerResult.serverError)
    | some s1 =>
      (s1, CreateOrganizerResult.created (storedUser toLowerCase organizer) generatedPassword)

/-- A request that changes the collection of users. -/
inductive AuthOp
  | register (name email password : String) (isIIIT : Bool)
  | changePassword (userId : Nat) (currentPassword newPassword : String)
  | createOrganizer (name email generatedPassword : String)
  deriving DecidableEq, Repr

/-- The collection after one request. -/
def AuthOp.apply (toLowerCase : String → String) (s : UserStore) : AuthOp → UserStore
  | AuthOp.register name email password isIIIT =>
    (registerUser toLowerCase s name email password isIIIT).1
  | AuthOp.changePassword userId cur new => (Felicity.changePassword s userId cur new).1
  | AuthOp.createOrganizer name email pw =>
    (Felicity.createOrganizer toLowerCase s name email pw).1

/-- The collection after a sequence of requests served one after the other. -/
def runAuth (toLowerCase : String → String) (s : UserStore) (ops : List AuthOp) : UserStore :=
  ops.foldl (AuthOp.apply toLowerCase) s

/-- The collection without users. -/
def noUsers : UserStore :=
  { users := [], nextId := 0 }

/-! ## Updating and publishing an event (`PUT /api/events/:id`, `PATCH /api/events/:id/publish`) -/

/-- The middleware `checkRole(allowedRoles)` for an authenticated request: whether the
role of the token is let through. -/
def checkRole (allowedRoles : List Role) (role : Role) : Bool :=
  allowedRoles.contains role

/-- The body of `PUT /api/events/:id`; `none` stands for a property the body lacks.  For
the numbers that may be null the inner `none` is the value null.  A text is the text
sent, a date is the time the text sent denotes, and a status is one of the six names
of the schema.  The properties `tags` and `eligibility`, which are only copied to the
Draft document, are left out. -/
structure EventUpdate where
  name : Option String := none
  description : Option String := none
  type : Option EventType := none
  startDate : Option Int := none
  endDate : Option Int := none
  registrationDeadline : Option Int := none
  formFields : Option (List FormField) := none
  maxParticipants : Option (Option ℚ) := none
  price : Option (Option ℚ) := none
  stock : Option (Option ℚ) := none
  status : Option EventStatus := none
  isTeamEvent : Option Bool := none
  minTeamSize : Option ℚ := none
  maxTeamSize : Option ℚ := none
  maxTeams : Option (Option ℚ) := none
  deriving DecidableEq, Repr

/-- Truthiness of a text of the body, as tested by `if (name)`. -/
def textTruthy : Option String → Bool
  | none => false
  | some t => t != ""

/-- Truthiness of a number of the body that may be absent or null. -/
def bodyNumTruthy : Option (Option ℚ) → Bool
  | none => false
  | some n => numTruthy n

/-- The test `event.participants && event.participants.length > 0`. -/
def hasRegistrations (event : Event) : Bool :=
  decide (event.participants.length > 0)

/-- The edits of a Draft event ("free edits allowed"), on the parts of the document
kept here. -/
def draftEdits (event : Event) (body : EventUpdate) : Event :=
  { event with
    type := body.type.getD event.type,
    registrationDeadline := body.registrationDeadline.getD event.registrationDeadline,
    formFields := body.formFields.getD event.formFields,
    maxParticipants := body.maxParticipants.getD event.maxParticipants,
    stock := body.stock.getD event.stock,
    isTeamEvent := body.isTeamEvent.getD event.isTeamEvent,
    minTeamSize := body.minTeamSize.getD event.minTeamSize,
    maxTeamSize := body.maxTeamSize.getD event.maxTeamSize,
    maxTeams := body.maxTeams.getD event.maxTeams }

/-- The edits of a Published event ("limited edits"), on the parts of the document kept
here. -/
def publishedEdits (event : Event) (body : EventUpdate) : Event :=
  { event with
    registrationDeadline := body.registrationDeadline.getD event.registrationDeadline,
    maxParticipants := body.maxParticipants.getD event.maxParticipants,
    stock := body.stock.getD event.stock,
    maxTeams := body.maxTeams.getD event.maxTeams }

/-- The test of the branch for Ongoing, Completed and Closed events: the body carries a
detail of the event. -/
def carriesDetails (body : EventUpdate) : Bool :=
  textTruthy body.name || textTruthy body.description || body.startDate.isSome ||
    body.endDate.isSome || body.registrationDeadline.isSome || body.formFields.isSome ||
    bodyNumTruthy body.maxParticipants || bodyNumTruthy body.price ||
    bodyNumTruthy body.stock

/-- The editing rules by status; `none` is the answer 'Cannot update event details'. -/
def applyEdits (event : Event) (body : EventUpdate) : Option Event :=
  match event.status with
  | EventStatus.Draft => some (draftEdits event body)
  | EventStatus.Published => some (publishedEdits event body)
  | EventStatus.Cancelled => some event
  | _ => if carriesDetails body then none else some event

/-- The table `validTransitions`. -/
def validTransitions : EventStatus → List EventStatus
  | EventStatus.Draft => [EventStatus.Published]
  | EventStatus.Published => [EventStatus.Ongoing, EventStatus.Closed, EventStatus.Cancelled]
  | EventStatus.Ongoing => [EventStatus.Completed, EventStatus.Cancelled]
  | EventStatus.Closed => [EventStatus.Published, EventStatus.Ongoing, EventStatus.Cancelled]
  | EventStatus.Completed => []
  | EventStatus.Cancelled => []

/-- The status change of `PUT /api/events/:id`; `none` is the answer 'Invalid status
transition'. -/
def applyStatus (event : Event) (role : Role) : Option EventStatus → Option Event
  | none => some event
  | some status =>
    if event.status = status then some event
    else if (validTransitions event.status).contains status then
      some { event with status := status }
    else if role = Role.Admin then some { event with status := status }
    else none

/-- A text that the schema trims and requires is blank. -/
def blankText : Option String → Bool
  | none => false
  | some t => t != "" && trimmed t == ""

/-- A number below the `min: 0` of the schema. -/
def belowZero : Option (Option ℚ) → Bool
  | some (some n) => decide (n < 0)
  | _ => false

/-- Schema validation by `event.save()` of the values a body has put into the document:
`name` and `description` are trimmed and required, `price` and `stock` have `min: 0`.
The first argument is the status of the event before the edits. -/
def editsValid (status : EventStatus) (body : EventUpdate) : Bool :=
  match status with
  | EventStatus.Draft =>
    !(blankText body.name || blankText body.description || belowZero body.price ||
      belowZero body.stock)
  | EventStatus.Published => !(blankText body.description || belowZero body.stock)
  | _ => true

/-- The update `event.save()` for the event found by id. -/
def saveEventIn (saved : Event) : List Event → List Event
  | [] => []
  | e :: es =>
    if e.id = saved.id then saved :: es
    else e :: saveEventIn saved es

/-- The update `event.save()` on the store. -/
def saveEvent (s : Store) (saved : Event) : Store :=
  { s with events := saveEventIn saved s.events }

inductive UpdateEventResult
  | accessForbidden
  | eventNotFound
  | accessDenied
  | formFieldsLocked
  | detailsLocked
  | invalidTransition
  | serverError
  | success (event : Event)
  deriving DecidableEq, Repr

/-- The handler of `PUT /api/events/:id`; `userId` and `role` come from the token. -/
def updateEvent (s : Store) (userId : Nat) (role : Role) (id : Nat) (body : EventUpdate) :
    Store × UpdateEventResult :=
  match findEvent s id with
  | none => (s, UpdateEventResult.eventNotFound)
  | some event =>
    if event.organizerId ≠ userId then (s, UpdateEventResult.accessDenied)
    else if hasRegistrations event && body.formFields.isSome then
      (s, UpdateEventResult.formFieldsLocked)
    else
      match applyEdits event body with
      | none => (s, UpdateEventResult.detailsLocked)
      | some edited =>
        match applyStatus edited role body.status with
        | none => (s, UpdateEventResult.invalidTransition)
        | some saved =>
          if editsValid event.status body then
            (saveEvent s saved, UpdateEventResult.success saved)
          else (s, UpdateEventResult.serverError)

/-- The route `PUT /api/events/:id`: `checkRole(['Organizer'])`, then the handler. -/
def putEvent (s : Store) (userId : Nat) (role : Role) (id : Nat) (body : EventUpdate) :
    Store × UpdateEventResult :=
  if checkRole [Role.Organizer] role then updateEvent s userId role id body
  else (s, UpdateEventResult.accessForbidden)

inductive PublishResult
  | accessForbidden
  | eventNotFound
  | accessDenied
  | notDraft
  | success (event : Event)
  deriving DecidableEq, Repr

/-- The handler of `PATCH /api/events/:id/publish`. -/
def publishEvent (s : Store) (userId : Nat) (id : Nat) : Store × PublishResult :=
  match findEvent s id with
  | none => (s, PublishResult.eventNotFound)
  | some event =>
    if event.organizerId ≠ userId then (s, PublishResult.accessDenied)
    else if event.status ≠ EventStatus.Draft then (s, PublishResult.notDraft)
    else
      (saveEvent s { event with status := EventStatus.Published },
        PublishResult.success { event with status := EventStatus.Published })

/-- The route `PATCH /api/events/:id/publish`: `checkRole(['Organizer'])`, then the
handler. -/
def patchPublish (s : Store) (userId : Nat) (role : Role) (id : Nat) : Store × PublishResult :=
  if checkRole [Role.Organizer] role then publishEvent s userId id
  else (s, PublishResult.accessForbidden)

/-- A body that carries a status and nothing else. -/
def statusOnly (status : EventStatus) : EventUpdate :=
  { status := some status }

/-- A body that carries form fields and nothing else. -/
def formFieldsOnly (fields : List FormField) : EventUpdate :=
  { formFields := some fields }

/-! ## Scanning a ticket (`POST /api/tickets/scan`) -/

/-- The query `Ticket.findById(ticketId)`. -/
def findTicketById (s : Store) (ticketId : Nat) : Option Ticket :=
  s.tickets.find? (fun t => t.id == ticketId)

/-- The update `ticket.save()` after `ticket.checkedIn = true`, for the ticket found by
id.  The time of the check-in is not kept. -/
def checkInTicketIn (ticketId : Nat) : List Ticket → List Ticket
  | [] => []
  | t :: ts =>
    if t.id = ticketId then { t with checkedIn := true } :: ts
    else t :: checkInTicketIn ticketId ts

inductive ScanResult
  | missingTicketId
  | ticketNotFound
  | serverError
  | accessDenied
  | invalidTicket (status : TicketStatus)
  | alreadyScanned
  | success (ticketId userId : Nat)
  deriving DecidableEq, Repr

/-- The handler of `POST /api/tickets/scan`, behind `checkRole(['Organizer'])`;
`organizerId` comes from the token.  Reading the organizer of an event that
`populate` has not found throws, which the handler answers with 500. -/
def scanTicket (s : Store) (ticketId : Option Nat) (organizerId : Nat) : Store × ScanResult :=
  match ticketId with
  | none => (s, ScanResult.missingTicketId)
  | some ticketId =>
    match findTicketById s ticketId with
    | none => (s, ScanResult.ticketNotFound)
    | some ticket =>
      match findEvent s ticket.eventId with
      | none => (s, ScanResult.serverError)
      | some event =>
        if event.organizerId ≠ organizerId then (s, ScanResult.accessDenied)
        else if ticket.status ≠ TicketStatus.Confirmed then
          (s, ScanResult.invalidTicket ticket.status)
        else if ticket.checkedIn then (s, ScanResult.alreadyScanned)
        else
          ({ s with tickets := checkInTicketIn ticketId s.tickets },
            ScanResult.success ticket.id ticket.userId)

/-- The answer of `scanTicket` is the 200 response. -/
def ScanResult.isSuccess : ScanResult → Bool
  | ScanResult.success _ _ => true
  | _ => false

/-- A scan request: the ticket id of the body and the organizer of the token. -/
structure ScanCall where
  ticketId : Option Nat
  organizerId : Nat
  deriving DecidableEq, Repr

/-- The number of requests of the sequence, served one after the other, that are
answered with a successful check-in of the ticket `ticketId`. -/
def checkIns (ticketId : Nat) : Store → List ScanCall → Nat
  | _, [] => 0
  | s, c :: cs =>
    (if c.ticketId = some ticketId ∧ (scanTicket s c.ticketId c.organizerId).2.isSuccess = true
      then 1 else 0) + checkIns ticketId (scanTicket s c.ticketId c.organizerId).1 cs

/-! ## Analytics of an event (`GET /api/events/:id/analytics`) -/

/-- The name under which a team status is stored (`enum: ['Forming', 'Complete']`). -/
def TeamStatus.name : TeamStatus → String
  | TeamStatus.Forming => "Forming"
  | TeamStatus.Complete => "Complete"

/-- The object `teamStats`. -/
structure TeamStats where
  totalTeams : Nat
  completedTeams : Nat
  deriving DecidableEq, Repr

/-- The figures of the 200 response that come from the collections kept here. -/
structure Analytics where
  totalRegistrations : Nat
  totalAttendance : Nat
  capacity : Option ℚ
  teamStats : Option TeamStats
  status : EventStatus
  deriving DecidableEq, Repr

inductive AnalyticsResult
  | eventNotFound
  | accessDenied
  | ok (figures : Analytics)
  deriving DecidableEq, Repr

/-- The query `Team.countDocuments({ eventId, status })` for a status given by name. -/
def teamCountWithStatus (s : Store) (eventId : Nat) (status : String) : Nat :=
  s.teams.countP (fun t => t.eventId == eventId && t.status.name == status)

/-- The handler of `GET /api/events/:id/analytics`, behind `checkRole(['Organizer'])`. -/
def analytics (s : Store) (userId : Nat) (id : Nat) : AnalyticsResult :=
  match findEvent s id with
  | none => AnalyticsResult.eventNotFound
  | some event =>
    if event.organizerId ≠ userId then AnalyticsResult.accessDenied
    else
      let tickets := s.tickets.filter (fun t => t.eventId == event.id)
      let totalRegistrations :=
        (tickets.filter (fun t => t.status == TicketStatus.Confirmed)).length
      let totalAttendance := (tickets.filter (fun t => t.checkedIn)).length
      let teamStats :=
        if event.isTeamEvent then
          some
            { totalTeams := teamCount s event.id,
              completedTeams := teamCountWithStatus s event.id "Completed" }
        else none
      AnalyticsResult.ok
        { totalRegistrations := totalRegistrations, totalAttendance := totalAttendance,
          capacity := event.maxParticipants, teamStats := teamStats, status := event.status }

/-- The number of teams of the event that have completed formation. -/
def completeTeams (s : Store) (eventId : Nat) : Nat :=
  s.teams.countP (fun t => t.eventId == eventId && t.status == TeamStatus.Complete)

/-! ## Properties of the collection of users and sample requests -/

/-- No two accounts have the same e-mail and stored credentials that match one and the
same password. -/
def IdentityKey (s : UserStore) : Prop :=
  s.users.Pairwise (fun u v =>
    ¬ (u.email = v.email ∧
      ∃ p, comparePassword p u.password = true ∧ comparePassword p v.password = true))

/-- An account with `isIIIT = true` is the only account under its e-mail. -/
def IIITEmailsUnique (s : UserStore) : Prop :=
  ∀ u ∈ s.users, u.isIIIT = true → s.users.countP (fun v => v.email == u.email) = 1

/-- Two guests register under one e-mail with the passwords secret1 and secret2; the
second then changes the password to secret1. -/
def identityClash : List AuthOp :=
  [AuthOp.register "Ann" "ann@mail.com" "secret1" false,
   AuthOp.register "Bob" "ann@mail.com" "secret2" false,
   AuthOp.changePassword 1 "secret2" "secret1"]

/-- The account of Ann after `identityClash`. -/
def annGuest : User :=
  { id := 0, name := "Ann", email := "ann@mail.com", password := hashPassword "secret1",
    role := Role.Participant, isIIIT := false }

/-- The account of Bob after `identityClash`. -/
def bobGuest : User :=
  { id := 1, name := "Bob", email := "ann@mail.com", password := hashPassword "secret1",
    role := Role.Participant, isIIIT := false }

/-- An IIIT student registers; a guest then registers under the same e-mail with another
password. -/
def iiitThenGuest : List AuthOp :=
  [AuthOp.register "Ann" "ann@iiit.ac.in" "secret1" true,
   AuthOp.register "Bob" "ann@iiit.ac.in" "secret2" false]

/-- The account of the student after `iiitThenGuest`. -/
def annStudent : User :=
  { id := 0, name := "Ann", email := "ann@iiit.ac.in", password := hashPassword "secret1",
    role := Role.Participant, isIIIT := true }

/-- The account of the guest after `iiitThenGuest`. -/
def bobShared : User :=
  { id := 1, name := "Bob", email := "ann@iiit.ac.in", password := hashPassword "secret2",
    role := Role.Participant, isIIIT := false }

/-- The store `sampleStore` after user 2 has registered for the event: one Confirmed
ticket exists for it. -/
def registeredStore : Store :=
  (register sampleStore 2 7 (some sampleAnswers) 5).1

/-- The store `draftSoloStore` after user 2 has created a team, which is complete at
once: one Confirmed ticket exists for the Draft event. -/
def draftTicketStore : Store :=
  (createTeam draftSoloStore 2 "Alpha" (some 7) ["0.abcdefgh"]).1

/-- The store `duoStore` after user 2 has created the team "Alpha" and user 3 has joined
it, which completes the team: the tickets 1 and 2 are those of users 2 and 3. -/
def completeTeamStore : Store :=
  run duoStore [Op.createTeam 2 "Alpha" (some 7) ["0.abcdefgh"], Op.joinTeam 3 "ABCDEF" (some 7)]

/-- Another form than the one of `sampleEvent`. -/
def ageForm : List FormField :=
  [{ label := "Age", required := true }]

/-! ## The transition table as the specification words it -/

/-- The table of the specification: Draft to Published; Published to Ongoing, Closed,
Cancelled; Ongoing to Completed, Cancelled; Closed to Published, Ongoing, Cancelled. -/
def specTransitions : List (EventStatus × EventStatus) :=
  [(EventStatus.Draft, EventStatus.Published),
   (EventStatus.Published, EventStatus.Ongoing),
   (EventStatus.Published, EventStatus.Closed),
   (EventStatus.Published, EventStatus.Cancelled),
   (EventStatus.Ongoing, EventStatus.Completed),
   (EventStatus.Ongoing, EventStatus.Cancelled),
   (EventStatus.Closed, EventStatus.Published),
   (EventStatus.Closed, EventStatus.Ongoing),
   (EventStatus.Closed, EventStatus.Cancelled)]

/-- The event with another status. -/
def Event.withStatus (event : Event) (status : EventStatus) : Event :=
  { event with status := status }

/-- The answer of the publish operation is the 200 response. -/
def PublishResult.isSuccess : PublishResult → Bool
  | PublishResult.success _ => true
  | _ => false

/-- The store `sampleStore` with its event Closed. -/
def closedSampleStore : Store :=
  { sampleStore with events := [sampleEvent.withStatus EventStatus.Closed] }

/-- The ticket found by id has been checked in. -/
def checkedInAlready (s : Store) (ticketId : Nat) : Prop :=
  ∃ t, findTicketById s ticketId = some t ∧ t.checkedIn = true

/-- Organizer 1 scans the tickets 1 and 2 of `completeTeamStore`, each of them twice, and
organizer 9 tries ticket 1 as well. -/
def scanCalls : List ScanCall :=
  [{ ticketId := some 1, organizerId := 1 }, { ticketId := some 2, organizerId := 1 },
   { ticketId := some 1, organizerId := 9 }, { ticketId := some 1, organizerId := 1 },
   { ticketId := some 2, organizerId := 1 }]

/-- The e-mail under which the handlers store and look up the accounts of a request: the
e-mail of the request, lower-cased by the handler and then trimmed and lower-cased by the
setters of the schema. -/
def emailKey (toLowerCase : String → String) (email : String) : String :=
  emailSetter toLowerCase (toLowerCase email)

/-- The account that a guest registration stores. -/
def guestAccount (toLowerCase : String → String) (s : UserStore)
    (name email password : String) : User :=
  { id := s.nextId, name := trimmed name, email := emailKey toLowerCase email,
    password := hashPassword password, role := Role.Participant, isIIIT := false }

/-- Every account has an id below the counter of fresh ids. -/
def FreshIds (s : UserStore) : Prop :=
  ∀ u ∈ s.users, u.id < s.nextId

/-- The e-mail of the account and the supplied password are those of the request. -/
def matchesLogin (toLowerCase : String → String) (email password : String) (u : User) :
    Bool :=
  hasEmail toLowerCase (toLowerCase email) u && comparePassword password u.password

/-- A collection with the one account `annGuest`. -/
def oneGuest : UserStore :=
  { users := [annGuest], nextId := 1 }

/-- The account of Bob as a guest with the password secret2. -/
def bobSecond : User :=
  { bobGuest with password := hashPassword "secret2" }

/-- A collection with the accounts `annGuest` and `bobSecond`, which share their e-mail. -/
def twoGuests : UserStore :=
  { users := [annGuest, bobSecond], nextId := 2 }

/-! # Theorems -/

/-! ## Whole numbers among the doubles -/

theorem log2Fuel_eq (fuel n : Nat) (h : n ≤ fuel) : log2Fuel fuel n = Nat.log2 n := by
  induction fuel generalizing n with
  | zero =>
    have : n = 0 := Nat.le_zero.mp h
    subst this
    rw [Nat.log2_zero]
    rfl
  | succ f ih =>
    unfold log2Fuel
    rw [Nat.log2]
    by_cases h2 : n < 2
    · have h3 : ¬ n ≥ 2 := Nat.not_le.mpr h2
      simp [h2, h3]
    · have h3 : n ≥ 2 := Nat.not_lt.mp h2
      simp only [h2, h3, if_false, if_true]
      rw [ih (n / 2) (by omega)]

theorem bitLog_eq (n : Nat) : bitLog n = Nat.log2 n :=
  log2Fuel_eq n n (Nat.le_refl n)

theorem roundHalfEven_intCast (m : ℤ) : roundHalfEven (m : ℚ) = m := by
  unfold roundHalfEven
  simp

/-- A number that is a whole multiple of the spacing around it is a double. -/
theorem roundDouble_of_whole_quotient {q : ℚ} (m : ℤ)
    (h : q / 2 ^ ulpExponent q = m) : roundDouble q = q := by
  unfold roundDouble
  by_cases hq : q = 0
  · rw [if_pos hq, hq]
  · rw [if_neg hq, h, roundHalfEven_intCast, ← h]
    have h2 : (2 : ℚ) ^ ulpExponent q ≠ 0 := zpow_ne_zero _ (by norm_num)
    field_simp

theorem binade_natCast {n : Nat} (hn : n ≠ 0) : binade (n : ℚ) = Nat.log2 n := by
  unfold binade
  have h1 : bitLog (n : ℚ).den = 0 := by
    rw [Rat.den_natCast]
    rfl
  have h2 : (n : ℚ).num.natAbs = n := by
    rw [Rat.num_natCast]
    rfl
  rw [h1, h2, bitLog_eq]
  have h3 : (2 : ℚ) ^ ((Nat.log2 n : ℤ) - ((0 : ℕ) : ℤ)) ≤ |(n : ℚ)| := by
    rw [Nat.cast_zero, sub_zero, zpow_natCast, abs_of_nonneg (Nat.cast_nonneg n)]
    exact_mod_cast Nat.log2_self_le hn
  rw [if_pos h3]
  simp

/-- Every whole number from 0 to 2^53 is a double. -/
theorem roundDouble_natCast (n : Nat) (h : n ≤ 2 ^ 53) : roundDouble (n : ℚ) = n := by
  by_cases hn : n = 0
  · subst hn
    simp [roundDouble]
  · have hb := binade_natCast hn
    have hlt : Nat.log2 n < 54 := (Nat.log2_lt hn).mpr (by omega)
    by_cases h53 : Nat.log2 n = 53
    · have h1 : 2 ^ 53 ≤ n := by
        have := Nat.log2_self_le hn
        rw [h53] at this
        exact this
      have h2 : n = 2 ^ 53 := Nat.le_antisymm h h1
      subst h2
      decide!
    · have hle : Nat.log2 n ≤ 52 := by omega
      have hk : ulpExponent (n : ℚ) ≤ 0 := by
        unfold ulpExponent
        rw [hb]
        apply max_le
        · have : ((Nat.log2 n : ℕ) : ℤ) ≤ 52 := by exact_mod_cast hle
          linarith
        · norm_num
      obtain ⟨j, hj⟩ : ∃ j : ℕ, ulpExponent (n : ℚ) = -(j : ℤ) :=
        ⟨(-ulpExponent (n : ℚ)).toNat, by rw [Int.toNat_of_nonneg (by linarith)]; ring⟩
      apply roundDouble_of_whole_quotient ((n * 2 ^ j : ℕ) : ℤ)
      rw [hj, zpow_neg, zpow_natCast]
      push_cast
      field_simp

/-- Taking one unit from a whole stock of 1 to 2^53 units is exact. -/
theorem roundDouble_pred {n : Nat} (h1 : 1 ≤ n) (h : n ≤ 2 ^ 53) :
    roundDouble ((n : ℚ) + -1) = ((n - 1 : ℕ) : ℚ) := by
  have hc : ((n : ℚ) + -1) = ((n - 1 : ℕ) : ℚ) := by
    rw [Nat.cast_sub h1]
    push_cast
    ring
  rw [hc]
  exact roundDouble_natCast (n - 1) (by omega)

/-- Giving one unit back to a whole stock below 2^53 units is exact. -/
theorem roundDouble_succ {n : Nat} (h : n + 1 ≤ 2 ^ 53) :
    roundDouble ((n : ℚ) + 1) = ((n + 1 : ℕ) : ℚ) := by
  have hc : ((n : ℚ) + 1) = ((n + 1 : ℕ) : ℚ) := by push_cast; ring
  rw [hc]
  exact roundDouble_natCast (n + 1) h

theorem roundHalfEven_nonneg {q : ℚ} (h : 0 ≤ q) : 0 ≤ roundHalfEven q := by
  have hf : 0 ≤ ⌊q⌋ := Int.floor_nonneg.mpr h
  unfold roundHalfEven
  split_ifs <;> omega

/-- The double nearest to a whole number that is not negative is such a number. -/
theorem roundDouble_natCast_whole (n : Nat) : ∃ m : Nat, roundDouble (n : ℚ) = m := by
  by_cases hn : n = 0
  · exact ⟨0, by subst hn; simp [roundDouble]⟩
  · by_cases hk : ulpExponent (n : ℚ) ≤ 0
    · obtain ⟨j, hj⟩ : ∃ j : ℕ, ulpExponent (n : ℚ) = -(j : ℤ) :=
        ⟨(-ulpExponent (n : ℚ)).toNat, by rw [Int.toNat_of_nonneg (by linarith)]; ring⟩
      refine ⟨n, ?_⟩
      apply roundDouble_of_whole_quotient ((n * 2 ^ j : ℕ) : ℤ)
      rw [hj, zpow_neg, zpow_natCast]
      push_cast
      field_simp
    · obtain ⟨j, hj⟩ : ∃ j : ℕ, ulpExponent (n : ℚ) = (j : ℤ) :=
        ⟨(ulpExponent (n : ℚ)).toNat, by rw [Int.toNat_of_nonneg (by linarith)]⟩
      have hq : (n : ℚ) ≠ 0 := by exact_mod_cast hn
      have hr : 0 ≤ roundHalfEven ((n : ℚ) / 2 ^ (j : ℤ)) :=
        roundHalfEven_nonneg (by positivity)
      obtain ⟨r, hr2⟩ := Int.eq_ofNat_of_zero_le hr
      refine ⟨r * 2 ^ j, ?_⟩
      unfold roundDouble
      rw [if_neg hq, hj, hr2, zpow_natCast]
      push_cast
      rfl

/-! ## Basic facts about the store primitives -/

theorem findEvent_id {s : Store} {e : Nat} {ev : Event} (h : findEvent s e = some ev) :
    ev.id = e := by
  unfold findEvent at h
  have := List.find?_some h
  simpa using this

@[simp]
theorem Event.addStock_id (x : Event) (d : ℚ) : (x.addStock d).id = x.id := rfl

theorem incStockIn_find (id : Nat) (d : ℚ) (e : Nat) (evs : List Event) :
    (incStockIn id d evs).find? (fun x => x.id == e) =
      if e = id then (evs.find? (fun x => x.id == e)).map (fun x => x.addStock d)
      else evs.find? (fun x => x.id == e) := by
  induction evs with
  | nil => simp [incStockIn]
  | cons x xs ih =>
    unfold incStockIn
    by_cases hx : x.id = id
    · by_cases he : e = id
      · subst he
        rw [if_pos hx, if_pos rfl, List.find?_cons_of_pos _ (by simp [hx]),
          List.find?_cons_of_pos _ (by simp [hx])]
        rfl
      · have h1 : ¬ x.id = e := by rw [hx]; exact fun h => he h.symm
        rw [if_pos hx, if_neg he, List.find?_cons_of_neg _ (by simpa using h1),
          List.find?_cons_of_neg _ (by simp [h1])]
    · rw [if_neg hx]
      by_cases hxe : x.id = e
      · have he : ¬ e = id := by rw [← hxe]; exact hx
        rw [if_neg he, List.find?_cons_of_pos _ (by simp [hxe]),
          List.find?_cons_of_pos _ (by simp [hxe])]
      · rw [List.find?_cons_of_neg _ (by simp [hxe]), ih,
          List.find?_cons_of_neg _ (by simp [hxe])]

/-! ## Case analysis of register -/

theorem findTicket_none_any {s : Store} {u e : Nat} (h : findTicket s u e = none) :
    s.tickets.any (isTicketOf u e) = false := by
  unfold findTicket at h
  rw [List.find?_eq_none] at h
  rw [List.any_eq_false]
  exact h

theorem saveNewTicket_eq_ok {s : Store} {t : Ticket} (hv : ticketSchemaValid t = true)
    (hk : s.tickets.any (isTicketOf t.userId t.eventId) = false) :
    saveNewTicket s t =
      Except.ok { s with tickets := s.tickets ++ [t], nextId := s.nextId + 1 } := by
  simp [saveNewTicket, hv, hk]

theorem register_admitted {s : Store} {u e : Nat} {ev : Event} {ans : List Answer} {now : Int}
    (hev : findEvent s e = some ev) (h : Admissible s ev u ans now) :
    register s u e (some ans) now = (afterRegister s ev u ans, RegisterResult.success s.nextId) := by
  have hany := findTicket_none_any h.noTicket
  have hwf := h.wellFormed
  have hsave := saveNewTicket_eq_ok (s := s) hwf hany
  simp only [register, hev, h.published, h.beforeDeadline, h.capacity, h.noTicket, h.answered,
    h.inStock, hsave, afterRegister, ne_eq, not_true_eq_false, if_false, Option.isSome_none,
    Bool.false_eq_true]
  split <;> rfl

theorem register_cases (s : Store) (u e : Nat) (a : Option (List Answer)) (now : Int) :
    (∃ ev ans, findEvent s e = some ev ∧ a = some ans ∧ Admissible s ev u ans now ∧
      register s u e a now = (afterRegister s ev u ans, RegisterResult.success s.nextId)) ∨
    ((register s u e a now).1 = s ∧ ∀ id, (register s u e a now).2 ≠ RegisterResult.success id) := by
  cases hev : findEvent s e with
  | none => right; simp [register, hev]
  | some ev =>
    by_cases h1 : ev.status = EventStatus.Published
    swap; · right; simp [register, hev, h1]
    by_cases h2 : ev.registrationDeadline < now
    · right; simp [register, hev, h1, h2]
    cases h3 : capacityReached s ev with
    | true => right; simp [register, hev, h1, h2, h3]
    | false =>
      cases h4 : findTicket s u ev.id with
      | some t => right; simp [register, hev, h1, h2, h3, h4]
      | none =>
        cases a with
        | none => right; simp [register, hev, h1, h2, h3, h4]
        | some ans =>
          cases h5 : firstMissingField ev.formFields ans with
          | some l => right; simp [register, hev, h1, h2, h3, h4, h5]
          | none =>
            cases h6 : outOfStock ev with
            | true => right; simp [register, hev, h1, h2, h3, h4, h5, h6]
            | false =>
              cases h7 : ticketSchemaValid (newTicket s u ev.id none ans) with
              | false =>
                right
                simp [register, hev, h1, h2, h3, h4, h5, h6, saveNewTicket, h7]
              | true =>
                left
                have hA : Admissible s ev u ans now := ⟨h1, h2, h3, h4, h5, h6, h7⟩
                exact ⟨ev, ans, rfl, rfl, hA, register_admitted hev hA⟩

/-! ## Capacity -/

theorem findEvent_incStock (s : Store) (id : Nat) (d : ℚ) (e : Nat) :
    findEvent (incStock s id d) e =
      if e = id then (findEvent s e).map (fun x => x.addStock d) else findEvent s e := by
  unfold findEvent incStock
  exact incStockIn_find id d e s.events

theorem capacityOf_incStock (s : Store) (id : Nat) (d : ℚ) (e : Nat) :
    capacityOf (incStock s id d) e = capacityOf s e := by
  unfold capacityOf
  rw [findEvent_incStock]
  split
  · cases findEvent s e <;> rfl
  · rfl

theorem capacityOf_afterRegister (s : Store) (ev : Event) (u : Nat) (ans : List Answer)
    (e : Nat) : capacityOf (afterRegister s ev u ans) e = capacityOf s e := by
  unfold afterRegister
  split
  · rw [capacityOf_incStock]; rfl
  · rfl

theorem confirmedCount_afterRegister (s : Store) (ev : Event) (u : Nat) (ans : List Answer)
    (e : Nat) :
    confirmedCount (afterRegister s ev u ans) e =
      confirmedCount s e + if ev.id = e then 1 else 0 := by
  have h : (afterRegister s ev u ans).tickets = s.tickets ++ [newTicket s u ev.id none ans] := by
    unfold afterRegister
    split <;> rfl
  unfold confirmedCount
  rw [h, List.countP_append]
  by_cases he : ev.id = e
  · simp [he, isConfirmedFor, newTicket]
  · simp [he, isConfirmedFor, newTicket]

theorem capacityOf_register (s : Store) (u e : Nat) (a : Option (List Answer)) (now : Int)
    (e1 : Nat) : capacityOf (register s u e a now).1 e1 = capacityOf s e1 := by
  rcases register_cases s u e a now with ⟨ev, ans, _, _, _, h⟩ | ⟨h, _⟩
  · rw [h]; exact capacityOf_afterRegister s ev u ans e1
  · rw [h]

theorem register_capacity_step (s : Store) (u e : Nat) (a : Option (List Answer)) (now : Int)
    (e1 : Nat) (N : ℚ) (hcap : capacityOf s e1 = some (some N)) (hN : 1 ≤ N)
    (h : (confirmedCount s e1 : ℚ) < N + 1) :
    (confirmedCount (register s u e a now).1 e1 : ℚ) < N + 1 := by
  rcases register_cases s u e a now with ⟨ev, ans, hev, _, hA, hr⟩ | ⟨hr, _⟩
  · rw [hr, confirmedCount_afterRegister]
    by_cases he : ev.id = e1
    · have hid := findEvent_id hev
      have hmax : ev.maxParticipants = some N := by
        unfold capacityOf at hcap
        rw [← he, hid, hev] at hcap
        simpa using hcap
      have hc := hA.capacity
      unfold capacityReached at hc
      rw [hmax] at hc
      simp only [Bool.and_eq_false_imp, bne_iff_ne, ne_eq, decide_eq_false_iff_not, not_le] at hc
      have hlt := hc (by intro h0; rw [h0] at hN; norm_num at hN)
      rw [he] at hlt
      simp only [he, if_true]
      push_cast
      linarith
    · simpa [he] using h
  · rw [hr]; exact h

theorem registerAll_capacity (s : Store) (eventId : Nat) (N : ℚ) (calls : List RegisterCall)
    (hcap : capacityOf s eventId = some (some N)) (hN : 1 ≤ N)
    (h : (confirmedCount s eventId : ℚ) < N + 1) :
    (confirmedCount (registerAll s calls) eventId : ℚ) < N + 1 := by
  induction calls generalizing s with
  | nil => exact h
  | cons c cs ih =>
    unfold registerAll
    rw [List.foldl_cons]
    exact ih _ (by rw [capacityOf_register]; exact hcap)
      (register_capacity_step s _ _ _ _ eventId N hcap hN h)

/-- A natural number below a whole number plus one is at most that number. -/
theorem le_of_lt_add_one_of_whole {c : Nat} {N : ℚ} (hw : ∃ n : ℤ, N = n)
    (h : (c : ℚ) < N + 1) : (c : ℚ) ≤ N := by
  obtain ⟨n, rfl⟩ := hw
  have h1 : (c : ℤ) < n + 1 := by exact_mod_cast h
  have h2 : (c : ℤ) ≤ n := by omega
  exact_mod_cast h2

/-- C1 (as stated, refuted). The capacity of the event is the number 1.5 and the event has
no ticket; two `register` requests are served in turn and both are admitted, because
neither 0 nor 1 has reached 1.5: the event then has 2 Confirmed tickets, more than 1.5. -/
theorem register_fractional_capacity :
    (findEvent halfCapacityStore 7).map (fun ev => ev.maxParticipants) = some (some (3 / 2)) ∧
    confirmedCount halfCapacityStore 7 = 0 ∧
    confirmedCount (registerAll halfCapacityStore twoRegisterCalls) 7 = 2 ∧
    ¬ ((2 : ℚ) ≤ 3 / 2) := by
  decide!

/-- C1 (amended). Capacity invariant of register: for an event whose `maxParticipants` is a
number `N ≥ 1` and a store in which the event has at most `N` Confirmed tickets, after any
finite sequence of `register` requests (any users, events, answers and times) the number
of Confirmed tickets of the event is below `N + 1`, and it is at most `N` when `N` is a
whole number. -/
theorem register_capacity_invariant (s : Store) (eventId : Nat) (ev : Event) (N : ℚ)
    (calls : List RegisterCall) (hev : findEvent s eventId = some ev)
    (hmax : ev.maxParticipants = some N) (hN : 1 ≤ N)
    (h : (confirmedCount s eventId : ℚ) ≤ N) :
    (confirmedCount (registerAll s calls) eventId : ℚ) < N + 1 ∧
    ((∃ n : ℤ, N = n) → (confirmedCount (registerAll s calls) eventId : ℚ) ≤ N) := by
  have hcap : capacityOf s eventId = some (some N) := by simp [capacityOf, hev, hmax]
  have hlt := registerAll_capacity s eventId N calls hcap hN (by linarith)
  exact ⟨hlt, fun hw => le_of_lt_add_one_of_whole hw hlt⟩

/-- C1, instance of the amended statement: two requests for the single place of
`sampleEvent`. -/
theorem register_capacity_invariant_witness :
    (confirmedCount (registerAll sampleStore twoRegisterCalls) 7 : ℚ) ≤ 1 :=
  (register_capacity_invariant sampleStore 7 sampleEvent 1 twoRegisterCalls rfl rfl
    (by norm_num) (by decide)).2 ⟨1, by norm_num⟩

theorem capacityReached_eq_false_iff (s : Store) (ev : Event) :
    capacityReached s ev = false ↔
      (ev.maxParticipants = none ∨ ev.maxParticipants = some 0 ∨
        ∃ n, ev.maxParticipants = some n ∧ (confirmedCount s ev.id : ℚ) < n) := by
  unfold capacityReached
  cases h : ev.maxParticipants with
  | none => simp
  | some n =>
    by_cases h0 : n = 0
    · simp [h0]
    · simp [h0]

theorem capacityReached_eq_true_iff (s : Store) (ev : Event) :
    capacityReached s ev = true ↔
      ∃ n, ev.maxParticipants = some n ∧ n ≠ 0 ∧ n ≤ (confirmedCount s ev.id : ℚ) := by
  unfold capacityReached
  cases h : ev.maxParticipants with
  | none => simp
  | some n => simp

theorem ticketSchemaValid_newTicket (s : Store) (u e : Nat) (tid : Option Nat)
    (ans : List Answer) :
    ticketSchemaValid (newTicket s u e tid ans) = true ↔
      ∀ a ∈ ans, a.label ≠ "" ∧ a.value ≠ JsValue.undefined ∧ a.value ≠ JsValue.null := by
  simp [ticketSchemaValid, newTicket, and_assoc]

theorem outOfStock_of_not_merch {ev : Event} (h : ev.type ≠ EventType.Merch) :
    outOfStock ev = false := by
  unfold outOfStock tracksStock
  cases ev.stock <;> simp [h]

theorem register_eventFull {s : Store} {u e : Nat} {ev : Event} {a : Option (List Answer)}
    {now : Int} (hev : findEvent s e = some ev) (hpub : ev.status = EventStatus.Published)
    (hdl : ¬ ev.registrationDeadline < now) (hcap : capacityReached s ev = true) :
    register s u e a now = (s, RegisterResult.eventFull) := by
  simp [register, hev, hpub, hdl, hcap]

/-- C2 (as stated, refuted). The capacity of the event is the number 0, the event is
published and before its deadline, the user holds no ticket, the answers satisfy the form
and the count of Confirmed tickets (0) is not below the bound, yet `register` admits the
user instead of answering 'Event full'. -/
theorem register_zero_capacity_admits :
    findEvent zeroCapacityStore 7 = some { sampleEvent with maxParticipants := some 0 } ∧
    findTicket zeroCapacityStore 1 7 = none ∧
    firstMissingField sampleEvent.formFields sampleAnswers = none ∧
    ¬ ((confirmedCount zeroCapacityStore 7 : ℚ) < 0) ∧
    (register zeroCapacityStore 1 7 (some sampleAnswers) 5).2 = RegisterResult.success 0 ∧
    (register zeroCapacityStore 1 7 (some sampleAnswers) 5).2 ≠ RegisterResult.eventFull := by
  refine ⟨rfl, rfl, rfl, by decide, rfl, by decide⟩

/-- C2 (amended). For a published non-merchandise event before its deadline, a user
holding no ticket for it and answers accepted by the ticket schema that satisfy the form,
`register` succeeds if and only if `maxParticipants` is null, or is 0, or exceeds the number
of Confirmed tickets of the event; when it does not succeed the answer is 'Event full' and
the store is unchanged. -/
theorem register_capacity_gate (s : Store) (u e : Nat) (ev : Event) (ans : List Answer)
    (now : Int) (hev : findEvent s e = some ev) (hpub : ev.status = EventStatus.Published)
    (hdl : now ≤ ev.registrationDeadline) (hno : findTicket s u e = none)
    (hnm : ev.type ≠ EventType.Merch)
    (hwf : ∀ a ∈ ans, a.label ≠ "" ∧ a.value ≠ JsValue.undefined ∧ a.value ≠ JsValue.null)
    (hform : firstMissingField ev.formFields ans = none) :
    ((register s u e (some ans) now).2 = RegisterResult.success s.nextId ↔
      (ev.maxParticipants = none ∨ ev.maxParticipants = some 0 ∨
        ∃ n, ev.maxParticipants = some n ∧ (confirmedCount s e : ℚ) < n)) ∧
    ((register s u e (some ans) now).2 ≠ RegisterResult.success s.nextId →
      register s u e (some ans) now = (s, RegisterResult.eventFull)) := by
  have hid := findEvent_id hev
  have hdl2 : ¬ ev.registrationDeadline < now := not_lt.mpr hdl
  have hiff := capacityReached_eq_false_iff s ev
  rw [hid] at hiff
  cases hcap : capacityReached s ev with
  | true =>
    have hr := register_eventFull (u := u) (a := some ans) hev hpub hdl2 hcap
    rw [hr]
    refine ⟨?_, fun _ => rfl⟩
    constructor
    · intro h
      exact absurd h (by simp)
    · intro h
      rw [← hiff, hcap] at h
      cases h
  | false =>
    have hA : Admissible s ev u ans now :=
      ⟨hpub, hdl2, hcap, by rw [hid]; exact hno, hform, outOfStock_of_not_merch hnm,
        (ticketSchemaValid_newTicket s u ev.id none ans).mpr hwf⟩
    rw [register_admitted hev hA]
    exact ⟨⟨fun _ => hiff.mp hcap, fun _ => rfl⟩, fun h => absurd rfl h⟩

/-- C2 instance of the amended gate. -/
theorem register_capacity_gate_witness :
    ((register zeroCapacityStore 1 7 (some sampleAnswers) 5).2 =
        RegisterResult.success zeroCapacityStore.nextId ↔
      ((Event.maxParticipants { sampleEvent with maxParticipants := some 0 }) = none ∨
        (Event.maxParticipants { sampleEvent with maxParticipants := some 0 }) = some 0 ∨
        ∃ n, (Event.maxParticipants { sampleEvent with maxParticipants := some 0 }) = some n ∧
          (confirmedCount zeroCapacityStore 7 : ℚ) < n)) ∧
    ((register zeroCapacityStore 1 7 (some sampleAnswers) 5).2 ≠
        RegisterResult.success zeroCapacityStore.nextId →
      register zeroCapacityStore 1 7 (some sampleAnswers) 5 =
        (zeroCapacityStore, RegisterResult.eventFull)) :=
  register_capacity_gate zeroCapacityStore 1 7 { sampleEvent with maxParticipants := some 0 }
    sampleAnswers 5 rfl rfl (by decide) rfl (by decide) (by decide) rfl

/-! ## Team handlers only insert team-tagged tickets and rewrite teams -/

theorem saveNewTeam_shape {s s1 : Store} {t : Team} (h : saveNewTeam s t = some s1) :
    ∃ teams n, s1 = { s with teams := teams, nextId := n } := by
  unfold saveNewTeam at h
  split at h
  · cases h
  · split at h
    · cases h
    · split at h
      · cases h
      · cases h
        exact ⟨_, _, rfl⟩

theorem createTeam_effect (s : Store) (u : Nat) (name : String) (e : Option Nat)
    (rnd : List String) : TeamEffect s (createTeam s u name e rnd).1 := by
  cases e with
  | none => left; simp [createTeam]
  | some eventId =>
    by_cases h1 : name = ""
    · left; simp [createTeam, h1]
    cases h2 : findEvent s eventId with
    | none => left; simp [createTeam, h1, h2]
    | some event =>
      cases h3 : event.isTeamEvent with
      | false => left; simp [createTeam, h1, h2, h3]
      | true =>
        cases h4 : s.teams.any (isTeamOf u eventId) with
        | true => left; simp [createTeam, h1, h2, h3, h4]
        | false =>
          cases h5 : (findConfirmedTicket s u eventId).isSome with
          | true => left; simp [createTeam, h1, h2, h3, h4, h5]
          | false =>
            cases h6 : teamLimitReached s event eventId with
            | true => left; simp [createTeam, h1, h2, h3, h4, h5, h6]
            | false =>
              cases h7 : generateTeamCode s rnd with
              | none => left; simp [createTeam, h1, h2, h3, h4, h5, h6, h7]
              | some code =>
                cases h8 : saveNewTeam s
                    { id := s.nextId, name := name, code := code, leaderId := u,
                      members := [u], eventId := eventId,
                      status := if event.minTeamSize ≤ 1 then TeamStatus.Complete
                                else TeamStatus.Forming } with
                | none => left; simp [createTeam, h1, h2, h3, h4, h5, h6, h7, h8]
                | some s1 =>
                  obtain ⟨teams, n, rfl⟩ := saveNewTeam_shape h8
                  right
                  refine ⟨teams, n, ?_⟩
                  by_cases h9 : event.minTeamSize ≤ 1
                  · rw [if_pos h9] at h8
                    cases h10 : saveNewTicket { s with teams := teams, nextId := n }
                        (newTicket { s with teams := teams, nextId := n } u event.id
                          (some s.nextId) []) with
                    | error err =>
                      left
                      simp [createTeam, h1, h2, h3, h4, h5, h6, h7, h8, h9, h10]
                    | ok s2 =>
                      right
                      refine ⟨newTicket { s with teams := teams, nextId := n } u event.id
                          (some s.nextId) [], rfl, rfl, ?_⟩
                      rw [h10]
                      simp [createTeam, h1, h2, h3, h4, h5, h6, h7, h8, h9, h10]
                  · rw [if_neg h9] at h8
                    left
                    simp [createTeam, h1, h2, h3, h4, h5, h6, h7, h8, h9]

theorem joinTeam_effect (s : Store) (u : Nat) (code : String) (e : Option Nat) :
    TeamEffect s (joinTeam s u code e).1 ∨
      ∃ teams eid tid ms, (joinTeam s u code e).1 =
        (issueTeamTickets eid tid ms { s with teams := teams }).1 := by
  cases e with
  | none => left; left; simp [joinTeam]
  | some eventId =>
    by_cases h1 : code = ""
    · left; left; simp [joinTeam, h1]
    cases h2 : s.teams.find? (fun t => t.code == code && t.eventId == eventId) with
    | none => left; left; simp [joinTeam, h1, h2]
    | some team =>
      cases h3 : findEvent s eventId with
      | none => left; left; simp [joinTeam, h1, h2, h3]
      | some event =>
        by_cases h4 : event.maxTeamSize ≤ (team.members.length : ℚ)
        · left; left; simp [joinTeam, h1, h2, h3, h4]
        cases h5 : s.teams.any (isTeamOf u eventId) with
        | true => left; left; simp [joinTeam, h1, h2, h3, h4, h5]
        | false =>
          cases h6 : (findConfirmedTicket s u eventId).isSome with
          | true => left; left; simp [joinTeam, h1, h2, h3, h4, h5, h6]
          | false =>
            cases h7 : completesTeam event team (team.members ++ [u]) with
            | true =>
              right
              refine ⟨updateTeamIn code eventId
                (team.withMembers (team.members ++ [u]) TeamStatus.Complete) s.teams,
                event.id, team.id, team.members ++ [u], ?_⟩
              simp only [joinTeam, h1, h2, h3, h4, h5, h6, h7, if_false, if_true,
                Bool.false_eq_true]
              split <;> rfl
            | false =>
              left
              right
              by_cases h8 : team.status = TeamStatus.Complete
              · refine ⟨updateTeamIn code eventId
                  (team.withMembers (team.members ++ [u]) TeamStatus.Complete) s.teams,
                  s.nextId, ?_⟩
                cases h9 : saveNewTicket
                    { s with
                      teams := updateTeamIn code eventId
                        (team.withMembers (team.members ++ [u]) TeamStatus.Complete) s.teams }
                    (newTicket
                      { s with
                        teams := updateTeamIn code eventId
                          (team.withMembers (team.members ++ [u]) TeamStatus.Complete) s.teams }
                      u event.id (some team.id) []) with
                | error err =>
                  left
                  simp [joinTeam, h1, h2, h3, h4, h5, h6, h7, h8, h9]
                | ok s2 =>
                  right
                  refine ⟨newTicket
                      { s with
                        teams := updateTeamIn code eventId
                          (team.withMembers (team.members ++ [u]) TeamStatus.Complete) s.teams }
                      u event.id (some team.id) [], rfl, rfl, ?_⟩
                  rw [h9]
                  simp [joinTeam, h1, h2, h3, h4, h5, h6, h7, h8, h9]
              · refine ⟨updateTeamIn code eventId
                  (team.withMembers (team.members ++ [u]) team.status) s.teams, s.nextId, ?_⟩
                left
                simp [joinTeam, h1, h2, h3, h4, h5, h6, h7, h8]

theorem saveNewTicket_ok {s s1 : Store} {t : Ticket} (h : saveNewTicket s t = Except.ok s1) :
    s1 = { s with tickets := s.tickets ++ [t], nextId := s.nextId + 1 } ∧
      s.tickets.any (isTicketOf t.userId t.eventId) = false := by
  unfold saveNewTicket at h
  split at h
  · cases h
  · split at h
    · cases h
    · rename_i hk
      cases h
      exact ⟨rfl, by simpa using hk⟩

theorem teamEffect_preserves (P : Store → Prop)
    (hteams : ∀ s teams n, P s → P { s with teams := teams, nextId := n })
    (hissue : ∀ s t s1, P s → t.teamId.isSome = true → t.status = TicketStatus.Confirmed →
      saveNewTicket s t = Except.ok s1 → P s1)
    {s s2 : Store} (he : TeamEffect s s2) (h : P s) : P s2 := by
  rcases he with rfl | ⟨teams, n, rfl | ⟨t, ht, hc, hs⟩⟩
  · exact h
  · exact hteams s teams n h
  · exact hissue _ t s2 (hteams s teams n h) ht hc hs

theorem issueTeamTickets_preserves (P : Store → Prop)
    (hissue : ∀ s t s1, P s → t.teamId.isSome = true → t.status = TicketStatus.Confirmed →
      saveNewTicket s t = Except.ok s1 → P s1)
    (e tid : Nat) (ms : List Nat) (s : Store) (h : P s) :
    P (issueTeamTickets e tid ms s).1 := by
  induction ms generalizing s with
  | nil => exact h
  | cons m ms ih =>
    unfold issueTeamTickets
    cases hs : saveNewTicket s (newTicket s m e (some tid) []) with
    | ok s1 => exact ih s1 (hissue s (newTicket s m e (some tid) []) s1 h rfl rfl hs)
    | error err => exact ih s h

theorem cancel_cases (s : Store) (u e : Nat) :
    ((cancel s u e).1 = s ∧ ∀ id, (cancel s u e).2 ≠ CancelResult.success id) ∨
      ∃ ev t, findEvent s e = some ev ∧ findConfirmedTicket s u ev.id = some t ∧
        cancel s u e = (afterCancel s ev u, CancelResult.success t.id) := by
  cases h1 : findEvent s e with
  | none => left; simp [cancel, h1]
  | some ev =>
    cases h2 : findConfirmedTicket s u ev.id with
    | none => left; simp [cancel, h1, h2]
    | some t =>
      right
      refine ⟨ev, t, rfl, h2, ?_⟩
      simp only [cancel, h1, h2, afterCancel]
      split <;> rfl

/-- The store after any request is obtained from the store before it by steps that keep
a property `P`, as soon as `P` is kept by the four kinds of effect. -/
theorem op_preserves (P : Store → Prop)
    (hreg : ∀ s ev u ans now e, P s → findEvent s e = some ev → Admissible s ev u ans now →
      P (afterRegister s ev u ans))
    (hcancel : ∀ s ev u e t, P s → findEvent s e = some ev →
      findConfirmedTicket s u ev.id = some t → P (afterCancel s ev u))
    (hteams : ∀ s teams n, P s → P { s with teams := teams, nextId := n })
    (hissue : ∀ s t s1, P s → t.teamId.isSome = true → t.status = TicketStatus.Confirmed →
      saveNewTicket s t = Except.ok s1 → P s1)
    (s : Store) (op : Op) (h : P s) : P (op.apply s) := by
  cases op with
  | register u e a now =>
    show P (register s u e a now).1
    rcases register_cases s u e a now with ⟨ev, ans, hev, _, hA, hr⟩ | ⟨hr, _⟩
    · rw [hr]; exact hreg s ev u ans now e h hev hA
    · rw [hr]; exact h
  | cancel u e =>
    show P (cancel s u e).1
    rcases cancel_cases s u e with ⟨hr, _⟩ | ⟨ev, t, hev, ht, hr⟩
    · rw [hr]; exact h
    · rw [hr]; exact hcancel s ev u e t h hev ht
  | createTeam u n e rnd =>
    exact teamEffect_preserves P hteams hissue (createTeam_effect s u n e rnd) h
  | joinTeam u c e =>
    show P (joinTeam s u c e).1
    rcases joinTeam_effect s u c e with he | ⟨teams, eid, tid, ms, hr⟩
    · exact teamEffect_preserves P hteams hissue he h
    · rw [hr]
      exact issueTeamTickets_preserves P hissue eid tid ms _ (hteams s teams s.nextId h)

theorem run_preserves (P : Store → Prop)
    (hstep : ∀ s op, P s → P (Op.apply s op)) (s : Store) (ops : List Op) (h : P s) :
    P (run s ops) := by
  induction ops generalizing s with
  | nil => exact h
  | cons op ops ih =>
    unfold run
    rw [List.foldl_cons]
    exact ih _ (hstep s op h)

/-! ## Capacity across all four handlers -/

theorem cancelTicketIn_countP_le (p : Ticket → Bool) (u e : Nat)
    (hp : ∀ t : Ticket, p t.cancelled = false)
    (ts : List Ticket) : (cancelTicketIn u e ts).countP p ≤ ts.countP p := by
  induction ts with
  | nil => simp [cancelTicketIn]
  | cons t ts ih =>
    unfold cancelTicketIn
    split
    · rw [List.countP_cons, List.countP_cons, hp t]
      simp
    · rw [List.countP_cons, List.countP_cons]
      omega

theorem afterCancel_tickets (s : Store) (ev : Event) (u : Nat) :
    (afterCancel s ev u).tickets = cancelTicketIn u ev.id s.tickets := by
  unfold afterCancel
  split <;> rfl

theorem afterRegister_tickets (s : Store) (ev : Event) (u : Nat) (ans : List Answer) :
    (afterRegister s ev u ans).tickets = s.tickets ++ [newTicket s u ev.id none ans] := by
  unfold afterRegister
  split <;> rfl

theorem capacityOf_afterCancel (s : Store) (ev : Event) (u : Nat) (e : Nat) :
    capacityOf (afterCancel s ev u) e = capacityOf s e := by
  unfold afterCancel
  split
  · rw [capacityOf_incStock]; rfl
  · rfl

theorem individual_le_confirmed (s : Store) (e : Nat) :
    individualConfirmedCount s e ≤ confirmedCount s e := by
  unfold individualConfirmedCount confirmedCount
  apply List.countP_mono_left
  intro t _ h
  unfold isIndividualConfirmedFor at h
  simp only [Bool.and_eq_true] at h
  exact h.1

theorem capacity_not_reached {s : Store} {ev : Event} {N : ℚ}
    (hmax : ev.maxParticipants = some N) (hN : 1 ≤ N) (hc : capacityReached s ev = false) :
    (confirmedCount s ev.id : ℚ) < N := by
  unfold capacityReached at hc
  rw [hmax] at hc
  simp only [Bool.and_eq_false_imp, bne_iff_ne, ne_eq, decide_eq_false_iff_not, not_le] at hc
  exact hc (by intro h0; rw [h0] at hN; norm_num at hN)

/-- The invariant behind the capacity bound on individually issued tickets. -/
theorem individual_capacity_step (e : Nat) (N : ℚ) (hN : 1 ≤ N) (s : Store) (op : Op)
    (h : capacityOf s e = some (some N) ∧ (individualConfirmedCount s e : ℚ) < N + 1) :
    capacityOf (op.apply s) e = some (some N) ∧
      (individualConfirmedCount (op.apply s) e : ℚ) < N + 1 := by
  refine op_preserves
    (fun s => capacityOf s e = some (some N) ∧ (individualConfirmedCount s e : ℚ) < N + 1)
    ?_ ?_ ?_ ?_ s op h
  · intro s ev u ans now e1 ⟨hcap, hle⟩ hev hA
    refine ⟨by rw [capacityOf_afterRegister]; exact hcap, ?_⟩
    unfold individualConfirmedCount
    rw [afterRegister_tickets, List.countP_append]
    by_cases he : ev.id = e
    · have hid := findEvent_id hev
      have hmax : ev.maxParticipants = some N := by
        unfold capacityOf at hcap
        rw [← he, hid, hev] at hcap
        simpa using hcap
      have hlt := capacity_not_reached hmax hN hA.capacity
      have hle2 := individual_le_confirmed s e
      rw [he] at hlt
      have h1 : List.countP (isIndividualConfirmedFor e) [newTicket s u ev.id none ans] ≤ 1 := by
        simpa using List.countP_le_length (isIndividualConfirmedFor e)
          (l := [newTicket s u ev.id none ans])
      unfold individualConfirmedCount at hle2
      have hle3 : (List.countP (isIndividualConfirmedFor e) s.tickets : ℚ) ≤
          (confirmedCount s e : ℚ) := by exact_mod_cast hle2
      have h2 : (List.countP (isIndividualConfirmedFor e) [newTicket s u ev.id none ans] : ℚ)
          ≤ 1 := by exact_mod_cast h1
      push_cast
      linarith
    · have h0 : List.countP (isIndividualConfirmedFor e) [newTicket s u ev.id none ans] = 0 := by
        simp [isIndividualConfirmedFor, isConfirmedFor, newTicket, he]
      rw [h0]
      exact hle
  · intro s ev u e1 t ⟨hcap, hle⟩ _ _
    refine ⟨by rw [capacityOf_afterCancel]; exact hcap, ?_⟩
    unfold individualConfirmedCount
    rw [afterCancel_tickets]
    have := cancelTicketIn_countP_le (isIndividualConfirmedFor e) u ev.id
      (by intro t; simp [isIndividualConfirmedFor, isConfirmedFor, Ticket.cancelled]) s.tickets
    unfold individualConfirmedCount at hle
    have h2 : (List.countP (isIndividualConfirmedFor e) (cancelTicketIn u ev.id s.tickets) : ℚ)
        ≤ (List.countP (isIndividualConfirmedFor e) s.tickets : ℚ) := by exact_mod_cast this
    linarith
  · intro s teams n h
    exact h
  · intro s t s1 ⟨hcap, hle⟩ ht _ hs
    obtain ⟨rfl, _⟩ := saveNewTicket_ok hs
    refine ⟨hcap, ?_⟩
    unfold individualConfirmedCount
    rw [List.countP_append]
    have h0 : List.countP (isIndividualConfirmedFor e) [t] = 0 := by
      cases htid : t.teamId with
      | none => rw [htid] at ht; cases ht
      | some x => simp [isIndividualConfirmedFor, htid]
    rw [h0]
    exact hle

/-- C3 (as stated, refuted). On a team event whose `maxParticipants` is 1 and whose teams
are complete with one member, two users each create a team from a store without tickets:
both receive a Confirmed ticket, so the event has 2 Confirmed tickets against a bound of 1.
On an event whose `maxParticipants` is 1.5, two users register in turn from a store without
tickets: both are admitted, so the event has 2 Confirmed tickets issued by `register`
against a bound of 1.5. -/
theorem createTeam_exceeds_capacity :
    soloTeamStore.tickets = [] ∧ soloTeamEvent.maxParticipants = some 1 ∧
    confirmedCount (run soloTeamStore
      [Op.createTeam 1 "Alpha" (some 7) ["0.abcdefgh"],
       Op.createTeam 2 "Beta" (some 7) ["0.zyxwvuts"]]) 7 = 2 ∧
    ¬ ((confirmedCount (run soloTeamStore
      [Op.createTeam 1 "Alpha" (some 7) ["0.abcdefgh"],
       Op.createTeam 2 "Beta" (some 7) ["0.zyxwvuts"]]) 7 : ℚ) ≤ 1) ∧
    halfCapacityStore.tickets = [] ∧
    individualConfirmedCount (run halfCapacityStore
      [Op.register 1 7 (some sampleAnswers) 5, Op.register 2 7 (some sampleAnswers) 6]) 7 = 2 ∧
    ¬ ((2 : ℚ) ≤ 3 / 2) := by
  refine ⟨rfl, rfl, ?_, ?_, rfl, ?_, ?_⟩
  · decide
  · decide
  · decide!
  · decide!

/-- C3 (amended). Capacity is enforced at issuance time on the `register` path only: for
an event with `maxParticipants = N`, `N ≥ 1`, after any finite sequence of register,
createTeam, joinTeam and cancel requests starting from a store without tickets, the number
of Confirmed tickets issued by `register` (those without a team id) is below `N + 1`, and
it is at most `N` when `N` is a whole number. -/
theorem individual_capacity_invariant (s : Store) (eventId : Nat) (ev : Event) (N : ℚ)
    (ops : List Op) (hev : findEvent s eventId = some ev) (hmax : ev.maxParticipants = some N)
    (hN : 1 ≤ N) (hempty : s.tickets = []) :
    (individualConfirmedCount (run s ops) eventId : ℚ) < N + 1 ∧
    ((∃ n : ℤ, N = n) → (individualConfirmedCount (run s ops) eventId : ℚ) ≤ N) := by
  have h0 : capacityOf s eventId = some (some N) ∧
      (individualConfirmedCount s eventId : ℚ) < N + 1 := by
    refine ⟨by simp [capacityOf, hev, hmax], ?_⟩
    unfold individualConfirmedCount
    rw [hempty]
    simp
    linarith
  have hlt := (run_preserves
    (fun s => capacityOf s eventId = some (some N) ∧
      (individualConfirmedCount s eventId : ℚ) < N + 1)
    (fun s op h => individual_capacity_step eventId N hN s op h) s ops h0).2
  exact ⟨hlt, fun hw => le_of_lt_add_one_of_whole hw hlt⟩

/-- C3, instance of the amended invariant: two teams and one registration on `soloTeamEvent`. -/
theorem individual_capacity_invariant_witness :
    (individualConfirmedCount (run soloTeamStore
      [Op.createTeam 1 "Alpha" (some 7) ["0.abcdefgh"],
       Op.createTeam 2 "Beta" (some 7) ["0.zyxwvuts"],
       Op.register 3 7 (some []) 5]) 7 : ℚ) ≤ 1 :=
  (individual_capacity_invariant soloTeamStore 7 soloTeamEvent 1 _ rfl rfl (by norm_num)
    rfl).2 ⟨1, by norm_num⟩

/-! ## The unique index on (userId, eventId) -/

theorem cancelTicketIn_keys (u e : Nat) (ts : List Ticket) :
    (cancelTicketIn u e ts).map ticketKey = ts.map ticketKey := by
  induction ts with
  | nil => rfl
  | cons t ts ih =>
    unfold cancelTicketIn
    split
    · rfl
    · rw [List.map_cons, List.map_cons, ih]

theorem uniqueKeys_append {s : Store} {t : Ticket} (h : UniqueKeys s)
    (hk : s.tickets.any (isTicketOf t.userId t.eventId) = false) :
    ((s.tickets ++ [t]).map ticketKey).Nodup := by
  unfold UniqueKeys at h
  rw [List.map_append, List.nodup_append]
  refine ⟨h, by simp, ?_⟩
  intro k hk1 hk2
  simp only [List.map_cons, List.map_nil, List.mem_singleton] at hk2
  subst hk2
  rw [List.mem_map] at hk1
  obtain ⟨t1, ht1, hkey⟩ := hk1
  rw [List.any_eq_false] at hk
  apply hk t1 ht1
  unfold ticketKey at hkey
  simp only [Prod.mk.injEq] at hkey
  simp [isTicketOf, hkey.1, hkey.2]

theorem uniqueKeys_step (s : Store) (op : Op) (h : UniqueKeys s) : UniqueKeys (op.apply s) := by
  refine op_preserves UniqueKeys ?_ ?_ ?_ ?_ s op h
  · intro s ev u ans now e h _ hA
    unfold UniqueKeys
    rw [afterRegister_tickets]
    exact uniqueKeys_append h (findTicket_none_any hA.noTicket)
  · intro s ev u e t h _ _
    unfold UniqueKeys
    rw [afterCancel_tickets, cancelTicketIn_keys]
    exact h
  · intro s teams n h
    exact h
  · intro s t s1 h _ _ hs
    obtain ⟨rfl, hk⟩ := saveNewTicket_ok hs
    exact uniqueKeys_append h hk

theorem countP_key_le_one (u e : Nat) (l : List Ticket) (h : (l.map ticketKey).Nodup) :
    l.countP (isTicketOf u e) ≤ 1 := by
  induction l with
  | nil => simp
  | cons t ts ih =>
    rw [List.map_cons, List.nodup_cons] at h
    rw [List.countP_cons]
    by_cases ht : isTicketOf u e t = true
    · have h0 : ts.countP (isTicketOf u e) = 0 := by
        rw [List.countP_eq_zero]
        intro t1 ht1 hk
        apply h.1
        rw [List.mem_map]
        refine ⟨t1, ht1, ?_⟩
        unfold isTicketOf at ht hk
        simp only [Bool.and_eq_true, beq_iff_eq] at ht hk
        unfold ticketKey
        rw [ht.1, ht.2, hk.1, hk.2]
      rw [h0, if_pos ht]
    · rw [if_neg ht]
      exact ih h.2

theorem confirmed_le_one_of_uniqueKeys {s : Store} (h : UniqueKeys s) (u e : Nat) :
    s.tickets.countP (isConfirmedTicketOf u e) ≤ 1 := by
  have h1 : s.tickets.countP (isConfirmedTicketOf u e) ≤ s.tickets.countP (isTicketOf u e) := by
    apply List.countP_mono_left
    intro t _ ht
    unfold isConfirmedTicketOf at ht
    simp only [Bool.and_eq_true] at ht
    unfold isTicketOf
    simp only [Bool.and_eq_true]
    exact ht.1
  have h3 := countP_key_le_one u e s.tickets h
  omega

/-- C5. One Confirmed ticket per admission key: in every store reached from a store without
tickets by any sequence of register, cancel, createTeam and joinTeam requests, for every pair
(userId, eventId) at most one ticket carries that pair, and so at most one Confirmed ticket
does; the unique index on (userId, eventId) is part of `saveNewTicket`. -/
theorem one_confirmed_ticket_per_key (events : List Event) (teams : List Team) (n : Nat)
    (ops : List Op) (u e : Nat) :
    (run { events := events, tickets := [], teams := teams, nextId := n } ops).tickets.countP
      (isTicketOf u e) ≤ 1 ∧
    (run { events := events, tickets := [], teams := teams, nextId := n } ops).tickets.countP
      (isConfirmedTicketOf u e) ≤ 1 := by
  have h0 : UniqueKeys { events := events, tickets := [], teams := teams, nextId := n } := by
    simp [UniqueKeys]
  have h := run_preserves UniqueKeys uniqueKeys_step _ ops h0
  exact ⟨countP_key_le_one u e _ h, confirmed_le_one_of_uniqueKeys h u e⟩

/-! ## Deadline -/

/-- C10. Deadline enforcement: when the registration deadline of the event lies before
`now`, `register` is rejected whatever the capacity or stock (with 'Registration closed' if
the event is published, with 'Cannot register' otherwise) and the store, tickets and stock
included, is left unchanged. -/
theorem register_after_deadline (s : Store) (u e : Nat) (ev : Event)
    (a : Option (List Answer)) (now : Int) (hev : findEvent s e = some ev)
    (hdl : ev.registrationDeadline < now) :
    (register s u e a now).1 = s ∧
    (∀ id, (register s u e a now).2 ≠ RegisterResult.success id) ∧
    (ev.status = EventStatus.Published →
      (register s u e a now).2 = RegisterResult.registrationClosed) ∧
    (ev.status ≠ EventStatus.Published →
      (register s u e a now).2 = RegisterResult.cannotRegister) := by
  by_cases hp : ev.status = EventStatus.Published
  · have hr : register s u e a now = (s, RegisterResult.registrationClosed) := by
      simp [register, hev, hp, hdl]
    rw [hr]
    exact ⟨rfl, fun id h => (by cases h), fun _ => rfl, fun h => absurd hp h⟩
  · have hr : register s u e a now = (s, RegisterResult.cannotRegister) := by
      simp [register, hev, hp]
    rw [hr]
    exact ⟨rfl, fun id h => (by cases h), fun h => absurd h hp, fun _ => rfl⟩

/-- C10, instance: a request for `sampleEvent` (deadline 100, one free place) at time 101. -/
theorem register_after_deadline_witness :
    (register sampleStore 1 7 (some sampleAnswers) 101).1 = sampleStore ∧
    (∀ id, (register sampleStore 1 7 (some sampleAnswers) 101).2 ≠ RegisterResult.success id) ∧
    (sampleEvent.status = EventStatus.Published →
      (register sampleStore 1 7 (some sampleAnswers) 101).2 =
        RegisterResult.registrationClosed) ∧
    (sampleEvent.status ≠ EventStatus.Published →
      (register sampleStore 1 7 (some sampleAnswers) 101).2 = RegisterResult.cannotRegister) :=
  register_after_deadline sampleStore 1 7 sampleEvent (some sampleAnswers) 101 rfl (by decide)

/-! ## Register followed by cancel -/

@[simp]
theorem tracksStock_addStock (ev : Event) (d : ℚ) :
    tracksStock (ev.addStock d) = tracksStock ev := by
  unfold tracksStock Event.addStock
  cases ev.stock <;> rfl

theorem addStock_addStock_neg (ev : Event)
    (h : ∀ k, ev.stock = some k → ∃ n : ℕ, k = n ∧ 1 ≤ n ∧ n ≤ 2 ^ 53) :
    (ev.addStock (-1)).addStock 1 = ev := by
  unfold Event.addStock
  cases ev with
  | mk id organizerId type status registrationDeadline formFields participants maxParticipants
      stock isTeamEvent minTeamSize maxTeamSize maxTeams =>
    cases stock with
    | none => rfl
    | some k =>
      obtain ⟨n, rfl, h1, h2⟩ := h k rfl
      have h3 : roundDouble (roundDouble ((n : ℚ) + -1) + 1) = (n : ℚ) := by
        rw [roundDouble_pred h1 h2, roundDouble_succ (by omega)]
        congr 1
        omega
      simp [h3]

theorem incStockIn_round_trip (id : Nat) (evs : List Event) (ev : Event)
    (hfind : evs.find? (fun x => x.id == id) = some ev)
    (hround : (ev.addStock (-1)).addStock 1 = ev) :
    incStockIn id 1 (incStockIn id (-1) evs) = evs := by
  induction evs with
  | nil => rfl
  | cons x xs ih =>
    by_cases hx : x.id = id
    · have hx2 : (x.id == id) = true := by simpa using hx
      rw [List.find?_cons, hx2] at hfind
      cases hfind
      rw [incStockIn, if_pos hx, incStockIn, if_pos (by simpa using hx), hround]
    · have hx2 : (x.id == id) = false := by simpa using hx
      rw [List.find?_cons, hx2] at hfind
      rw [incStockIn, if_neg hx, incStockIn, if_neg hx, ih hfind]

theorem cancelTicketIn_append_new (u e : Nat) (ts : List Ticket) (t : Ticket)
    (hno : ts.any (isTicketOf u e) = false) (ht : isConfirmedTicketOf u e t = true) :
    cancelTicketIn u e (ts ++ [t]) = ts ++ [t.cancelled] := by
  induction ts with
  | nil => simp [cancelTicketIn, ht]
  | cons x xs ih =>
    rw [List.any_cons, Bool.or_eq_false_iff] at hno
    have hx : isConfirmedTicketOf u e x = false := by
      have := hno.1
      unfold isTicketOf at this
      unfold isConfirmedTicketOf
      rw [this]
      rfl
    rw [List.cons_append, cancelTicketIn]
    simp only [hx, Bool.false_eq_true, if_false]
    rw [ih hno.2]
    rfl

theorem findConfirmedTicket_append_new (u e : Nat) (ts : List Ticket) (t : Ticket)
    (hno : ts.any (isTicketOf u e) = false) (ht : isConfirmedTicketOf u e t = true) :
    (ts ++ [t]).find? (isConfirmedTicketOf u e) = some t := by
  induction ts with
  | nil => simp [ht]
  | cons x xs ih =>
    rw [List.any_cons, Bool.or_eq_false_iff] at hno
    have hx : isConfirmedTicketOf u e x = false := by
      have := hno.1
      unfold isTicketOf at this
      unfold isConfirmedTicketOf
      rw [this]
      rfl
    rw [List.cons_append, List.find?_cons_of_neg _ (by simp [hx])]
    exact ih hno.2

/-- The ticket that `register` inserted for the user, once cancelled: for an event that
tracks its stock the unit is taken and given back, each time with the rounding of `$inc`. -/
theorem cancel_afterRegister {s : Store} {u e : Nat} {ev : Event} {ans : List Answer}
    {now : Int} (hev : findEvent s e = some ev) (hA : Admissible s ev u ans now) :
    cancel (afterRegister s ev u ans) u e =
      ({ s with
          events :=
            if tracksStock ev then incStockIn ev.id 1 (incStockIn ev.id (-1) s.events)
            else s.events,
          tickets := s.tickets ++ [(newTicket s u ev.id none ans).cancelled],
          nextId := s.nextId + 1 },
        CancelResult.success s.nextId) := by
  have hid := findEvent_id hev
  have hany := findTicket_none_any hA.noTicket
  have hnew : isConfirmedTicketOf u ev.id (newTicket s u ev.id none ans) = true := by
    simp [isConfirmedTicketOf, newTicket]
  have hfind := findConfirmedTicket_append_new u ev.id s.tickets _ hany hnew
  have hcan := cancelTicketIn_append_new u ev.id s.tickets _ hany hnew
  cases hts : tracksStock ev with
  | true =>
    have h1 : afterRegister s ev u ans =
        incStock { s with tickets := s.tickets ++ [newTicket s u ev.id none ans],
                          nextId := s.nextId + 1 } ev.id (-1) := by
      simp [afterRegister, hts]
    have h2 : findEvent (afterRegister s ev u ans) e = some (ev.addStock (-1)) := by
      rw [h1, findEvent_incStock, hid, if_pos rfl]
      show Option.map _ (findEvent s e) = _
      rw [hev]
      rfl
    unfold cancel
    rw [h2]
    simp only [Event.addStock_id, tracksStock_addStock, hts, if_true]
    rw [h1]
    unfold findConfirmedTicket
    simp only [incStock]
    rw [hfind]
    simp only [hcan]
    rfl
  | false =>
    have h1 : afterRegister s ev u ans =
        { s with tickets := s.tickets ++ [newTicket s u ev.id none ans],
                 nextId := s.nextId + 1 } := by
      simp [afterRegister, hts]
    have h2 : findEvent (afterRegister s ev u ans) e = some ev := by
      rw [h1]
      exact hev
    unfold cancel
    rw [h2]
    simp only [hts, Bool.false_eq_true, if_false]
    rw [h1]
    unfold findConfirmedTicket
    simp only []
    rw [hfind]
    simp only [hcan]
    rfl

theorem find_incStockIn_twice (id e : Nat) (evs : List Event) :
    (incStockIn id 1 (incStockIn id (-1) evs)).find? (fun x => x.id == e) =
      if e = id then
        (evs.find? (fun x => x.id == e)).map (fun x => (x.addStock (-1)).addStock 1)
      else evs.find? (fun x => x.id == e) := by
  rw [incStockIn_find, incStockIn_find]
  by_cases he : e = id
  · simp only [if_pos he, Option.map_map]
    rfl
  · simp only [if_neg he]

theorem register_success_cases {s : Store} {u e : Nat} {a : Option (List Answer)} {now : Int}
    {id : Nat} (h : (register s u e a now).2 = RegisterResult.success id) :
    ∃ ev ans, findEvent s e = some ev ∧ a = some ans ∧ Admissible s ev u ans now ∧
      register s u e a now = (afterRegister s ev u ans, RegisterResult.success s.nextId) ∧
      id = s.nextId := by
  rcases register_cases s u e a now with ⟨ev, ans, hev, ha, hA, hr⟩ | ⟨_, hne⟩
  · refine ⟨ev, ans, hev, ha, hA, hr, ?_⟩
    rw [hr] at h
    cases h
    rfl
  · exact absurd h (hne id)

theorem confirmedCount_append_cancelled (s : Store) (t : Ticket) (n : Nat) (e : Nat) :
    confirmedCount
      { s with tickets := s.tickets ++ [t.cancelled], nextId := n } e =
      confirmedCount s e := by
  unfold confirmedCount
  simp [List.countP_append, isConfirmedFor, Ticket.cancelled]

/-- C8 (as stated, refuted). The merchandise event has 9007199254740994 units in stock
(2^53 + 2, a double).  User 1 registers, which succeeds and leaves 9007199254740992 units,
the double nearest to 2^53 + 1; user 1 cancels, which succeeds and leaves 9007199254740992
units again: the stock is not back at its value before the registration. -/
theorem round_trip_loses_stock :
    (findEvent bigStockStore 7).map (fun ev => ev.stock) = some (some 9007199254740994) ∧
    (register bigStockStore 1 7 (some sampleAnswers) 5).2 = RegisterResult.success 0 ∧
    (findEvent (register bigStockStore 1 7 (some sampleAnswers) 5).1 7).map
      (fun ev => ev.stock) = some (some 9007199254740992) ∧
    (cancel (register bigStockStore 1 7 (some sampleAnswers) 5).1 1 7).2 =
      CancelResult.success 0 ∧
    (findEvent (cancel (register bigStockStore 1 7 (some sampleAnswers) 5).1 1 7).1 7).map
      (fun ev => ev.stock) = some (some 9007199254740992) := by
  decide!

/-- C8 (amended). Cancellation round trip: when `register` succeeds for a user and an event,
`cancel` for the same pair succeeds on the resulting store and leaves the number of Confirmed
tickets of every event, every other event, the teams and every ticket that existed as before
the registration; the only trace among the tickets is the new one, now Cancelled.  The event
itself is as before but for its stock, if it tracks stock, from which 1 has been subtracted
and to which 1 has been added, each time with the rounding of doubles; when the stock is a
whole number of at most 2^53 units it is back at its value and every event is as before. -/
theorem register_cancel_round_trip (s : Store) (u e : Nat) (ev : Event)
    (a : Option (List Answer)) (now : Int) (id : Nat) (hev0 : findEvent s e = some ev)
    (h : (register s u e a now).2 = RegisterResult.success id) :
    (cancel (register s u e a now).1 u e).2 = CancelResult.success id ∧
    findEvent (cancel (register s u e a now).1 u e).1 e =
      some (if tracksStock ev then (ev.addStock (-1)).addStock 1 else ev) ∧
    ((∀ k, tracksStock ev = true → ev.stock = some k → ∃ n : ℕ, k = n ∧ n ≤ 2 ^ 53) →
      (cancel (register s u e a now).1 u e).1.events = s.events ∧
      ∀ e1, findEvent (cancel (register s u e a now).1 u e).1 e1 = findEvent s e1) ∧
    (∀ e1, e1 ≠ e → findEvent (cancel (register s u e a now).1 u e).1 e1 = findEvent s e1) ∧
    (∀ e1, confirmedCount (cancel (register s u e a now).1 u e).1 e1 = confirmedCount s e1) ∧
    (cancel (register s u e a now).1 u e).1.teams = s.teams ∧
    ∃ t : Ticket, t.userId = u ∧ t.eventId = e ∧ t.status = TicketStatus.Cancelled ∧
      (cancel (register s u e a now).1 u e).1.tickets = s.tickets ++ [t] := by
  obtain ⟨ev1, ans, hev, _, hA, hr, hid⟩ := register_success_cases h
  rw [hev0] at hev
  cases hev
  have hevid := findEvent_id hev0
  have hfe : s.events.find? (fun x => x.id == e) = some ev := hev0
  have hc := cancel_afterRegister hev0 hA
  rw [hr]
  simp only []
  rw [hc, hid]
  refine ⟨rfl, ?_, ?_, ?_, fun e1 => ?_, rfl, ⟨_, rfl, hevid, rfl, rfl⟩⟩
  · show (if tracksStock ev then incStockIn ev.id 1 (incStockIn ev.id (-1) s.events)
      else s.events).find? (fun x => x.id == e) = _
    cases hts : tracksStock ev with
    | true =>
      simp only [if_true]
      rw [find_incStockIn_twice, if_pos hevid.symm, hfe]
      rfl
    | false =>
      simp only [Bool.false_eq_true, if_false]
      exact hfe
  · intro hstock
    have hevents : (if tracksStock ev then incStockIn ev.id 1 (incStockIn ev.id (-1) s.events)
        else s.events) = s.events := by
      cases hts : tracksStock ev with
      | false => rfl
      | true =>
        simp only [if_true]
        have hfe2 : s.events.find? (fun x => x.id == ev.id) = some ev := by
          rw [hevid]
          exact hfe
        apply incStockIn_round_trip ev.id s.events ev hfe2
        apply addStock_addStock_neg
        intro k hk
        obtain ⟨n, hn, hle⟩ := hstock k hts hk
        refine ⟨n, hn, ?_, hle⟩
        have hpos : 0 < k := by
          have hin := hA.inStock
          unfold outOfStock at hin
          rw [hk, hts] at hin
          simpa using hin
        rw [hn] at hpos
        exact_mod_cast hpos
    simp only [hevents]
    exact ⟨trivial, fun _ => rfl⟩
  · intro e1 he1
    show (if tracksStock ev then incStockIn ev.id 1 (incStockIn ev.id (-1) s.events)
      else s.events).find? (fun x => x.id == e1) = _
    cases hts : tracksStock ev with
    | true =>
      simp only [if_true]
      rw [find_incStockIn_twice, if_neg (by rw [hevid]; exact he1)]
      rfl
    | false => rfl
  · unfold confirmedCount
    simp [List.countP_append, isConfirmedFor, Ticket.cancelled]

/-- C8, instance of the amended statement: register then cancel on `merchStore`, whose
event has 2 units in stock. -/
theorem register_cancel_round_trip_witness :
    (cancel (register merchStore 1 7 (some sampleAnswers) 5).1 1 7).2 = CancelResult.success 0 ∧
    (cancel (register merchStore 1 7 (some sampleAnswers) 5).1 1 7).1.events =
      merchStore.events ∧
    (∀ e1, confirmedCount (cancel (register merchStore 1 7 (some sampleAnswers) 5).1 1 7).1 e1 =
      confirmedCount merchStore e1) ∧
    (cancel (register merchStore 1 7 (some sampleAnswers) 5).1 1 7).1.teams =
      merchStore.teams ∧
    ∃ t : Ticket, t.userId = 1 ∧ t.eventId = 7 ∧ t.status = TicketStatus.Cancelled ∧
      (cancel (register merchStore 1 7 (some sampleAnswers) 5).1 1 7).1.tickets =
        merchStore.tickets ++ [t] :=
  have h := register_cancel_round_trip merchStore 1 7 merchEvent (some sampleAnswers) 5 0 rfl
    (by decide!)
  ⟨h.1, (h.2.2.1 (fun k _ hk => ⟨2, by cases hk; norm_num, by norm_num⟩)).1, h.2.2.2.2.1,
    h.2.2.2.2.2.1, h.2.2.2.2.2.2⟩

/-! ## Registering again after a cancellation -/

/-- C9. Re-registration after a cancellation is refused. On `sampleStore` user 1 registers
and cancels; the event is published, the deadline is ahead, the place is free again and the
answers are valid, yet the further `register` of user 1 is rejected with 'Already
registered' and user 1 holds no Confirmed ticket: the guard of `register` looks for a
ticket of the pair whatever its status, where `cancel` and the team handlers look for a
Confirmed one. -/
theorem register_again_rejected :
    (register sampleStore 1 7 (some sampleAnswers) 5).2 = RegisterResult.success 0 ∧
    (cancel (register sampleStore 1 7 (some sampleAnswers) 5).1 1 7).2 =
      CancelResult.success 0 ∧
    confirmedCount (cancel (register sampleStore 1 7 (some sampleAnswers) 5).1 1 7).1 7 = 0 ∧
    (register (cancel (register sampleStore 1 7 (some sampleAnswers) 5).1 1 7).1
      1 7 (some sampleAnswers) 6).2 = RegisterResult.alreadyRegistered ∧
    findConfirmedTicket
      (register (cancel (register sampleStore 1 7 (some sampleAnswers) 5).1 1 7).1
        1 7 (some sampleAnswers) 6).1 1 7 = none := by
  refine ⟨rfl, rfl, rfl, rfl, rfl⟩

/-! ## Duplicate registration -/

theorem findEvent_afterRegister {s : Store} {e : Nat} {ev : Event} (u : Nat)
    (ans : List Answer) (hev : findEvent s e = some ev) :
    findEvent (afterRegister s ev u ans) e =
      some (if tracksStock ev then ev.addStock (-1) else ev) := by
  have hid := findEvent_id hev
  unfold afterRegister
  cases hts : tracksStock ev with
  | true =>
    simp only [if_true]
    rw [findEvent_incStock, hid, if_pos rfl]
    show Option.map _ (findEvent s e) = _
    rw [hev]
    rfl
  | false =>
    simp only [Bool.false_eq_true, if_false]
    exact hev

theorem capacityReached_addStock (s : Store) (ev : Event) (d : ℚ) :
    capacityReached s (ev.addStock d) = capacityReached s ev := rfl

theorem register_duplicate {s : Store} {u e : Nat} {ev : Event} {ans : List Answer} {now : Int}
    (hev : findEvent s e = some ev) (hA : Admissible s ev u ans now)
    (a2 : Option (List Answer)) (now2 : Int) (hdl : now2 ≤ ev.registrationDeadline) :
    register (afterRegister s ev u ans) u e a2 now2 =
      (afterRegister s ev u ans, duplicateAnswer (afterRegister s ev u ans) ev) := by
  have hfe := findEvent_afterRegister u ans hev
  have hfind : (findTicket (afterRegister s ev u ans) u ev.id).isSome = true := by
    unfold findTicket
    rw [afterRegister_tickets, List.find?_isSome]
    exact ⟨newTicket s u ev.id none ans, by simp, by simp [isTicketOf, newTicket]⟩
  unfold register duplicateAnswer
  rw [hfe]
  cases hts : tracksStock ev with
  | true =>
    simp only [if_true]
    have h1 : (ev.addStock (-1)).status = EventStatus.Published := hA.published
    have h2 : ¬ (ev.addStock (-1)).registrationDeadline < now2 := not_lt.mpr hdl
    simp only [h1, ne_eq, not_true_eq_false, if_false, h2, capacityReached_addStock,
      Event.addStock_id]
    cases hc : capacityReached (afterRegister s ev u ans) ev with
    | true => simp
    | false => simp [hfind]
  | false =>
    simp only [Bool.false_eq_true, if_false]
    simp only [hA.published, ne_eq, not_true_eq_false, if_false, not_lt.mpr hdl]
    cases hc : capacityReached (afterRegister s ev u ans) ev with
    | true => simp
    | false => simp [hfind]

theorem registerSeq_duplicates {s : Store} {u e : Nat} {ev : Event} {ans : List Answer}
    {now : Int} (hev : findEvent s e = some ev) (hA : Admissible s ev u ans now)
    (later : List (Option (List Answer) × Int))
    (hdl : ∀ c ∈ later, c.2 ≤ ev.registrationDeadline) :
    registerSeq (afterRegister s ev u ans)
        (later.map (fun c => { userId := u, eventId := e, answers := c.1, now := c.2 })) =
      (afterRegister s ev u ans,
        later.map (fun _ => duplicateAnswer (afterRegister s ev u ans) ev)) := by
  induction later with
  | nil => rfl
  | cons c cs ih =>
    have h1 := register_duplicate hev hA c.1 c.2 (hdl c (List.mem_cons_self _ _))
    have h2 := ih (fun c1 hc1 => hdl c1 (List.mem_cons_of_mem _ hc1))
    rw [List.map_cons, registerSeq]
    simp only [h1, h2]
    rfl

/-- C6 (as stated, refuted). On `sampleStore`, whose event has `maxParticipants = 1`, user 1
holds no ticket and registers twice with valid answers before the deadline: the first
request is admitted, the second creates no ticket but is rejected with 'Event full', not
with 'Already registered'. -/
theorem duplicate_register_event_full :
    findTicket sampleStore 1 7 = none ∧
    (registerSeq sampleStore
      [{ userId := 1, eventId := 7, answers := some sampleAnswers, now := 5 },
       { userId := 1, eventId := 7, answers := some sampleAnswers, now := 6 }]).2 =
      [RegisterResult.success 0, RegisterResult.eventFull] ∧
    RegisterResult.eventFull ≠ RegisterResult.alreadyRegistered := by
  refine ⟨rfl, rfl, by decide⟩

/-- C6 (amended). Idempotent admission: when the first `register` of a user for an event is
admitted (published event, deadline ahead, free capacity and stock, no ticket of the user,
valid answers), any further `register` requests of that user for that event before the
deadline leave exactly one ticket row for the pair, which is Confirmed, and none of them
creates a row; each is rejected with 'Already registered', except that it is rejected with
'Event full' when the Confirmed tickets have reached a non-zero `maxParticipants`, because
the capacity guard is evaluated before the duplicate guard. -/
theorem register_idempotent (s : Store) (u e : Nat) (ev : Event) (ans : List Answer)
    (now : Int) (later : List (Option (List Answer) × Int))
    (hev : findEvent s e = some ev) (hA : Admissible s ev u ans now)
    (hdl : ∀ c ∈ later, c.2 ≤ ev.registrationDeadline) :
    registerSeq s ({ userId := u, eventId := e, answers := some ans, now := now } ::
        later.map (fun c => { userId := u, eventId := e, answers := c.1, now := c.2 })) =
      (afterRegister s ev u ans,
        RegisterResult.success s.nextId ::
          later.map (fun _ => duplicateAnswer (afterRegister s ev u ans) ev)) ∧
    (afterRegister s ev u ans).tickets = s.tickets ++ [newTicket s u e none ans] ∧
    (afterRegister s ev u ans).tickets.countP (isTicketOf u e) = 1 ∧
    (afterRegister s ev u ans).tickets.countP (isConfirmedTicketOf u e) = 1 ∧
    (duplicateAnswer (afterRegister s ev u ans) ev = RegisterResult.eventFull ↔
      ∃ n, ev.maxParticipants = some n ∧ n ≠ 0 ∧ n ≤ (confirmedCount s e : ℚ) + 1) ∧
    (duplicateAnswer (afterRegister s ev u ans) ev = RegisterResult.alreadyRegistered ∨
      duplicateAnswer (afterRegister s ev u ans) ev = RegisterResult.eventFull) := by
  have hid := findEvent_id hev
  have hany := findTicket_none_any hA.noTicket
  rw [hid] at hany
  have hzero : ∀ p : Ticket → Bool, (∀ t, p t = true → isTicketOf u e t = true) →
      s.tickets.countP p = 0 := by
    intro p hp
    rw [List.countP_eq_zero]
    intro t ht hpt
    rw [List.any_eq_false] at hany
    exact hany t ht (hp t hpt)
  refine ⟨?_, ?_, ?_, ?_, ?_, ?_⟩
  · rw [registerSeq]
    simp only [register_admitted hev hA, registerSeq_duplicates hev hA later hdl]
  · rw [afterRegister_tickets, hid]
  · rw [afterRegister_tickets, List.countP_append, hzero _ (fun t h => h), hid]
    simp [isTicketOf, newTicket]
  · rw [afterRegister_tickets, List.countP_append, hzero _ (fun t h => by
      unfold isConfirmedTicketOf at h
      unfold isTicketOf
      simp only [Bool.and_eq_true] at h ⊢
      exact h.1), hid]
    simp [isConfirmedTicketOf, newTicket]
  · unfold duplicateAnswer
    cases hc : capacityReached (afterRegister s ev u ans) ev with
    | true =>
      have := (capacityReached_eq_true_iff (afterRegister s ev u ans) ev).mp hc
      rw [confirmedCount_afterRegister, hid] at this
      simp only [if_true, true_iff]
      simpa using this
    | false =>
      simp only [Bool.false_eq_true, if_false]
      constructor
      · intro h
        cases h
      · intro h
        have h2 := (capacityReached_eq_true_iff (afterRegister s ev u ans) ev).mpr (by
          rw [confirmedCount_afterRegister, hid]
          simpa using h)
        rw [hc] at h2
        cases h2
  · unfold duplicateAnswer
    split
    · right; rfl
    · left; rfl

/-- C6, instance of the amended statement: one admitted request and one duplicate on
`sampleStore`. -/
theorem register_idempotent_witness :
    registerSeq sampleStore
        [{ userId := 1, eventId := 7, answers := some sampleAnswers, now := 5 },
         { userId := 1, eventId := 7, answers := some sampleAnswers, now := 6 }] =
      (afterRegister sampleStore sampleEvent 1 sampleAnswers,
        [RegisterResult.success 0,
          duplicateAnswer (afterRegister sampleStore sampleEvent 1 sampleAnswers) sampleEvent]) :=
  (register_idempotent sampleStore 1 7 sampleEvent sampleAnswers 5 [(some sampleAnswers, 6)]
    rfl ⟨rfl, by decide, rfl, rfl, rfl, rfl, rfl⟩ (by decide)).1

/-! ## Stock -/

theorem teamEffect_events {s s2 : Store} (h : TeamEffect s s2) : s2.events = s.events := by
  refine teamEffect_preserves (fun x => x.events = s.events) ?_ ?_ h rfl
  · intro x teams n hx
    exact hx
  · intro x t x1 hx _ _ hs
    obtain ⟨rfl, _⟩ := saveNewTicket_ok hs
    exact hx

theorem issueTeamTickets_events (e tid : Nat) (ms : List Nat) (s : Store) :
    (issueTeamTickets e tid ms s).1.events = s.events := by
  refine issueTeamTickets_preserves (fun x => x.events = s.events) ?_ e tid ms s rfl
  intro x t x1 hx _ _ hs
  obtain ⟨rfl, _⟩ := saveNewTicket_ok hs
  exact hx

theorem findEvent_congr {s s2 : Store} (h : s2.events = s.events) (e : Nat) :
    findEvent s2 e = findEvent s e := by
  unfold findEvent
  rw [h]

theorem outOfStock_false_pos {ev : Event} {k : ℚ} (hm : ev.type = EventType.Merch)
    (hk : ev.stock = some k) (h : outOfStock ev = false) : 0 < k := by
  unfold outOfStock tracksStock at h
  rw [hk, hm] at h
  simp at h
  exact h

theorem tracksStock_of {ev : Event} {k : ℚ} (hm : ev.type = EventType.Merch)
    (hk : ev.stock = some k) : tracksStock ev = true := by
  unfold tracksStock
  rw [hk, hm]
  rfl

theorem findEvent_afterCancel {s : Store} {e : Nat} {ev : Event} (u : Nat)
    (hev : findEvent s e = some ev) :
    findEvent (afterCancel s ev u) e = some (if tracksStock ev then ev.addStock 1 else ev) := by
  have hid := findEvent_id hev
  unfold afterCancel
  cases hts : tracksStock ev with
  | true =>
    simp only [if_true]
    rw [findEvent_incStock, hid, if_pos rfl]
    show Option.map _ (findEvent s e) = _
    rw [hev]
    rfl
  | false =>
    simp only [Bool.false_eq_true, if_false]
    exact hev

theorem findEvent_afterRegister_ne {s : Store} {e e1 : Nat} {ev : Event} (u : Nat)
    (ans : List Answer) (hev : findEvent s e = some ev) (hne : e1 ≠ e) :
    findEvent (afterRegister s ev u ans) e1 = findEvent s e1 := by
  have hid := findEvent_id hev
  unfold afterRegister
  split
  · rw [findEvent_incStock, hid, if_neg hne]
    rfl
  · rfl

theorem findEvent_afterCancel_ne {s : Store} {e e1 : Nat} {ev : Event} (u : Nat)
    (hev : findEvent s e = some ev) (hne : e1 ≠ e) :
    findEvent (afterCancel s ev u) e1 = findEvent s e1 := by
  have hid := findEvent_id hev
  unfold afterCancel
  split
  · rw [findEvent_incStock, hid, if_neg hne]
    rfl
  · rfl

theorem cancelTicketIn_countP_confirmed (u e e1 : Nat) (ts : List Ticket) (t : Ticket)
    (h : ts.find? (isConfirmedTicketOf u e) = some t) :
    (cancelTicketIn u e ts).countP (isConfirmedFor e1) + (if e = e1 then 1 else 0) =
      ts.countP (isConfirmedFor e1) := by
  induction ts with
  | nil => simp at h
  | cons x xs ih =>
    unfold cancelTicketIn
    cases hx : isConfirmedTicketOf u e x with
    | true =>
      simp only [if_true]
      have hx2 := hx
      unfold isConfirmedTicketOf at hx2
      simp only [Bool.and_eq_true, beq_iff_eq] at hx2
      obtain ⟨⟨_, hxe⟩, hxs⟩ := hx2
      have h1 : isConfirmedFor e1 x.cancelled = false := by
        simp [isConfirmedFor, Ticket.cancelled]
      rw [List.countP_cons, List.countP_cons, h1]
      by_cases he : e = e1
      · have h2 : isConfirmedFor e1 x = true := by
          simp [isConfirmedFor, hxe, he, hxs]
        simp [he, h2]
      · have h2 : isConfirmedFor e1 x = false := by
          simp [isConfirmedFor, hxe, he]
        simp [he, h2]
    | false =>
      simp only [Bool.false_eq_true, if_false]
      rw [List.find?_cons, hx] at h
      rw [List.countP_cons, List.countP_cons, ← ih h]
      omega

theorem confirmedCount_afterCancel {s : Store} {ev : Event} {u : Nat} {t : Ticket}
    (e1 : Nat) (ht : findConfirmedTicket s u ev.id = some t) :
    confirmedCount (afterCancel s ev u) e1 + (if ev.id = e1 then 1 else 0) =
      confirmedCount s e1 := by
  unfold confirmedCount
  rw [afterCancel_tickets]
  exact cancelTicketIn_countP_confirmed u ev.id e1 s.tickets t ht

/-- One request to register or to cancel leaves the stock of a merchandise event a whole
number that is not negative, whatever its size. -/
theorem stock_whole_step (eid : Nat) (s : Store) (op : Op)
    (hop : op.isTicketRequest = true)
    (h : ∃ ev k, findEvent s eid = some ev ∧ ev.type = EventType.Merch ∧
      ev.stock = some ((k : ℕ) : ℚ)) :
    ∃ ev1 k1, findEvent (op.apply s) eid = some ev1 ∧ ev1.type = EventType.Merch ∧
      ev1.stock = some ((k1 : ℕ) : ℚ) := by
  obtain ⟨ev, k, hev, hm, hk⟩ := h
  have hid := findEvent_id hev
  have hts := tracksStock_of hm hk
  cases op with
  | register u e a now =>
    show ∃ ev1 k1, findEvent (register s u e a now).1 eid = some ev1 ∧ _ ∧ _
    rcases register_cases s u e a now with ⟨ev0, ans, hev0, _, hA, hr⟩ | ⟨hr, _⟩
    · by_cases he : e = eid
      · subst he
        rw [hev] at hev0
        cases hev0
        have hpos := outOfStock_false_pos hm hk hA.inStock
        have hpos1 : 1 ≤ k := by exact_mod_cast hpos
        have hc : ((k : ℚ) + -1) = ((k - 1 : ℕ) : ℚ) := by
          rw [Nat.cast_sub hpos1]
          push_cast
          ring
        obtain ⟨m, hm2⟩ := roundDouble_natCast_whole (k - 1)
        rw [hr]
        refine ⟨ev.addStock (-1), m, ?_, hm, ?_⟩
        · rw [findEvent_afterRegister u ans hev, hts]
          rfl
        · simp only [Event.addStock, hk, Option.map_some']
          rw [hc, hm2]
      · rw [hr]
        refine ⟨ev, k, ?_, hm, hk⟩
        rw [findEvent_afterRegister_ne u ans hev0 (fun h => he h.symm)]
        exact hev
    · rw [hr]
      exact ⟨ev, k, hev, hm, hk⟩
  | cancel u e =>
    show ∃ ev1 k1, findEvent (cancel s u e).1 eid = some ev1 ∧ _ ∧ _
    rcases cancel_cases s u e with ⟨hr, _⟩ | ⟨ev0, t, hev0, ht, hr⟩
    · rw [hr]
      exact ⟨ev, k, hev, hm, hk⟩
    · by_cases he : e = eid
      · subst he
        rw [hev] at hev0
        cases hev0
        have hc : ((k : ℚ) + 1) = ((k + 1 : ℕ) : ℚ) := by push_cast; ring
        obtain ⟨m, hm2⟩ := roundDouble_natCast_whole (k + 1)
        rw [hr]
        refine ⟨ev.addStock 1, m, ?_, hm, ?_⟩
        · rw [findEvent_afterCancel u hev, hts]
          rfl
        · simp only [Event.addStock, hk, Option.map_some']
          rw [hc, hm2]
      · rw [hr]
        refine ⟨ev, k, ?_, hm, hk⟩
        rw [findEvent_afterCancel_ne u hev0 (fun h => he h.symm)]
        exact hev
  | createTeam u n e rnd => cases hop
  | joinTeam u c e => cases hop

theorem stock_whole_run (eid : Nat) (ops : List Op)
    (hops : ∀ op ∈ ops, op.isTicketRequest = true) :
    ∀ s : Store, (∃ ev k, findEvent s eid = some ev ∧ ev.type = EventType.Merch ∧
      ev.stock = some ((k : ℕ) : ℚ)) →
      ∃ ev1 k1, findEvent (run s ops) eid = some ev1 ∧ ev1.type = EventType.Merch ∧
        ev1.stock = some ((k1 : ℕ) : ℚ) := by
  induction ops with
  | nil =>
    intro s h
    exact h
  | cons op ops ih =>
    intro s h
    have hrun : run s (op :: ops) = run (op.apply s) ops := by
      unfold run
      rw [List.foldl_cons]
    rw [hrun]
    exact ih (fun o ho => hops o (List.mem_cons_of_mem op ho)) (op.apply s)
      (stock_whole_step eid s op (hops op (List.mem_cons_self op ops)) h)

/-- One request to register or to cancel: the whole stock of a merchandise event moves by
the purchase or the cancellation the request performs, as long as the stock and the
Confirmed tickets of the event together do not exceed 2^53. -/
theorem stock_step (eid : Nat) (s : Store) (op : Op) (ev : Event) (k : Nat)
    (hop : op.isTicketRequest = true)
    (hev : findEvent s eid = some ev) (hm : ev.type = EventType.Merch)
    (hk : ev.stock = some (k : ℚ)) (hb : k + confirmedCount s eid ≤ 2 ^ 53) :
    ∃ ev1 k1, findEvent (op.apply s) eid = some ev1 ∧ ev1.type = EventType.Merch ∧
      ev1.stock = some ((k1 : ℕ) : ℚ) ∧
      k1 + purchased s eid op = k + released s eid op ∧
      k1 + confirmedCount (op.apply s) eid ≤ 2 ^ 53 := by
  have hid := findEvent_id hev
  cases op with
  | register u e a now =>
    show ∃ ev1 k1, findEvent (register s u e a now).1 eid = some ev1 ∧ _ ∧ _ ∧ _ ∧
      k1 + confirmedCount (register s u e a now).1 eid ≤ 2 ^ 53
    rcases register_cases s u e a now with ⟨ev0, ans, hev0, _, hA, hr⟩ | ⟨hr, hne⟩
    · by_cases he : e = eid
      · subst he
        rw [hev] at hev0
        cases hev0
        have hpos := outOfStock_false_pos hm hk hA.inStock
        have hpos1 : 1 ≤ k := by exact_mod_cast hpos
        have hts := tracksStock_of hm hk
        have hp : purchased s e (Op.register u e a now) = 1 := by
          simp [purchased, hr, RegisterResult.isSuccess]
        rw [hr, hp]
        simp only [released]
        refine ⟨ev.addStock (-1), k - 1, ?_, hm, ?_, by omega, ?_⟩
        · rw [findEvent_afterRegister u ans hev, hts]
          rfl
        · simp only [Event.addStock, hk, Option.map_some']
          rw [roundDouble_pred hpos1 (by omega)]
        · rw [confirmedCount_afterRegister, hid, if_pos rfl]
          omega
      · have hp : purchased s eid (Op.register u e a now) = 0 := by
          simp [purchased, he]
        have hid0 := findEvent_id hev0
        rw [hr, hp]
        simp only [released]
        refine ⟨ev, k, ?_, hm, hk, rfl, ?_⟩
        · rw [findEvent_afterRegister_ne u ans hev0 (fun h => he h.symm)]
          exact hev
        · rw [confirmedCount_afterRegister, hid0, if_neg he]
          exact hb
    · have hp : purchased s eid (Op.register u e a now) = 0 := by
        simp only [purchased]
        rw [if_neg]
        intro ⟨_, hs⟩
        cases hres : (register s u e a now).2 with
        | success id => exact hne id hres
        | _ => rw [hres] at hs; cases hs
      rw [hr, hp]
      simp only [released]
      exact ⟨ev, k, hev, hm, hk, rfl, hb⟩
  | cancel u e =>
    show ∃ ev1 k1, findEvent (cancel s u e).1 eid = some ev1 ∧ _ ∧ _ ∧ _ ∧
      k1 + confirmedCount (cancel s u e).1 eid ≤ 2 ^ 53
    rcases cancel_cases s u e with ⟨hr, hne⟩ | ⟨ev0, t, hev0, ht, hr⟩
    · have hp : released s eid (Op.cancel u e) = 0 := by
        simp only [released]
        rw [if_neg]
        intro ⟨_, hs⟩
        cases hres : (cancel s u e).2 with
        | success id => exact hne id hres
        | _ => rw [hres] at hs; cases hs
      rw [hr, hp]
      simp only [purchased]
      exact ⟨ev, k, hev, hm, hk, rfl, hb⟩
    · by_cases he : e = eid
      · subst he
        rw [hev] at hev0
        cases hev0
        have hts := tracksStock_of hm hk
        have hp : released s e (Op.cancel u e) = 1 := by
          simp [released, hr, CancelResult.isSuccess]
        have hcount := confirmedCount_afterCancel e ht
        rw [hid, if_pos rfl] at hcount
        rw [hr, hp]
        simp only [purchased]
        refine ⟨ev.addStock 1, k + 1, ?_, hm, ?_, by omega, by omega⟩
        · rw [findEvent_afterCancel u hev, hts]
          rfl
        · simp only [Event.addStock, hk, Option.map_some']
          rw [roundDouble_succ (by omega)]
      · have hp : released s eid (Op.cancel u e) = 0 := by
          simp [released, he]
        have hid0 := findEvent_id hev0
        have hcount := confirmedCount_afterCancel eid ht
        rw [hid0, if_neg he] at hcount
        rw [hr, hp]
        simp only [purchased]
        refine ⟨ev, k, ?_, hm, hk, rfl, by omega⟩
        rw [findEvent_afterCancel_ne u hev0 (fun h => he h.symm)]
        exact hev
  | createTeam u n e rnd => cases hop
  | joinTeam u c e => cases hop

theorem stock_run (eid : Nat) (ops : List Op) (hops : ∀ op ∈ ops, op.isTicketRequest = true) :
    ∀ (s : Store) (ev : Event) (k : Nat), findEvent s eid = some ev →
      ev.type = EventType.Merch → ev.stock = some (k : ℚ) →
      k + confirmedCount s eid ≤ 2 ^ 53 →
      ∃ ev1 k1, findEvent (run s ops) eid = some ev1 ∧ ev1.stock = some ((k1 : ℕ) : ℚ) ∧
        k1 + purchases eid s ops = k + cancellations eid s ops := by
  induction ops with
  | nil =>
    intro s ev k hev _ hk _
    exact ⟨ev, k, hev, hk, rfl⟩
  | cons op ops ih =>
    intro s ev k hev hm hk hb
    obtain ⟨ev1, k1, hev1, hm1, hk1, heq1, hb1⟩ :=
      stock_step eid s op ev k (hops op (List.mem_cons_self op ops)) hev hm hk hb
    obtain ⟨ev2, k2, hev2, hk2, heq2⟩ :=
      ih (fun o ho => hops o (List.mem_cons_of_mem op ho)) (op.apply s) ev1 k1 hev1 hm1 hk1 hb1
    have hrun : run s (op :: ops) = run (op.apply s) ops := by
      unfold run
      rw [List.foldl_cons]
    rw [hrun]
    refine ⟨ev2, k2, hev2, hk2, ?_⟩
    simp only [purchases, cancellations]
    omega

/-- C7 (as stated, refuted). The merchandise event has half a unit in stock and no ticket:
user 1 registers, which succeeds because 0.5 is above 0, and the stock is -0.5, a negative
number.  The merchandise event has 9007199254740994 units (2^53 + 2) and no ticket: user 1
registers, which succeeds, and the stock is 9007199254740992, two units less. -/
theorem purchase_drives_stock_negative :
    (findEvent halfStockStore 7).map (fun ev => (ev.type, ev.stock)) =
      some (EventType.Merch, some (1 / 2)) ∧
    halfStockStore.tickets = [] ∧
    (register halfStockStore 1 7 (some sampleAnswers) 5).2 = RegisterResult.success 0 ∧
    (findEvent (register halfStockStore 1 7 (some sampleAnswers) 5).1 7).map
      (fun ev => ev.stock) = some (some (-1 / 2)) ∧
    (-1 / 2 : ℚ) < 0 ∧
    (findEvent bigStockStore 7).map (fun ev => (ev.type, ev.stock)) =
      some (EventType.Merch, some 9007199254740994) ∧
    bigStockStore.tickets = [] ∧
    (register bigStockStore 1 7 (some sampleAnswers) 5).2 = RegisterResult.success 0 ∧
    (findEvent (register bigStockStore 1 7 (some sampleAnswers) 5).1 7).map
      (fun ev => ev.stock) = some (some 9007199254740992) ∧
    (9007199254740992 : ℚ) ≠ 9007199254740994 - 1 := by
  decide!

/-- C7 (amended). Stock invariant: for a merchandise event whose stock is a whole number
`S ≥ 0`, after any finite sequence of register (that is purchase) and cancel requests the
stock of the event is a whole number and not negative; and when `S` and the Confirmed tickets
of the event together do not exceed 2^53 (in particular `S ≤ 2^53` and no tickets), the
stock equals `S` minus the number of successful purchases plus the number of successful
cancellations for the event.  As this holds for every sequence, it holds after each
request. -/
theorem stock_invariant (s : Store) (eventId : Nat) (ev : Event) (S : Nat) (ops : List Op)
    (hev : findEvent s eventId = some ev) (hm : ev.type = EventType.Merch)
    (hS : ev.stock = some (S : ℚ)) (hops : ∀ op ∈ ops, op.isTicketRequest = true) :
    ∃ ev1, findEvent (run s ops) eventId = some ev1 ∧
      (∃ k : ℕ, ev1.stock = some (k : ℚ) ∧ 0 ≤ (k : ℚ)) ∧
      (S + confirmedCount s eventId ≤ 2 ^ 53 →
        ev1.stock =
          some ((S : ℚ) - purchases eventId s ops + cancellations eventId s ops)) := by
  obtain ⟨ev1, k1, hev1, _, hk1⟩ := stock_whole_run eventId ops hops s ⟨ev, S, hev, hm, hS⟩
  refine ⟨ev1, hev1, ⟨k1, hk1, Nat.cast_nonneg k1⟩, ?_⟩
  intro hb
  obtain ⟨ev2, k2, hev2, hk2, heq⟩ := stock_run eventId ops hops s ev S hev hm hS hb
  rw [hev1] at hev2
  cases hev2
  have hq : ((k2 : ℕ) : ℚ) =
      (S : ℚ) - (purchases eventId s ops : ℚ) + cancellations eventId s ops := by
    have : ((k2 + purchases eventId s ops : ℕ) : ℚ) =
        ((S + cancellations eventId s ops : ℕ) : ℚ) := by rw [heq]
    push_cast at this
    linarith
  rw [hk2, hq]

/-- C7, instance of the amended statement: three purchases (the third one out of stock) and
a cancellation on `merchStore`, whose event starts with 2 units and no ticket. -/
theorem stock_invariant_witness :
    2 + confirmedCount merchStore 7 ≤ 2 ^ 53 ∧
    ∃ ev1, findEvent (run merchStore merchRequests) 7 = some ev1 ∧
      ev1.stock = some (((2 : ℕ) : ℚ) - purchases 7 merchStore merchRequests +
        cancellations 7 merchStore merchRequests) :=
  let ⟨ev1, h1, _, h3⟩ :=
    stock_invariant merchStore 7 merchEvent 2 merchRequests rfl rfl (by decide!) (by decide)
  ⟨by decide!, ev1, h1, h3 (by decide!)⟩

/-! ## Concurrent registration -/

theorem newTicket_id (s : Store) (u e : Nat) (tid : Option Nat) (ans : List Answer) :
    (newTicket s u e tid ans).id = s.nextId := rfl

theorem registerSteps_done (c : RegisterCall) (n : Nat) (s : Store) (r : RegisterResult) :
    registerSteps c n (s, RegPhase.done r) = (s, RegPhase.done r) := by
  induction n with
  | zero => rfl
  | succ n ih => rw [registerSteps]; exact ih

theorem capacityReached_of_not_truthy {s : Store} {ev : Event}
    (h : numTruthy ev.maxParticipants = false) : capacityReached s ev = false := by
  unfold capacityReached
  unfold numTruthy at h
  cases hm : ev.maxParticipants with
  | none => rfl
  | some n =>
    rw [hm] at h
    simp only at h
    simp only [h, Bool.false_and]

theorem numTruthy_of_capacityReached {s : Store} {ev : Event}
    (h : capacityReached s ev = true) : numTruthy ev.maxParticipants = true := by
  cases hn : numTruthy ev.maxParticipants with
  | true => rfl
  | false => rw [capacityReached_of_not_truthy hn] at h; cases h

/-- The steps of a request from the `await` on `Ticket.findOne` to the response, run alone. -/
theorem registerSteps_finding (s : Store) (u e : Nat) (a : Option (List Answer)) (now : Int)
    (ev : Event) (n : Nat) (hev : findEvent s e = some ev)
    (h1 : ev.status = EventStatus.Published) (h2 : ¬ ev.registrationDeadline < now)
    (h3 : capacityReached s ev = false) :
    registerSteps ⟨u, e, a, now⟩ (n + 3) (s, RegPhase.finding ev) =
      ((register s u e a now).1, RegPhase.done (register s u e a now).2) := by
  simp only [registerSteps]
  cases h4 : findTicket s u ev.id with
  | some t => simp [registerStep, register, hev, h1, h2, h3, h4, registerSteps_done]
  | none =>
    cases a with
    | none => simp [registerStep, register, hev, h1, h2, h3, h4, registerSteps_done]
    | some ans =>
      cases h5 : firstMissingField ev.formFields ans with
      | some l => simp [registerStep, register, hev, h1, h2, h3, h4, h5, registerSteps_done]
      | none =>
        cases h6 : outOfStock ev with
        | true => simp [registerStep, register, hev, h1, h2, h3, h4, h5, h6, registerSteps_done]
        | false =>
          cases h7 : saveNewTicket s (newTicket s u ev.id none ans) with
          | error err =>
            cases err <;>
              simp [registerStep, register, hev, h1, h2, h3, h4, h5, h6, h7, registerSteps_done]
          | ok s1 =>
            cases h8 : tracksStock ev with
            | true =>
              simp [registerStep, register, hev, h1, h2, h3, h4, h5, h6, h7, h8,
                registerSteps_done, newTicket_id]
            | false =>
              simp [registerStep, register, hev, h1, h2, h3, h4, h5, h6, h7, h8,
                registerSteps_done, newTicket_id]

/-- A request that runs alone, from its first `await` to its response, does what `register`
does. -/
theorem registerSteps_eq_register (s : Store) (c : RegisterCall) :
    registerSteps c 5 (s, RegPhase.start) =
      ((register s c.userId c.eventId c.answers c.now).1,
        RegPhase.done (register s c.userId c.eventId c.answers c.now).2) := by
  cases c with
  | mk u e a now =>
  cases hev : findEvent s e with
  | none => simp [registerSteps, registerStep, register, hev]
  | some ev =>
    by_cases h1 : ev.status = EventStatus.Published
    swap; · simp [registerSteps, registerStep, register, hev, h1]
    by_cases h2 : ev.registrationDeadline < now
    · simp [registerSteps, registerStep, register, hev, h1, h2]
    cases h3 : capacityReached s ev with
    | true =>
      have ht := numTruthy_of_capacityReached h3
      simp [registerSteps, registerStep, register, hev, h1, h2, h3, ht]
    | false =>
      cases hn : numTruthy ev.maxParticipants with
      | true =>
        have hs : registerSteps ⟨u, e, a, now⟩ 5 (s, RegPhase.start) =
            registerSteps ⟨u, e, a, now⟩ (0 + 3) (s, RegPhase.finding ev) := by
          simp [registerSteps, registerStep, hev, h1, h2, h3, hn]
        rw [hs]
        exact registerSteps_finding s u e a now ev 0 hev h1 h2 h3
      | false =>
        have hs : registerSteps ⟨u, e, a, now⟩ 5 (s, RegPhase.start) =
            registerSteps ⟨u, e, a, now⟩ (1 + 3) (s, RegPhase.finding ev) := by
          simp [registerSteps, registerStep, hev, h1, h2, hn]
        rw [hs]
        exact registerSteps_finding s u e a now ev 1 hev h1 h2 h3

/-- C4. Atomic admission under concurrency does not hold in the code. `sampleEvent` has
`maxParticipants = 1` and no ticket, so exactly one place is free; the requests of users 1
and 2 take turns at every `await`, so both count the Confirmed tickets (0) before either
saves. Both are admitted and the event ends with 2 Confirmed tickets: the capacity check
and the insertion of the ticket are two separate store operations. -/
theorem concurrent_register_oversubscribes :
    sampleEvent.maxParticipants = some 1 ∧ confirmedCount sampleStore 7 = 0 ∧
    firstRequest.userId ≠ secondRequest.userId ∧
    (interleave firstRequest secondRequest alternating
      (sampleStore, RegPhase.start, RegPhase.start)).2 =
      (RegPhase.done (RegisterResult.success 0), RegPhase.done (RegisterResult.success 1)) ∧
    confirmedCount (interleave firstRequest secondRequest alternating
      (sampleStore, RegPhase.start, RegPhase.start)).1 7 = 2 := by
  refine ⟨rfl, rfl, by decide, rfl, rfl⟩

/-! ## Case analysis of createTeam -/

theorem saveNewTeam_eq_some {s : Store} {t : Team} (h1 : trimmed t.name ≠ "")
    (h2 : (trimmed t.code).length = 6)
    (h3 : s.teams.any (fun u => u.code == toUpperCase (trimmed t.code)) = false) :
    saveNewTeam s t =
      some { s with teams := s.teams ++ [storedTeam t], nextId := s.nextId + 1 } := by
  simp only [saveNewTeam, h1, h2, h3, if_false, ne_eq, not_true_eq_false, Bool.false_eq_true]
  rfl

theorem saveNewTeam_some {s s1 : Store} {t : Team} (h : saveNewTeam s t = some s1) :
    trimmed t.name ≠ "" ∧ (trimmed t.code).length = 6 ∧
      s.teams.any (fun u => u.code == toUpperCase (trimmed t.code)) = false ∧
      s1 = { s with teams := s.teams ++ [storedTeam t], nextId := s.nextId + 1 } := by
  unfold saveNewTeam at h
  split at h
  · cases h
  · rename_i h1
    split at h
    · cases h
    · rename_i h2
      split at h
      · cases h
      · rename_i h3
        cases h
        exact ⟨h1, by simpa using h2, by simpa using h3, rfl⟩

theorem createTeam_rejected_or (s : Store) (u : Nat) (name : String) (e : Option Nat)
    (rnd : List String) :
    (∃ eid ev, e = some eid ∧ CreateAdmissible s u name eid ev) ∨
      (createTeam s u name e rnd).1 = s ∧
        ∀ id t, (createTeam s u name e rnd).2 ≠ CreateTeamResult.success id t := by
  cases e with
  | none => right; simp [createTeam]
  | some eid =>
    by_cases h1 : name = ""
    · right; simp [createTeam, h1]
    cases h2 : findEvent s eid with
    | none => right; simp [createTeam, h1, h2]
    | some ev =>
      cases h3 : ev.isTeamEvent with
      | false => right; simp [createTeam, h1, h2, h3]
      | true =>
        cases h4 : s.teams.any (isTeamOf u eid) with
        | true => right; simp [createTeam, h1, h2, h3, h4]
        | false =>
          cases h5 : findConfirmedTicket s u eid with
          | some t => right; simp [createTeam, h1, h2, h3, h4, h5]
          | none =>
            cases h6 : teamLimitReached s ev eid with
            | true => right; simp [createTeam, h1, h2, h3, h4, h5, h6]
            | false => left; exact ⟨eid, ev, rfl, ⟨h1, h2, h3, h4, h5, h6⟩⟩

/-- The answer of `createTeam` once its guards are passed. -/
theorem createTeam_admitted {s : Store} {u : Nat} {name : String} {eid : Nat} {ev : Event}
    (rnd : List String) (h : CreateAdmissible s u name eid ev) :
    createTeam s u name (some eid) rnd =
      match generateTeamCode s rnd with
      | none => (s, CreateTeamResult.codeLoopRunning)
      | some code =>
        match saveNewTeam s (newTeam s u name code eid ev) with
        | none => (s, CreateTeamResult.serverError)
        | some s1 =>
          if ev.minTeamSize ≤ 1 then
            match saveNewTicket s1 (newTicket s1 u ev.id (some s.nextId) []) with
            | Except.error _ => (s1, CreateTeamResult.serverError)
            | Except.ok s2 => (s2, CreateTeamResult.success s.nextId (some s1.nextId))
          else (s1, CreateTeamResult.success s.nextId none) := by
  have h5 : (findConfirmedTicket s u eid).isSome = false := by rw [h.noTicket]; rfl
  simp only [createTeam, h.named, h.found, h.teamEvent, h.notInTeam, h5, h.room, if_false,
    Bool.false_eq_true, Bool.true_eq_false]
  cases hg : generateTeamCode s rnd with
  | none => rfl
  | some code =>
    simp only []
    show (match saveNewTeam s (newTeam s u name code eid ev) with
      | none => _
      | some s1 => _) = _
    cases hs : saveNewTeam s (newTeam s u name code eid ev) with
    | none => rfl
    | some s1 =>
      simp only []
      by_cases hm : ev.minTeamSize ≤ 1
      · simp only [hm, if_true, newTeam]
        cases saveNewTicket s1 (newTicket s1 u ev.id (some s.nextId) []) <;> rfl
      · simp only [hm, if_false, newTeam]
        rfl

/-! ## Case analysis of joinTeam -/

theorem joinTeam_rejected_or (s : Store) (u : Nat) (code : String) (e : Option Nat) :
    (∃ eid team ev, e = some eid ∧ JoinAdmissible s u code eid team ev) ∨
      (joinTeam s u code e).1 = s ∧
        ∀ id t, (joinTeam s u code e).2 ≠ JoinTeamResult.success id t := by
  cases e with
  | none => right; simp [joinTeam]
  | some eid =>
    by_cases h1 : code = ""
    · right; simp [joinTeam, h1]
    cases h2 : s.teams.find? (fun t => t.code == code && t.eventId == eid) with
    | none => right; simp [joinTeam, h1, h2]
    | some team =>
      cases h3 : findEvent s eid with
      | none => right; simp [joinTeam, h1, h2, h3]
      | some ev =>
        by_cases h4 : ev.maxTeamSize ≤ (team.members.length : ℚ)
        · right; simp [joinTeam, h1, h2, h3, h4]
        cases h5 : s.teams.any (isTeamOf u eid) with
        | true => right; simp [joinTeam, h1, h2, h3, h4, h5]
        | false =>
          cases h6 : findConfirmedTicket s u eid with
          | some t => right; simp [joinTeam, h1, h2, h3, h4, h5, h6]
          | none => left; exact ⟨eid, team, ev, rfl, ⟨h1, h2, h3, h4, h5, h6⟩⟩

/-- The answer of `joinTeam` once its guards are passed. -/
theorem joinTeam_admitted {s : Store} {u : Nat} {code : String} {eid : Nat} {team : Team}
    {ev : Event} (h : JoinAdmissible s u code eid team ev) :
    joinTeam s u code (some eid) =
      if completesTeam ev team (team.members ++ [u]) then
        if (issueTeamTickets ev.id team.id (team.members ++ [u])
            (afterJoinSave s code eid ev team u)).2 = false then
          ((issueTeamTickets ev.id team.id (team.members ++ [u])
            (afterJoinSave s code eid ev team u)).1, JoinTeamResult.serverError)
        else
          ((issueTeamTickets ev.id team.id (team.members ++ [u])
            (afterJoinSave s code eid ev team u)).1,
            JoinTeamResult.success team.id
              ((findTicket (issueTeamTickets ev.id team.id (team.members ++ [u])
                (afterJoinSave s code eid ev team u)).1 u eid).map (fun t => t.id)))
      else if team.status = TeamStatus.Complete then
        match saveNewTicket (afterJoinSave s code eid ev team u)
            (newTicket (afterJoinSave s code eid ev team u) u ev.id (some team.id) []) with
        | Except.error _ => (afterJoinSave s code eid ev team u, JoinTeamResult.serverError)
        | Except.ok s2 => (s2, JoinTeamResult.success team.id (some s.nextId))
      else (afterJoinSave s code eid ev team u, JoinTeamResult.success team.id none) := by
  have h2 : s.teams.find? (fun t => t.code == code && t.eventId == eid) = some team :=
    h.resolved
  have h6 : (findConfirmedTicket s u eid).isSome = false := by rw [h.noTicket]; rfl
  cases h7 : completesTeam ev team (team.members ++ [u]) with
  | true =>
    simp only [joinTeam, h.coded, h2, h.found, h.notFull, h.notInTeam, h6, h7, if_false,
      if_true, Bool.false_eq_true, afterJoinSave, joinedTeam]
  | false =>
    by_cases h8 : team.status = TeamStatus.Complete
    · simp only [joinTeam, h.coded, h2, h.found, h.notFull, h.notInTeam, h6, h7, h8, if_false,
        if_true, Bool.false_eq_true, afterJoinSave, joinedTeam]
      cases saveNewTicket _ _ <;> rfl
    · simp only [joinTeam, h.coded, h2, h.found, h.notFull, h.notInTeam, h6, h7, h8, if_false,
        if_true, Bool.false_eq_true, afterJoinSave, joinedTeam]

/-! ## How the requests change the team collection -/

theorem updateTeamIn_split (code : String) (eid : Nat) (saved team : Team)
    (l1 l2 : List Team) (h1 : ∀ x ∈ l1, isTeamWithCode code eid x = false)
    (ht : isTeamWithCode code eid team = true) :
    updateTeamIn code eid saved (l1 ++ team :: l2) = l1 ++ saved :: l2 := by
  induction l1 with
  | nil =>
    unfold isTeamWithCode at ht
    simp only [Bool.and_eq_true, beq_iff_eq] at ht
    simp [updateTeamIn, ht.1, ht.2]
  | cons x xs ih =>
    have hx := h1 x (List.mem_cons_self _ _)
    unfold isTeamWithCode at hx
    have hx2 : ¬ (x.code = code ∧ x.eventId = eid) := by
      intro ⟨a, b⟩
      simp [a, b] at hx
    rw [List.cons_append, updateTeamIn, if_neg hx2, ih (fun y hy => h1 y (List.mem_cons_of_mem _ hy))]
    rfl

theorem find_team_split {ts : List Team} {code : String} {eid : Nat} {team : Team}
    (h : ts.find? (isTeamWithCode code eid) = some team) :
    isTeamWithCode code eid team = true ∧
      ∃ l1 l2, ts = l1 ++ team :: l2 ∧ ∀ x ∈ l1, isTeamWithCode code eid x = false := by
  rw [List.find?_eq_some] at h
  obtain ⟨hp, l1, l2, hl, hn⟩ := h
  refine ⟨hp, l1, l2, hl, ?_⟩
  intro x hx
  simpa using hn x hx

theorem afterRegister_teams (s : Store) (ev : Event) (u : Nat) (ans : List Answer) :
    (afterRegister s ev u ans).teams = s.teams := by
  unfold afterRegister
  split <;> rfl

theorem afterCancel_teams (s : Store) (ev : Event) (u : Nat) :
    (afterCancel s ev u).teams = s.teams := by
  unfold afterCancel
  split <;> rfl

theorem saveNewTicket_teams {s s1 : Store} {t : Ticket} (h : saveNewTicket s t = Except.ok s1) :
    s1.teams = s.teams := by
  obtain ⟨rfl, _⟩ := saveNewTicket_ok h
  rfl

theorem issueTeamTickets_teams (e tid : Nat) (ms : List Nat) (s : Store) :
    (issueTeamTickets e tid ms s).1.teams = s.teams := by
  refine issueTeamTickets_preserves (fun x => x.teams = s.teams) ?_ e tid ms s rfl
  intro x t x1 hx _ _ hs
  rw [saveNewTicket_teams hs]
  exact hx

/-- A request leaves the team collection as it is, or appends the team created by an
admitted `createTeam`, or replaces in place the team joined by an admitted `joinTeam`. -/
theorem teams_step (s : Store) (op : Op) :
    (op.apply s).teams = s.teams ∨
    (∃ u name code eid ev, CreateAdmissible s u name eid ev ∧
      (op.apply s).teams = s.teams ++ [storedTeam (newTeam s u name code eid ev)]) ∨
    (∃ u code eid team ev l1 l2, JoinAdmissible s u code eid team ev ∧
      isTeamWithCode code eid team = true ∧
      s.teams = l1 ++ team :: l2 ∧ (∀ x ∈ l1, isTeamWithCode code eid x = false) ∧
      (op.apply s).teams = l1 ++ joinedTeam ev team u :: l2) := by
  cases op with
  | register u e a now =>
    left
    show (register s u e a now).1.teams = s.teams
    rcases register_cases s u e a now with ⟨ev, ans, _, _, _, hr⟩ | ⟨hr, _⟩
    · rw [hr]; exact afterRegister_teams s ev u ans
    · rw [hr]
  | cancel u e =>
    left
    show (cancel s u e).1.teams = s.teams
    rcases cancel_cases s u e with ⟨hr, _⟩ | ⟨ev, t, _, _, hr⟩
    · rw [hr]
    · rw [hr]; exact afterCancel_teams s ev u
  | createTeam u name e rnd =>
    have hap : Op.apply s (Op.createTeam u name e rnd) = (createTeam s u name e rnd).1 := rfl
    rw [hap]
    rcases createTeam_rejected_or s u name e rnd with ⟨eid, ev, rfl, hA⟩ | ⟨hr, _⟩
    · rw [createTeam_admitted rnd hA]
      cases hg : generateTeamCode s rnd with
      | none => left; rfl
      | some code =>
        simp only []
        cases hs : saveNewTeam s (newTeam s u name code eid ev) with
        | none => left; rfl
        | some s1 =>
          right; left
          refine ⟨u, name, code, eid, ev, hA, ?_⟩
          obtain ⟨_, _, _, hs1⟩ := saveNewTeam_some hs
          have ht1 : s1.teams = s.teams ++ [storedTeam (newTeam s u name code eid ev)] := by
            rw [hs1]
          simp only []
          by_cases hm : ev.minTeamSize ≤ 1
          · rw [if_pos hm]
            cases hk : saveNewTicket s1 (newTicket s1 u ev.id (some s.nextId) []) with
            | error err => exact ht1
            | ok s2 =>
              simp only []
              rw [saveNewTicket_teams hk]
              exact ht1
          · rw [if_neg hm]
            exact ht1
    · left; rw [hr]
  | joinTeam u code e =>
    have hap : Op.apply s (Op.joinTeam u code e) = (joinTeam s u code e).1 := rfl
    rw [hap]
    rcases joinTeam_rejected_or s u code e with ⟨eid, team, ev, rfl, hA⟩ | ⟨hr, _⟩
    · right; right
      obtain ⟨ht, l1, l2, hl, hn⟩ := find_team_split hA.resolved
      refine ⟨u, code, eid, team, ev, l1, l2, hA, ht, hl, hn, ?_⟩
      have hsave : (afterJoinSave s code eid ev team u).teams = l1 ++ joinedTeam ev team u :: l2 := by
        unfold afterJoinSave
        simp only []
        rw [hl]
        exact updateTeamIn_split code eid _ team l1 l2 hn ht
      rw [joinTeam_admitted hA]
      split
      · split
        · simp only []
          rw [issueTeamTickets_teams]; exact hsave
        · simp only []
          rw [issueTeamTickets_teams]; exact hsave
      · split
        · cases hk : saveNewTicket (afterJoinSave s code eid ev team u)
              (newTicket (afterJoinSave s code eid ev team u) u ev.id (some team.id) []) with
          | error err => exact hsave
          | ok s2 =>
            simp only []
            rw [saveNewTicket_teams hk]; exact hsave
        · exact hsave
    · left; rw [hr]

theorem findEvent_map_step {α : Type} (f : Event → α) (hf : ∀ ev d, f (Event.addStock ev d) = f ev)
    (s : Store) (op : Op) (e : Nat) :
    (findEvent (op.apply s) e).map f = (findEvent s e).map f := by
  refine op_preserves (fun x => (findEvent x e).map f = (findEvent s e).map f)
    ?_ ?_ ?_ ?_ s op rfl
  · intro x ev u ans now e1 hx hev _
    rw [← hx]
    unfold afterRegister
    split
    · rw [findEvent_incStock]
      split
      · show Option.map f (Option.map _ (findEvent x e)) = _
        cases findEvent x e with
        | none => rfl
        | some y => simp [hf]
      · rfl
    · rfl
  · intro x ev u e1 t hx hev _
    rw [← hx]
    unfold afterCancel
    split
    · rw [findEvent_incStock]
      split
      · show Option.map f (Option.map _ (findEvent x e)) = _
        cases findEvent x e with
        | none => rfl
        | some y => simp [hf]
      · rfl
    · rfl
  · intro x teams n hx
    exact hx
  · intro x t x1 hx _ _ hs
    obtain ⟨rfl, _⟩ := saveNewTicket_ok hs
    exact hx

theorem findEvent_map_run {α : Type} (f : Event → α) (hf : ∀ ev d, f (Event.addStock ev d) = f ev)
    (s : Store) (ops : List Op) (e : Nat) :
    (findEvent (run s ops) e).map f = (findEvent s e).map f := by
  refine run_preserves (fun x => (findEvent x e).map f = (findEvent s e).map f) ?_ s ops rfl
  intro x op hx
  rw [findEvent_map_step f hf]
  exact hx

/-! ## One team per user and event -/

theorem isTeamOf_storedTeam_newTeam {s : Store} {u : Nat} {name code : String} {eid : Nat}
    {ev : Event} {u1 e1 : Nat}
    (h : isTeamOf u1 e1 (storedTeam (newTeam s u name code eid ev)) = true) :
    u1 = u ∧ e1 = eid := by
  simp only [isTeamOf, storedTeam, newTeam, Bool.and_eq_true, beq_iff_eq, Bool.or_eq_true,
    List.contains_cons, List.contains_nil, Bool.or_false] at h
  obtain ⟨h1, h2⟩ := h
  refine ⟨?_, h1.symm⟩
  rcases h2 with h2 | h2
  · exact h2.symm
  · exact h2

theorem isTeamOf_joinedTeam {ev : Event} {team : Team} {u u1 e1 : Nat}
    (h : isTeamOf u1 e1 (joinedTeam ev team u) = true) :
    isTeamOf u1 e1 team = true ∨ (u1 = u ∧ e1 = team.eventId) := by
  have hc : ∀ l : List Nat, (l ++ [u]).contains u1 = true ↔ l.contains u1 = true ∨ u1 = u := by
    intro l
    simp
  unfold isTeamOf at h ⊢
  simp only [joinedTeam, Team.withMembers, Bool.and_eq_true, beq_iff_eq, Bool.or_eq_true,
    hc] at h ⊢
  obtain ⟨h1, h2⟩ := h
  rcases h2 with h2 | h2 | h2
  · left; exact ⟨h1, Or.inl h2⟩
  · left; exact ⟨h1, Or.inr h2⟩
  · right; exact ⟨h2, h1.symm⟩

theorem not_isTeamOf_of_any {ts : List Team} {u e : Nat}
    (h : ts.any (isTeamOf u e) = false) {t : Team} (ht : t ∈ ts) : isTeamOf u e t = false := by
  rw [List.any_eq_false] at h
  simpa using h t ht

theorem pairwise_replace {α : Type} {R : α → α → Prop} {l1 l2 : List α} {a b : α}
    (h : (l1 ++ a :: l2).Pairwise R) (hl : ∀ x ∈ l1, R x a → R x b)
    (hr : ∀ y ∈ l2, R a y → R b y) : (l1 ++ b :: l2).Pairwise R := by
  rw [List.pairwise_append, List.pairwise_cons] at h ⊢
  obtain ⟨h1, ⟨h2, h3⟩, h4⟩ := h
  refine ⟨h1, ⟨fun y hy => hr y hy (h2 y hy), h3⟩, ?_⟩
  intro x hx y hy
  rcases List.mem_cons.mp hy with rfl | hy
  · exact hl x hx (h4 x hx a (List.mem_cons_self _ _))
  · exact h4 x hx y (List.mem_cons_of_mem _ hy)

theorem oneTeamPerUser_step (s : Store) (op : Op) (h : OneTeamPerUser s.teams) :
    OneTeamPerUser (op.apply s).teams := by
  rcases teams_step s op with hr | ⟨u, name, code, eid, ev, hA, hr⟩ |
    ⟨u, code, eid, team, ev, l1, l2, hA, ht, hl, hn, hr⟩
  · rw [hr]; exact h
  · rw [hr]
    obtain ⟨hnd, hpw⟩ := h
    constructor
    · intro t ht
      rcases List.mem_append.mp ht with ht | ht
      · exact hnd t ht
      · rw [List.mem_singleton] at ht
        subst ht
        simp [storedTeam, newTeam]
    · rw [List.pairwise_append]
      refine ⟨hpw, List.pairwise_singleton _ _, ?_⟩
      intro a ha b hb u1 e1 ⟨h1, h2⟩
      rw [List.mem_singleton] at hb
      subst hb
      obtain ⟨rfl, rfl⟩ := isTeamOf_storedTeam_newTeam h2
      rw [not_isTeamOf_of_any hA.notInTeam ha] at h1
      cases h1
  · rw [hr]
    obtain ⟨hnd, hpw⟩ := h
    have hteam : team ∈ s.teams := by rw [hl]; simp
    have heid : team.eventId = eid := by
      unfold isTeamWithCode at ht
      simp only [Bool.and_eq_true, beq_iff_eq] at ht
      exact ht.2
    have hmem : ∀ x ∈ s.teams, ∀ u1 e1, isTeamOf u1 e1 (joinedTeam ev team u) = true →
        isTeamOf u1 e1 x = true → isTeamOf u1 e1 team = true := by
      intro x hx u1 e1 h1 h2
      rcases isTeamOf_joinedTeam h1 with h3 | ⟨rfl, rfl⟩
      · exact h3
      · rw [heid, not_isTeamOf_of_any hA.notInTeam hx] at h2
        cases h2
    constructor
    · intro t htm
      rcases List.mem_append.mp htm with htm | htm
      · exact hnd t (by rw [hl]; exact List.mem_append_left _ htm)
      · rcases List.mem_cons.mp htm with rfl | htm
        · have hu : u ∉ team.members := by
            intro hu
            have := not_isTeamOf_of_any hA.notInTeam hteam
            simp [isTeamOf, heid, hu] at this
          simp only [joinedTeam, Team.withMembers]
          rw [List.nodup_append]
          refine ⟨hnd team hteam, List.nodup_singleton _, ?_⟩
          intro x hx1 hx2
          rw [List.mem_singleton] at hx2
          subst hx2
          exact hu hx1
        · exact hnd t (by rw [hl]; exact List.mem_append_right _ (List.mem_cons_of_mem _ htm))
    · rw [hl] at hpw
      refine pairwise_replace hpw ?_ ?_
      · intro x hx hR u1 e1 ⟨h1, h2⟩
        have hxs : x ∈ s.teams := by rw [hl]; exact List.mem_append_left _ hx
        exact hR u1 e1 ⟨h1, hmem x hxs u1 e1 h2 h1⟩
      · intro y hy hR u1 e1 ⟨h1, h2⟩
        have hys : y ∈ s.teams := by
          rw [hl]; exact List.mem_append_right _ (List.mem_cons_of_mem _ hy)
        exact hR u1 e1 ⟨hmem y hys u1 e1 h1 h2, h2⟩

theorem countP_isTeamOf_le_one (u e : Nat) (ts : List Team)
    (h : ts.Pairwise (fun a b => ∀ u e, ¬ (isTeamOf u e a = true ∧ isTeamOf u e b = true))) :
    ts.countP (isTeamOf u e) ≤ 1 := by
  induction ts with
  | nil => simp
  | cons t ts ih =>
    rw [List.pairwise_cons] at h
    rw [List.countP_cons]
    by_cases ht : isTeamOf u e t = true
    · have h0 : ts.countP (isTeamOf u e) = 0 := by
        rw [List.countP_eq_zero]
        intro x hx hxt
        exact h.1 x hx u e ⟨ht, hxt⟩
      rw [h0, if_pos ht]
    · rw [if_neg ht]
      exact ih h.2

/-- C16. One team per user per event: in every store reached from a store without teams by
any sequence of requests (createTeam and joinTeam; register and cancel are allowed too and
leave the teams alone), every user is leader or member of at most one team of each event,
and no member list contains the same user twice. -/
theorem one_team_per_user (events : List Event) (tickets : List Ticket) (n : Nat)
    (ops : List Op) :
    (∀ u e, (run { events := events, tickets := tickets, teams := [], nextId := n } ops).teams.countP
      (isTeamOf u e) ≤ 1) ∧
    ∀ t ∈ (run { events := events, tickets := tickets, teams := [], nextId := n } ops).teams,
      t.members.Nodup := by
  have h0 : OneTeamPerUser
      ({ events := events, tickets := tickets, teams := [], nextId := n } : Store).teams := by
    constructor
    · intro t ht; cases ht
    · exact List.Pairwise.nil
  have h := run_preserves (fun s => OneTeamPerUser s.teams) oneTeamPerUser_step _ ops h0
  exact ⟨fun u e => countP_isTeamOf_le_one u e _ h.2, h.1⟩

/-! ## Team size -/

theorem isTeamWithCode_eventId {code : String} {eid : Nat} {team : Team}
    (h : isTeamWithCode code eid team = true) : team.eventId = eid := by
  unfold isTeamWithCode at h
  simp only [Bool.and_eq_true, beq_iff_eq] at h
  exact h.2

theorem maxTeamSize_addStock (ev : Event) (d : ℚ) :
    (ev.addStock d).maxTeamSize = ev.maxTeamSize := rfl

theorem minTeamSize_addStock (ev : Event) (d : ℚ) :
    (ev.addStock d).minTeamSize = ev.minTeamSize := rfl

theorem team_size_step (e : Nat) (M : ℚ) (hM : 1 ≤ M) (s : Store) (op : Op)
    (h : (findEvent s e).map (fun ev => ev.maxTeamSize) = some M ∧
      ∀ t ∈ s.teams, t.eventId = e → (t.members.length : ℚ) < M + 1) :
    (findEvent (op.apply s) e).map (fun ev => ev.maxTeamSize) = some M ∧
      ∀ t ∈ (op.apply s).teams, t.eventId = e → (t.members.length : ℚ) < M + 1 := by
  obtain ⟨hev, hb⟩ := h
  refine ⟨by rw [findEvent_map_step _ maxTeamSize_addStock]; exact hev, ?_⟩
  rcases teams_step s op with hr | ⟨u, name, code, eid, ev, hA, hr⟩ |
    ⟨u, code, eid, team, ev, l1, l2, hA, ht, hl, hn, hr⟩
  · rw [hr]; exact hb
  · rw [hr]
    intro t htm hte
    rcases List.mem_append.mp htm with htm | htm
    · exact hb t htm hte
    · rw [List.mem_singleton] at htm
      subst htm
      simp only [storedTeam, newTeam, List.length_singleton, Nat.cast_one]
      linarith
  · rw [hr]
    intro t htm hte
    have hin : ∀ x, x ∈ l1 ∨ x ∈ l2 → x ∈ s.teams := by
      intro x hx
      rw [hl]
      rcases hx with hx | hx
      · exact List.mem_append_left _ hx
      · exact List.mem_append_right _ (List.mem_cons_of_mem _ hx)
    rcases List.mem_append.mp htm with htm | htm
    · exact hb t (hin t (Or.inl htm)) hte
    · rcases List.mem_cons.mp htm with rfl | htm
      · have heid : eid = e := by
          rw [← isTeamWithCode_eventId ht]
          exact hte
        subst heid
        have hmax : ev.maxTeamSize = M := by
          rw [hA.found] at hev
          simpa using hev
        have hnf := hA.notFull
        rw [hmax] at hnf
        simp only [joinedTeam, Team.withMembers, List.length_append, List.length_singleton]
        push_cast
        simp only [decide_eq_false_iff_not, decide_eq_true_eq, not_le, ge_iff_le] at hnf
        linarith
      · exact hb t (hin t (Or.inr htm)) hte

/-- C18 (as stated, refuted). The team event has `maxTeamSize` 2.5, which is at least 1, and
no team: user 1 creates a team and users 2 and 3 join it.  The second join is admitted,
because 2 members are fewer than 2.5, and the team has 3 members, more than 2.5. -/
theorem team_exceeds_fractional_size :
    findEvent halfDuoStore 7 = some halfDuoEvent ∧
    (1 : ℚ) ≤ halfDuoEvent.maxTeamSize ∧
    halfDuoStore.teams = [] ∧
    (joinTeam (run halfDuoStore [Op.createTeam 1 "Alpha" (some 7) ["0.abcdefgh"],
      Op.joinTeam 2 "ABCDEF" (some 7)]) 3 "ABCDEF" (some 7)).2 =
      JoinTeamResult.success 0 (some 3) ∧
    (run halfDuoStore trioRequests).teams.map (fun t => (t.eventId, t.members)) =
      [(7, [1, 2, 3])] ∧
    ¬ ((([1, 2, 3] : List Nat).length : ℚ) ≤ halfDuoEvent.maxTeamSize) := by
  decide!

/-- C18 (amended). Team size bound: for a team event whose `maxTeamSize` is at least 1 and is
not edited, from a store whose teams of the event respect the bound, after any finite
sequence of requests (createTeam and joinTeam; register and cancel are allowed too) every
team of the event has fewer than `maxTeamSize + 1` members, hence at most `maxTeamSize` when
`maxTeamSize` is a whole number, and a `joinTeam` on a team that already has `maxTeamSize`
members (or more) is rejected with 'Team is full' and leaves the store, the team included,
unchanged. -/
theorem team_size_bound (s : Store) (e : Nat) (ev : Event) (ops : List Op)
    (hev : findEvent s e = some ev) (h1 : 1 ≤ ev.maxTeamSize)
    (h0 : ∀ t ∈ s.teams, t.eventId = e → (t.members.length : ℚ) ≤ ev.maxTeamSize) :
    (∀ t ∈ (run s ops).teams, t.eventId = e →
      (t.members.length : ℚ) < ev.maxTeamSize + 1 ∧
      ((∃ n : ℤ, ev.maxTeamSize = n) → (t.members.length : ℚ) ≤ ev.maxTeamSize)) ∧
    ∀ (u : Nat) (code : String) (team : Team), code ≠ "" →
      (run s ops).teams.find? (isTeamWithCode code e) = some team →
      ev.maxTeamSize ≤ (team.members.length : ℚ) →
      joinTeam (run s ops) u code (some e) = (run s ops, JoinTeamResult.teamFull) := by
  have hinv := run_preserves
    (fun x => (findEvent x e).map (fun ev => ev.maxTeamSize) = some ev.maxTeamSize ∧
      ∀ t ∈ x.teams, t.eventId = e → (t.members.length : ℚ) < ev.maxTeamSize + 1)
    (fun x op hx => team_size_step e ev.maxTeamSize h1 x op hx) s ops
    ⟨by rw [hev]; rfl, fun t ht hte => by have := h0 t ht hte; linarith⟩
  refine ⟨fun t ht hte =>
    ⟨hinv.2 t ht hte, fun hw => le_of_lt_add_one_of_whole hw (hinv.2 t ht hte)⟩, ?_⟩
  intro u code team hc hf hfull
  have hf2 : (run s ops).teams.find? (fun t => t.code == code && t.eventId == e) = some team :=
    hf
  cases hev2 : findEvent (run s ops) e with
  | none =>
    have := hinv.1
    rw [hev2] at this
    cases this
  | some ev2 =>
    have hmax : ev2.maxTeamSize = ev.maxTeamSize := by
      have := hinv.1
      rw [hev2] at this
      simpa using this
    simp [joinTeam, hc, hf2, hev2, hmax, hfull]

/-- C18, instance of the amended statement: on `duoEvent` (at most 3 members) a team is
created and three users ask to join it; the team ends with 3 members and a further request
to join is refused. -/
theorem team_size_bound_witness :
    (alphaFull.members.length : ℚ) ≤ duoEvent.maxTeamSize ∧
    joinTeam (run duoStore duoRequests) 5 "ABCDEF" (some 7) =
      (run duoStore duoRequests, JoinTeamResult.teamFull) :=
  ⟨((team_size_bound duoStore 7 duoEvent duoRequests rfl (by decide!)
      (by intro t ht; simp [duoStore] at ht)).1 alphaFull (by decide) rfl).2
      ⟨3, by decide!⟩,
    (team_size_bound duoStore 7 duoEvent duoRequests rfl (by decide!)
      (by intro t ht; simp [duoStore] at ht)).2 5 "ABCDEF" alphaFull (by decide) rfl
      (by decide!)⟩

/-! ## Team status -/


theorem team_status_step (e : Nat) (m : ℚ) (s : Store) (op : Op)
    (h : (findEvent s e).map (fun ev => ev.minTeamSize) = some m ∧
      ∀ t ∈ s.teams, t.eventId = e →
        (t.status = TeamStatus.Complete ↔ m ≤ (t.members.length : ℚ))) :
    (findEvent (op.apply s) e).map (fun ev => ev.minTeamSize) = some m ∧
      ∀ t ∈ (op.apply s).teams, t.eventId = e →
        (t.status = TeamStatus.Complete ↔ m ≤ (t.members.length : ℚ)) := by
  obtain ⟨hev, hb⟩ := h
  refine ⟨by rw [findEvent_map_step _ minTeamSize_addStock]; exact hev, ?_⟩
  rcases teams_step s op with hr | ⟨u, name, code, eid, ev, hA, hr⟩ |
    ⟨u, code, eid, team, ev, l1, l2, hA, ht, hl, hn, hr⟩
  · rw [hr]; exact hb
  · rw [hr]
    intro t htm hte
    rcases List.mem_append.mp htm with htm | htm
    · exact hb t htm hte
    · rw [List.mem_singleton] at htm
      subst htm
      have heid : eid = e := hte
      subst heid
      have hmin : ev.minTeamSize = m := by
        rw [hA.found] at hev
        simpa using hev
      simp only [storedTeam, newTeam, hmin, List.length_singleton, Nat.cast_one]
      by_cases hm : m ≤ 1
      · simp [hm]
      · simp [hm]
  · rw [hr]
    intro t htm hte
    have hin : ∀ x, x ∈ l1 ∨ x ∈ l2 → x ∈ s.teams := by
      intro x hx
      rw [hl]
      rcases hx with hx | hx
      · exact List.mem_append_left _ hx
      · exact List.mem_append_right _ (List.mem_cons_of_mem _ hx)
    rcases List.mem_append.mp htm with htm | htm
    · exact hb t (hin t (Or.inl htm)) hte
    · rcases List.mem_cons.mp htm with rfl | htm
      · have heid : eid = e := by
          rw [← isTeamWithCode_eventId ht]
          exact hte
        subst heid
        have hmin : ev.minTeamSize = m := by
          rw [hA.found] at hev
          simpa using hev
        have hteam : team ∈ s.teams := by rw [hl]; simp
        have hold := hb team hteam (isTeamWithCode_eventId ht)
        simp only [joinedTeam, Team.withMembers, completesTeam, hmin, List.length_append,
          List.length_singleton, Nat.cast_add, Nat.cast_one]
        cases hst : team.status with
        | Forming =>
          rw [hst] at hold
          have hlt : ¬ m ≤ (team.members.length : ℚ) := fun hle => by
            have := hold.mpr hle
            cases this
          by_cases hm : m ≤ (team.members.length : ℚ) + 1
          · simp [hm]
          · simp [hm]
        | Complete =>
          rw [hst] at hold
          have hle := hold.mp rfl
          have hle2 : m ≤ (team.members.length : ℚ) + 1 := by linarith
          simp [hle2]
      · exact hb t (hin t (Or.inr htm)) hte

theorem staysComplete_refl (ts : List Team) : StaysComplete ts ts :=
  fun _ t ht hc => ⟨t, ht, rfl, hc⟩

theorem staysComplete_trans {a b c : List Team} (h1 : StaysComplete a b)
    (h2 : StaysComplete b c) : StaysComplete a c := by
  intro i t ht hc
  obtain ⟨t2, ht2, hid2, hc2⟩ := h1 i t ht hc
  obtain ⟨t3, ht3, hid3, hc3⟩ := h2 i t2 ht2 hc2
  exact ⟨t3, ht3, hid3.trans hid2, hc3⟩

theorem getElem?_replace {α : Type} (l1 l2 : List α) (a b : α) (i : Nat) (x : α)
    (h : (l1 ++ a :: l2)[i]? = some x) :
    (l1 ++ b :: l2)[i]? = some x ∨ (x = a ∧ (l1 ++ b :: l2)[i]? = some b) := by
  induction l1 generalizing i with
  | nil =>
    cases i with
    | zero =>
      right
      simp only [List.nil_append, List.getElem?_cons_zero, Option.some.injEq] at h ⊢
      exact ⟨h.symm, trivial⟩
    | succ j =>
      left
      simpa using h
  | cons y ys ih =>
    cases i with
    | zero =>
      left
      simpa using h
    | succ j =>
      simp only [List.cons_append, List.getElem?_cons_succ] at h ⊢
      exact ih j h

theorem staysComplete_step (s : Store) (op : Op) : StaysComplete s.teams (op.apply s).teams := by
  rcases teams_step s op with hr | ⟨u, name, code, eid, ev, hA, hr⟩ |
    ⟨u, code, eid, team, ev, l1, l2, hA, ht, hl, hn, hr⟩
  · rw [hr]; exact staysComplete_refl _
  · rw [hr]
    intro i t hti hc
    refine ⟨t, ?_, rfl, hc⟩
    have hlt : i < s.teams.length := by
      rcases List.getElem?_eq_some.mp hti with ⟨hlt, _⟩
      exact hlt
    rw [List.getElem?_append_left hlt]
    exact hti
  · rw [hr]
    intro i t hti hc
    rw [hl] at hti
    rcases getElem?_replace l1 l2 team (joinedTeam ev team u) i t hti with h1 | ⟨rfl, h1⟩
    · exact ⟨t, h1, rfl, hc⟩
    · refine ⟨joinedTeam ev t u, h1, rfl, ?_⟩
      simp only [joinedTeam, Team.withMembers, hc]
      split <;> rfl

theorem staysComplete_run (s : Store) (ops : List Op) : StaysComplete s.teams (run s ops).teams := by
  induction ops generalizing s with
  | nil => exact staysComplete_refl _
  | cons op ops ih =>
    have hrun : run s (op :: ops) = run (op.apply s) ops := by
      unfold run
      rw [List.foldl_cons]
    rw [hrun]
    exact staysComplete_trans (staysComplete_step s op) (ih (op.apply s))

theorem run_append (s : Store) (ops more : List Op) :
    run s (ops ++ more) = run (run s ops) more := by
  unfold run
  rw [List.foldl_append]

/-- C19. Team state machine: for a team event whose `minTeamSize` is not edited, from a
store whose teams of the event have status Complete exactly when they have at least
`minTeamSize` members (for instance a store without teams), after any finite sequence of
requests every team of the event is Complete exactly when its member count is at least
`minTeamSize`, so a team created with `minTeamSize ≤ 1` is born Complete; and a team that
is Complete stays Complete, at its place and with its id, after any further requests. -/
theorem team_state_machine (s : Store) (e : Nat) (ev : Event) (ops : List Op)
    (hev : findEvent s e = some ev)
    (h0 : ∀ t ∈ s.teams, t.eventId = e →
      (t.status = TeamStatus.Complete ↔ ev.minTeamSize ≤ (t.members.length : ℚ))) :
    (∀ t ∈ (run s ops).teams, t.eventId = e →
      (t.status = TeamStatus.Complete ↔ ev.minTeamSize ≤ (t.members.length : ℚ))) ∧
    ∀ (more : List Op) (i : Nat) (t : Team), (run s ops).teams[i]? = some t →
      t.status = TeamStatus.Complete →
      ∃ t2, (run s (ops ++ more)).teams[i]? = some t2 ∧ t2.id = t.id ∧
        t2.status = TeamStatus.Complete := by
  have hinv := run_preserves
    (fun x => (findEvent x e).map (fun ev => ev.minTeamSize) = some ev.minTeamSize ∧
      ∀ t ∈ x.teams, t.eventId = e →
        (t.status = TeamStatus.Complete ↔ ev.minTeamSize ≤ (t.members.length : ℚ)))
    (fun x op hx => team_status_step e ev.minTeamSize x op hx) s ops
    ⟨by rw [hev]; rfl, h0⟩
  refine ⟨hinv.2, ?_⟩
  intro more i t hti hc
  rw [run_append]
  exact staysComplete_run (run s ops) more i t hti hc

/-- C19, instance: the team created on `duoEvent` (2 members needed) and joined by two
more users is Complete, and it has at least 2 members. -/
theorem team_state_machine_witness :
    alphaFull.status = TeamStatus.Complete ↔
      duoEvent.minTeamSize ≤ (alphaFull.members.length : ℚ) :=
  (team_state_machine duoStore 7 duoEvent duoRequests rfl
    (by intro t ht; simp [duoStore] at ht)).1 alphaFull (by decide) rfl

/-! ## The fan-out of tickets -/

theorem ticketSchemaValid_empty (s : Store) (u e : Nat) (tid : Option Nat) :
    ticketSchemaValid (newTicket s u e tid []) = true := rfl

theorem issueTeamTickets_all (e tid : Nat) (ms : List Nat) (s : Store) (hnd : ms.Nodup)
    (hfree : ∀ m ∈ ms, s.tickets.any (isTicketOf m e) = false) :
    issueTeamTickets e tid ms s =
      ({ s with tickets := s.tickets ++ teamTickets e tid s.nextId ms,
                nextId := s.nextId + ms.length }, true) := by
  induction ms generalizing s with
  | nil => simp [issueTeamTickets, teamTickets]
  | cons m ms ih =>
    rw [List.nodup_cons] at hnd
    have hsave := saveNewTicket_eq_ok (s := s) (ticketSchemaValid_empty s m e (some tid))
      (hfree m (List.mem_cons_self _ _))
    rw [issueTeamTickets, hsave]
    simp only []
    rw [ih _ hnd.2]
    · simp only [teamTickets, teamTicket, newTicket, List.append_assoc, List.singleton_append,
        List.length_cons]
      congr 2
      omega
    · intro m1 hm1
      simp only [List.any_append, hfree m1 (List.mem_cons_of_mem _ hm1), Bool.false_or,
        List.any_cons, List.any_nil, Bool.or_false]
      have hne : m ≠ m1 := fun h => hnd.1 (h ▸ hm1)
      simp [isTicketOf, newTicket, hne]

theorem teamTickets_countP_not_mem (e tid : Nat) (x : Nat) (p : Ticket → Bool)
    (hp : ∀ t, p t = true → t.userId = x) (n : Nat) (ms : List Nat) (hx : x ∉ ms) :
    (teamTickets e tid n ms).countP p = 0 := by
  induction ms generalizing n with
  | nil => rfl
  | cons m ms ih =>
    rw [teamTickets, List.countP_cons, ih (n + 1) (fun h => hx (List.mem_cons_of_mem _ h))]
    have : ¬ p (teamTicket e tid n m) = true := by
      intro h
      have := hp _ h
      exact hx (this ▸ List.mem_cons_self _ _)
    simp [this]

theorem teamTickets_countP_mem (e tid : Nat) (x : Nat) (n : Nat) (ms : List Nat)
    (hnd : ms.Nodup) (hx : x ∈ ms) :
    (teamTickets e tid n ms).countP (isTicketOf x e) = 1 ∧
      (teamTickets e tid n ms).countP (isTeamTicketOf x e tid) = 1 := by
  induction ms generalizing n with
  | nil => cases hx
  | cons m ms ih =>
    rw [List.nodup_cons] at hnd
    rw [teamTickets, List.countP_cons, List.countP_cons]
    rcases List.mem_cons.mp hx with rfl | hx
    · rw [teamTickets_countP_not_mem e tid x _ (fun t h => by
          simp only [isTicketOf, Bool.and_eq_true, beq_iff_eq] at h
          exact h.1) (n + 1) ms hnd.1,
        teamTickets_countP_not_mem e tid x _ (fun t h => by
          simp only [isTeamTicketOf, isConfirmedTicketOf, Bool.and_eq_true, beq_iff_eq] at h
          exact h.1.1.1) (n + 1) ms hnd.1]
      simp [isTicketOf, isTeamTicketOf, isConfirmedTicketOf, teamTicket]
    · have hne : m ≠ x := fun h => hnd.1 (h ▸ hx)
      obtain ⟨h1, h2⟩ := ih (n + 1) hnd.2 hx
      rw [h1, h2]
      simp [isTicketOf, isTeamTicketOf, isConfirmedTicketOf, teamTicket, hne]

theorem countP_zero_of_no_ticket {s : Store} {x e : Nat} (p : Ticket → Bool)
    (hp : ∀ t, p t = true → isTicketOf x e t = true)
    (h : s.tickets.any (isTicketOf x e) = false) : s.tickets.countP p = 0 := by
  rw [List.countP_eq_zero]
  intro t ht hpt
  rw [List.any_eq_false] at h
  exact h t ht (hp t hpt)

theorem findConfirmedTicket_none_of_findTicket {s : Store} {u e : Nat}
    (h : findTicket s u e = none) : findConfirmedTicket s u e = none := by
  unfold findTicket at h
  unfold findConfirmedTicket
  rw [List.find?_eq_none] at h ⊢
  intro t ht hc
  apply h t ht
  unfold isConfirmedTicketOf at hc
  unfold isTicketOf
  simp only [Bool.and_eq_true] at hc ⊢
  exact hc.1

theorem find_after_join {s : Store} {code : String} {eid : Nat} {team : Team} (ev : Event)
    (u : Nat) (h : s.teams.find? (isTeamWithCode code eid) = some team) :
    (afterJoinSave s code eid ev team u).teams.find? (isTeamWithCode code eid) =
      some (joinedTeam ev team u) := by
  obtain ⟨ht, l1, l2, hl, hn⟩ := find_team_split h
  have hsave : (afterJoinSave s code eid ev team u).teams = l1 ++ joinedTeam ev team u :: l2 := by
    unfold afterJoinSave
    simp only []
    rw [hl]
    exact updateTeamIn_split code eid _ team l1 l2 hn ht
  rw [hsave, List.find?_eq_some]
  refine ⟨ht, l1, l2, rfl, ?_⟩
  intro x hx
  simp [hn x hx]

theorem not_mem_of_not_in_team {s : Store} {u eid : Nat} {team : Team} {code : String}
    (hn : s.teams.any (isTeamOf u eid) = false)
    (h : s.teams.find? (isTeamWithCode code eid) = some team) : u ∉ team.members := by
  obtain ⟨ht, l1, l2, hl, _⟩ := find_team_split h
  have hteam : team ∈ s.teams := by rw [hl]; simp
  intro hu
  have := not_isTeamOf_of_any hn hteam
  simp [isTeamOf, isTeamWithCode_eventId ht, hu] at this

/-- C13. Team completion fan-out: on an event with `minTeamSize = m` (any `m`, so also
`m ≥ 2`) and `maxTeamSize ≥ m`, for a Forming team with `m - 1` distinct members none of
whom holds a ticket for the event, and a joiner who is in no team of the event and holds no ticket for
it, `joinTeam` with the code of the team succeeds, stores the team as Complete with the
joiner added, keeps the earlier tickets and inserts one ticket per member, so that each of
the `m` members, not only the joiner, holds exactly one ticket for the event, which is
Confirmed and tagged with the id of the team. -/
theorem team_completion_fan_out (s : Store) (u e : Nat) (code : String) (team : Team)
    (ev : Event) (hev : findEvent s e = some ev) (hcode : code ≠ "")
    (hres : s.teams.find? (isTeamWithCode code e) = some team)
    (hmin : (team.members.length : ℚ) + 1 = ev.minTeamSize)
    (hmax : ev.minTeamSize ≤ ev.maxTeamSize) (hform : team.status = TeamStatus.Forming)
    (hnd : team.members.Nodup) (hmem : ∀ x ∈ team.members, findTicket s x e = none)
    (hu1 : s.teams.any (isTeamOf u e) = false) (hu2 : findTicket s u e = none) :
    (∃ k, (joinTeam s u code (some e)).2 = JoinTeamResult.success team.id (some k)) ∧
    (joinTeam s u code (some e)).1.teams.find? (isTeamWithCode code e) =
      some (team.withMembers (team.members ++ [u]) TeamStatus.Complete) ∧
    (joinTeam s u code (some e)).1.tickets =
      s.tickets ++ teamTickets e team.id s.nextId (team.members ++ [u]) ∧
    ∀ x ∈ team.members ++ [u],
      (joinTeam s u code (some e)).1.tickets.countP (isTicketOf x e) = 1 ∧
      (joinTeam s u code (some e)).1.tickets.countP (isTeamTicketOf x e team.id) = 1 := by
  have hid := findEvent_id hev
  have hA : JoinAdmissible s u code e team ev :=
    ⟨hcode, hres, hev, fun hfull => by linarith, hu1,
      findConfirmedTicket_none_of_findTicket hu2⟩
  have hc : completesTeam ev team (team.members ++ [u]) = true := by
    simp [completesTeam, hform]
    linarith
  have hjt : joinedTeam ev team u = team.withMembers (team.members ++ [u]) TeamStatus.Complete := by
    simp [joinedTeam, hc]
  have hun : u ∉ team.members := not_mem_of_not_in_team hu1 hres
  have hnd2 : (team.members ++ [u]).Nodup := by
    rw [List.nodup_append]
    refine ⟨hnd, List.nodup_singleton _, ?_⟩
    intro x hx1 hx2
    rw [List.mem_singleton] at hx2
    exact hun (hx2 ▸ hx1)
  have hfree : ∀ x ∈ team.members ++ [u], s.tickets.any (isTicketOf x e) = false := by
    intro x hx
    rcases List.mem_append.mp hx with hx | hx
    · exact findTicket_none_any (hmem x hx)
    · rw [List.mem_singleton] at hx
      subst hx
      exact findTicket_none_any hu2
  have hissue := issueTeamTickets_all e team.id (team.members ++ [u])
    (afterJoinSave s code e ev team u) hnd2 hfree
  have hjoin := joinTeam_admitted hA
  rw [hc, if_pos rfl, hid, hissue] at hjoin
  simp only [Bool.true_eq_false, if_false] at hjoin
  have hcount : ∀ x ∈ team.members ++ [u],
      (s.tickets ++ teamTickets e team.id s.nextId (team.members ++ [u])).countP
        (isTicketOf x e) = 1 ∧
      (s.tickets ++ teamTickets e team.id s.nextId (team.members ++ [u])).countP
        (isTeamTicketOf x e team.id) = 1 := by
    intro x hx
    obtain ⟨c1, c2⟩ := teamTickets_countP_mem e team.id x s.nextId _ hnd2 hx
    rw [List.countP_append, List.countP_append, c1, c2,
      countP_zero_of_no_ticket _ (fun t h => h) (hfree x hx),
      countP_zero_of_no_ticket _ (fun t h => by
        simp only [isTeamTicketOf, isConfirmedTicketOf, Bool.and_eq_true] at h
        simp only [isTicketOf, Bool.and_eq_true]
        exact h.1.1) (hfree x hx)]
    exact ⟨rfl, rfl⟩
  have key : ∀ l : List Ticket, l.countP (isTicketOf u e) = 1 →
      ∃ k, (l.find? (isTicketOf u e)).map (fun t => t.id) = some k := by
    intro l hl
    have hpos : 0 < l.countP (isTicketOf u e) := by rw [hl]; exact Nat.one_pos
    obtain ⟨t, ht, hp⟩ := List.countP_pos_iff.mp hpos
    have hsome : (l.find? (isTicketOf u e)).isSome = true := by
      rw [List.find?_isSome]
      exact ⟨t, ht, hp⟩
    obtain ⟨t1, ht1⟩ := Option.isSome_iff_exists.mp hsome
    exact ⟨t1.id, by rw [ht1]; rfl⟩
  rw [hjoin]
  refine ⟨?_, ?_, rfl, hcount⟩
  · obtain ⟨k, hk⟩ := key _ (hcount u (by simp)).1
    exact ⟨k, congrArg (JoinTeamResult.success team.id) hk⟩
  · simp only []
    rw [← hjt]
    exact find_after_join ev u hres

/-- C13, instance: user 2 joins the Forming team of user 1 on `duoEvent`. -/
theorem team_completion_fan_out_witness :
    (∃ k, (joinTeam duoFormingStore 2 "ABCDEF" (some 7)).2 =
      JoinTeamResult.success alphaForming.id (some k)) ∧
    (joinTeam duoFormingStore 2 "ABCDEF" (some 7)).1.teams.find? (isTeamWithCode "ABCDEF" 7) =
      some (alphaForming.withMembers (alphaForming.members ++ [2]) TeamStatus.Complete) ∧
    (joinTeam duoFormingStore 2 "ABCDEF" (some 7)).1.tickets =
      duoFormingStore.tickets ++
        teamTickets 7 alphaForming.id duoFormingStore.nextId (alphaForming.members ++ [2]) ∧
    ∀ x ∈ alphaForming.members ++ [2],
      (joinTeam duoFormingStore 2 "ABCDEF" (some 7)).1.tickets.countP (isTicketOf x 7) = 1 ∧
      (joinTeam duoFormingStore 2 "ABCDEF" (some 7)).1.tickets.countP
        (isTeamTicketOf x 7 alphaForming.id) = 1 :=
  team_completion_fan_out duoFormingStore 2 7 "ABCDEF" alphaForming duoEvent rfl (by decide)
    rfl (by decide!) (by decide!) rfl (by decide) (by decide) rfl rfl

/-! ## Joining a complete team -/

/-- C14. Late-join ticketing: for a team that is already Complete and has fewer than
`maxTeamSize` members, and a joiner who is in no team of the event and holds no ticket for
it, `joinTeam` succeeds and creates exactly one new ticket, which belongs to the joiner, is
Confirmed and is tagged with the id of the team; every ticket that existed, those of the
earlier members included, and every event are left unchanged, and the joiner is added to
the team. -/
theorem late_join_ticket (s : Store) (u e : Nat) (code : String) (team : Team)
    (ev : Event) (hev : findEvent s e = some ev) (hcode : code ≠ "")
    (hres : s.teams.find? (isTeamWithCode code e) = some team)
    (hcomplete : team.status = TeamStatus.Complete)
    (hroom : (team.members.length : ℚ) < ev.maxTeamSize)
    (hu1 : s.teams.any (isTeamOf u e) = false) (hu2 : findTicket s u e = none) :
    (joinTeam s u code (some e)).2 = JoinTeamResult.success team.id (some s.nextId) ∧
    (joinTeam s u code (some e)).1.tickets = s.tickets ++ [teamTicket e team.id s.nextId u] ∧
    (joinTeam s u code (some e)).1.events = s.events ∧
    (joinTeam s u code (some e)).1.teams.find? (isTeamWithCode code e) =
      some (team.withMembers (team.members ++ [u]) TeamStatus.Complete) := by
  have hid := findEvent_id hev
  have hA : JoinAdmissible s u code e team ev :=
    ⟨hcode, hres, hev, fun hfull => by linarith, hu1,
      findConfirmedTicket_none_of_findTicket hu2⟩
  have hc : completesTeam ev team (team.members ++ [u]) = false := by
    simp [completesTeam, hcomplete]
  have hjt : joinedTeam ev team u = team.withMembers (team.members ++ [u]) TeamStatus.Complete := by
    simp [joinedTeam, hc, hcomplete]
  have hsave := saveNewTicket_eq_ok (s := afterJoinSave s code e ev team u)
    (ticketSchemaValid_empty (afterJoinSave s code e ev team u) u ev.id (some team.id))
    (findTicket_none_any (hid ▸ hu2))
  have hjoin := joinTeam_admitted hA
  rw [hc, if_neg (by simp), if_pos hcomplete, hsave] at hjoin
  simp only [] at hjoin
  rw [hjoin]
  refine ⟨rfl, ?_, rfl, ?_⟩
  · simp only [newTicket, teamTicket, hid]
    rfl
  · simp only []
    rw [← hjt]
    exact find_after_join ev u hres

/-- C14, instance: user 3 joins the Complete team of users 1 and 2 on `duoEvent`. -/
theorem late_join_ticket_witness :
    (joinTeam duoCompleteStore 3 "ABCDEF" (some 7)).2 =
      JoinTeamResult.success alphaComplete.id (some duoCompleteStore.nextId) ∧
    (joinTeam duoCompleteStore 3 "ABCDEF" (some 7)).1.tickets =
      duoCompleteStore.tickets ++ [teamTicket 7 alphaComplete.id duoCompleteStore.nextId 3] ∧
    (joinTeam duoCompleteStore 3 "ABCDEF" (some 7)).1.events = duoCompleteStore.events ∧
    (joinTeam duoCompleteStore 3 "ABCDEF" (some 7)).1.teams.find? (isTeamWithCode "ABCDEF" 7) =
      some (alphaComplete.withMembers (alphaComplete.members ++ [3]) TeamStatus.Complete) :=
  late_join_ticket duoCompleteStore 3 7 "ABCDEF" alphaComplete duoEvent rfl (by decide) rfl rfl
    (by decide) rfl rfl

/-! ## A fan-out that fails for some member -/

theorem issueTeamTickets_tickets (e tid : Nat) (ms : List Nat) (s : Store) :
    ∃ new, (issueTeamTickets e tid ms s).1.tickets = s.tickets ++ new ∧
      ∀ t ∈ new, t.teamId = some tid ∧ t.status = TicketStatus.Confirmed ∧ t.eventId = e ∧
        t.userId ∈ ms := by
  induction ms generalizing s with
  | nil => exact ⟨[], by simp [issueTeamTickets], by simp⟩
  | cons m ms ih =>
    unfold issueTeamTickets
    cases hs : saveNewTicket s (newTicket s m e (some tid) []) with
    | error err =>
      obtain ⟨new, h1, h2⟩ := ih s
      refine ⟨new, h1, ?_⟩
      intro t ht
      obtain ⟨a, b, c, d⟩ := h2 t ht
      exact ⟨a, b, c, List.mem_cons_of_mem _ d⟩
    | ok s1 =>
      obtain ⟨rfl, _⟩ := saveNewTicket_ok hs
      obtain ⟨new, h1, h2⟩ := ih
        { s with tickets := s.tickets ++ [newTicket s m e (some tid) []], nextId := s.nextId + 1 }
      refine ⟨newTicket s m e (some tid) [] :: new, ?_, ?_⟩
      · simp only []
        rw [h1]
        simp
      · intro t ht
        rcases List.mem_cons.mp ht with rfl | ht
        · exact ⟨rfl, rfl, rfl, List.mem_cons_self _ _⟩
        · obtain ⟨a, b, c, d⟩ := h2 t ht
          exact ⟨a, b, c, List.mem_cons_of_mem _ d⟩

/-- C15 (as stated, refuted). Two completing `joinTeam` calls on `duoEvent`, by user 2 for
the team of user 1. In the first store the leader keeps a Cancelled ticket row, so the
insert for user 1 is refused and user 1 is left without ticket; in the second the joiner
keeps one, so user 2 is left without ticket. The team is stored as Complete in both, and
both calls return the same 'Server error', which therefore does not identify the members
that are still without a ticket. -/
theorem partial_fan_out_not_surfaced :
    (joinTeam leaderCancelledStore 2 "ABCDEF" (some 7)).2 = JoinTeamResult.serverError ∧
    (joinTeam joinerCancelledStore 2 "ABCDEF" (some 7)).2 = JoinTeamResult.serverError ∧
    (joinTeam leaderCancelledStore 2 "ABCDEF" (some 7)).1.teams.map
      (fun t => (t.members, t.status)) = [([1, 2], TeamStatus.Complete)] ∧
    (joinTeam joinerCancelledStore 2 "ABCDEF" (some 7)).1.teams.map
      (fun t => (t.members, t.status)) = [([1, 2], TeamStatus.Complete)] ∧
    unticketed (joinTeam leaderCancelledStore 2 "ABCDEF" (some 7)).1 7 [1, 2] = [1] ∧
    unticketed (joinTeam joinerCancelledStore 2 "ABCDEF" (some 7)).1 7 [1, 2] = [2] := by
  refine ⟨rfl, rfl, rfl, rfl, rfl, rfl⟩

/-- C15 (amended). Partial fan-out: for every completing `joinTeam` call (the guards are
passed and the push completes a Forming team) in which the insert of the ticket of at
least one member is refused, the team is stored as Complete with the joiner added, the
earlier tickets are kept and the tickets inserted are Confirmed tickets of members tagged
with the team id, and `joinTeam` answers 'Server error', a response that names no member. -/
theorem partial_fan_out (s : Store) (u e : Nat) (code : String) (team : Team) (ev : Event)
    (hA : JoinAdmissible s u code e team ev)
    (hc : completesTeam ev team (team.members ++ [u]) = true)
    (hfail : (issueTeamTickets ev.id team.id (team.members ++ [u])
      (afterJoinSave s code e ev team u)).2 = false) :
    (joinTeam s u code (some e)).2 = JoinTeamResult.serverError ∧
    (joinTeam s u code (some e)).1.teams.find? (isTeamWithCode code e) =
      some (team.withMembers (team.members ++ [u]) TeamStatus.Complete) ∧
    (joinTeam s u code (some e)).1.events = s.events ∧
    ∃ new, (joinTeam s u code (some e)).1.tickets = s.tickets ++ new ∧
      ∀ t ∈ new, t.teamId = some team.id ∧ t.status = TicketStatus.Confirmed ∧
        t.eventId = e ∧ t.userId ∈ team.members ++ [u] := by
  have hid := findEvent_id hA.found
  have hjt : joinedTeam ev team u = team.withMembers (team.members ++ [u]) TeamStatus.Complete := by
    simp [joinedTeam, hc]
  have hjoin := joinTeam_admitted hA
  rw [hc, if_pos rfl, if_pos hfail] at hjoin
  rw [hjoin]
  refine ⟨rfl, ?_, ?_, ?_⟩
  · simp only []
    rw [issueTeamTickets_teams, ← hjt]
    exact find_after_join ev u hA.resolved
  · simp only []
    rw [issueTeamTickets_events]
    rfl
  · obtain ⟨new, h1, h2⟩ := issueTeamTickets_tickets ev.id team.id (team.members ++ [u])
      (afterJoinSave s code e ev team u)
    refine ⟨new, h1, ?_⟩
    intro t ht
    obtain ⟨a, b, c, d⟩ := h2 t ht
    exact ⟨a, b, hid ▸ c, d⟩

/-- C15, instance of the amended statement: user 2 joins on `leaderCancelledStore`. -/
theorem partial_fan_out_witness :
    (joinTeam leaderCancelledStore 2 "ABCDEF" (some 7)).2 = JoinTeamResult.serverError ∧
    (joinTeam leaderCancelledStore 2 "ABCDEF" (some 7)).1.teams.find?
        (isTeamWithCode "ABCDEF" 7) =
      some (alphaLate.withMembers (alphaLate.members ++ [2]) TeamStatus.Complete) ∧
    (joinTeam leaderCancelledStore 2 "ABCDEF" (some 7)).1.events = leaderCancelledStore.events ∧
    ∃ new, (joinTeam leaderCancelledStore 2 "ABCDEF" (some 7)).1.tickets =
        leaderCancelledStore.tickets ++ new ∧
      ∀ t ∈ new, t.teamId = some alphaLate.id ∧ t.status = TicketStatus.Confirmed ∧
        t.eventId = 7 ∧ t.userId ∈ alphaLate.members ++ [2] :=
  partial_fan_out leaderCancelledStore 2 7 "ABCDEF" alphaLate duoEvent
    ⟨by decide, rfl, rfl, by decide, rfl, rfl⟩ rfl rfl

/-! ## Admission by createTeam -/

theorem generateTeamCode_free {s : Store} {rnd : List String} {code : String}
    (h : generateTeamCode s rnd = some code) :
    s.teams.any (fun t => t.code == code) = false := by
  induction rnd with
  | nil => cases h
  | cons r rs ih =>
    unfold generateTeamCode at h
    split at h
    · exact ih h
    · rename_i hfree
      cases h
      simpa using hfree

/-- C20. createTeam admission, where the handler departs from it: on `soloTeamEvent` (a team
event with `maxTeams` null whose teams are complete with one member) user 1 has registered
and cancelled. User 1 is in no team and holds no Confirmed ticket, and the name is not
empty, so the admission rule promises success; `createTeam` answers 'Server error', because
its guard looks for a Confirmed ticket only while the unique index on (userId, eventId)
refuses the leader ticket next to the Cancelled one, and the store is not unchanged: the
team has been saved. -/
theorem createTeam_cancelled_leader :
    findEvent cancelledSoloStore 7 = some soloTeamEvent ∧
    soloTeamEvent.maxTeams = none ∧ soloTeamEvent.isTeamEvent = true ∧
    cancelledSoloStore.teams.any (isTeamOf 1 7) = false ∧
    findConfirmedTicket cancelledSoloStore 1 7 = none ∧
    (createTeam cancelledSoloStore 1 "Alpha" (some 7) ["0.abcdefgh"]).2 =
      CreateTeamResult.serverError ∧
    (createTeam cancelledSoloStore 1 "Alpha" (some 7) ["0.abcdefgh"]).1 ≠ cancelledSoloStore ∧
    (createTeam cancelledSoloStore 1 "Alpha" (some 7) ["0.abcdefgh"]).1.teams.length = 1 := by
  refine ⟨rfl, rfl, rfl, rfl, rfl, rfl, by decide, rfl⟩

/-! ## Requests that the handlers let through against the claims -/

/-- The direction of the required-field validation that holds: when `register` admits a
request, every required field of the form has an answer with its label, and the first such
answer has a truthy value. -/
theorem required_fields_answered {s : Store} {u e : Nat} {a : Option (List Answer)}
    {now : Int} {id : Nat} (h : (register s u e a now).2 = RegisterResult.success id) :
    ∃ ev ans, findEvent s e = some ev ∧ a = some ans ∧
      ∀ f ∈ ev.formFields, f.required = true →
        ∃ x, ans.find? (fun y => y.label == f.label) = some x ∧ x.value.truthy = true := by
  obtain ⟨ev, ans, hev, ha, hA, _, _⟩ := register_success_cases h
  refine ⟨ev, ans, hev, ha, ?_⟩
  intro f hf hreq
  have hm := hA.answered
  unfold firstMissingField at hm
  rw [Option.map_eq_none', List.find?_eq_none] at hm
  have hf2 := hm f hf
  simp only [hreq, Bool.true_and, Bool.not_eq_true] at hf2
  unfold fieldUnanswered at hf2
  cases hfind : ans.find? (fun y => y.label == f.label) with
  | none => rw [hfind] at hf2; cases hf2
  | some x =>
    rw [hfind] at hf2
    refine ⟨x, rfl, ?_⟩
    simpa using hf2

/-- C11. Required-field validation fails for the number 0. The form of `ageEvent` has the
required field "Age". With the answer 1 the request is admitted; with the answer 0, a
value that is present and that the ticket schema accepts, `register` answers 'Missing
required field' for "Age" and creates no ticket, because the guard `!answer.value` tests
truthiness. -/
theorem required_number_zero_rejected :
    (register ageStore 1 7 (some oneAnswers) 5).2 = RegisterResult.success 0 ∧
    ticketSchemaValid (newTicket ageStore 1 7 none zeroAnswers) = true ∧
    register ageStore 1 7 (some zeroAnswers) 5 =
      (ageStore, RegisterResult.missingRequiredField "Age") := by
  refine ⟨rfl, rfl, rfl⟩

/-- C12. The team handlers issue tickets whatever the status and the deadline of the event.
On a Draft event, and on an event whose deadline (time 0) has passed, `register` at time 5
is rejected while `createTeam`, which reads neither the status nor the clock, issues a
Confirmed ticket to the leader; on a Closed event past its deadline `joinTeam` completes
the team and issues a Confirmed ticket to both members. -/
theorem team_tickets_ignore_status_and_deadline :
    (register draftSoloStore 1 7 (some []) 5).2 = RegisterResult.cannotRegister ∧
    (createTeam draftSoloStore 1 "Alpha" (some 7) ["0.abcdefgh"]).2 =
      CreateTeamResult.success 0 (some 1) ∧
    confirmedCount (createTeam draftSoloStore 1 "Alpha" (some 7) ["0.abcdefgh"]).1 7 = 1 ∧
    (register lateSoloStore 1 7 (some []) 5).2 = RegisterResult.registrationClosed ∧
    (createTeam lateSoloStore 1 "Alpha" (some 7) ["0.abcdefgh"]).2 =
      CreateTeamResult.success 0 (some 1) ∧
    confirmedCount (createTeam lateSoloStore 1 "Alpha" (some 7) ["0.abcdefgh"]).1 7 = 1 ∧
    (register closedDuoStore 2 7 (some []) 5).2 = RegisterResult.cannotRegister ∧
    (joinTeam closedDuoStore 2 "ABCDEF" (some 7)).2 = JoinTeamResult.success 0 (some 2) ∧
    confirmedCount (joinTeam closedDuoStore 2 "ABCDEF" (some 7)).1 7 = 2 := by
  refine ⟨rfl, rfl, rfl, rfl, rfl, rfl, rfl, rfl, rfl⟩

/-- C17. A team member can hold an individual ticket. In `duoFormingStore` user 1 leads a
Forming team of event 7 and holds no ticket; `register` of user 1 for event 7 is admitted,
after which user 1 holds a Confirmed ticket without team id while still a member of the
team: `register` never looks at the teams. -/
theorem team_member_registers_individually :
    duoFormingStore.teams.any (isTeamOf 1 7) = true ∧
    (register duoFormingStore 1 7 (some []) 5).2 = RegisterResult.success 1 ∧
    individualConfirmedCount (register duoFormingStore 1 7 (some []) 5).1 7 = 1 ∧
    (register duoFormingStore 1 7 (some []) 5).1.tickets.any
      (fun t => isConfirmedTicketOf 1 7 t && t.teamId.isNone) = true ∧
    (register duoFormingStore 1 7 (some []) 5).1.teams.any (isTeamOf 1 7) = true := by
  refine ⟨rfl, rfl, rfl, rfl, rfl⟩

/-! ## The format of a team code -/

theorem toUpperCase_length (t : String) : (toUpperCase t).length = t.length := by
  show (t.data.map Char.toUpper).length = t.data.length
  exact List.length_map _ _

theorem candidateCode_length (r : String) :
    (candidateCode r).length = min 6 (r.length - 2) := by
  show (((r.data.drop 2).take 6).map Char.toUpper).length = min 6 (r.data.length - 2)
  rw [List.length_map, List.length_take, List.length_drop]

/-- C21. Team code format: the candidate code has exactly 6 characters only for a rendering
of at least 8 characters (its length is the smaller of 6 and the length of the rendering
less 2); for the rendering "0.i" of the draw 0.5 `generateTeamCode` returns the code "I" of
one character, which `createTeam` then fails to save. -/
theorem team_code_shorter_than_six :
    (∀ r : String, (candidateCode r).length = min 6 (r.length - 2)) ∧
    generateTeamCode duoStore ["0.i"] = some "I" ∧
    createTeam duoStore 2 "Alpha" (some 7) ["0.i"] =
      (duoStore, CreateTeamResult.serverError) :=
  ⟨candidateCode_length, by decide, by decide⟩

/-! ## Accounts under one e-mail -/

/-- C24. The pair (e-mail, password) is not an identity key at all times: after two guests
have registered under one e-mail and the second has changed the password to the password
of the first, the two accounts have the same e-mail and credentials that match the same
password, and a login with them resolves to the first account only. -/
theorem change_password_breaks_identity_key :
    runAuth asciiLowerCase noUsers identityClash =
      { users := [annGuest, bobGuest], nextId := 2 } ∧
    ¬ IdentityKey (runAuth asciiLowerCase noUsers identityClash) ∧
    login asciiLowerCase (runAuth asciiLowerCase noUsers identityClash) "ann@mail.com"
      "secret1" = LoginResult.success annGuest := by
  have h : runAuth asciiLowerCase noUsers identityClash =
      { users := [annGuest, bobGuest], nextId := 2 } := by
    decide
  refine ⟨h, ?_, by decide⟩
  rw [h]
  intro hk
  have h2 := List.rel_of_pairwise_cons hk (List.mem_singleton.mpr rfl)
  exact h2 ⟨rfl, "secret1", by decide, by decide⟩

/-- C25. An IIIT e-mail is not unique: after an IIIT student has registered, a guest
registration under the same e-mail with another password is accepted, and the account with
`isIIIT = true` shares its e-mail with the account of the guest. -/
theorem guest_shares_iiit_email :
    runAuth asciiLowerCase noUsers iiitThenGuest =
      { users := [annStudent, bobShared], nextId := 2 } ∧
    ¬ IIITEmailsUnique (runAuth asciiLowerCase noUsers iiitThenGuest) := by
  have h : runAuth asciiLowerCase noUsers iiitThenGuest =
      { users := [annStudent, bobShared], nextId := 2 } := by
    decide
  refine ⟨h, ?_⟩
  rw [h]
  unfold IIITEmailsUnique
  decide

/-! ## Requests of an administrator to update an event -/

/-- C27. No administrative override: the route lets only the role Organizer through, so an
update request by a user with role Admin is answered 'Access forbidden' and leaves the
store as it is, whatever the event and the body; the handler behind the route would
override the table for the owner of the event and would refuse any other user. -/
theorem admin_update_forbidden :
    (∀ (s : Store) (userId id : Nat) (body : EventUpdate),
      putEvent s userId Role.Admin id body = (s, UpdateEventResult.accessForbidden)) ∧
    (updateEvent sampleStore 1 Role.Admin 7 (statusOnly EventStatus.Draft)).2 =
      UpdateEventResult.success { sampleEvent with status := EventStatus.Draft } ∧
    updateEvent sampleStore 9 Role.Admin 7 (statusOnly EventStatus.Draft) =
      (sampleStore, UpdateEventResult.accessDenied) ∧
    putEvent sampleStore 1 Role.Organizer 7 (statusOnly EventStatus.Draft) =
      (sampleStore, UpdateEventResult.invalidTransition) :=
  ⟨fun _ _ _ _ => rfl, by decide, by decide, by decide⟩

/-! ## Form fields after a registration -/

/-- C29. Form fields are not locked after a registration: the lock reads
`event.participants`, which no request of a participant writes, so it stays open whatever
requests are served; for a Published event that has a Confirmed ticket an update by its
organizer that carries form fields is answered 'Event updated successfully', and for a
Draft event that has a Confirmed ticket (issued to the leader of a team) the update
replaces the form fields. -/
theorem form_fields_not_locked :
    (∀ ops : List Op,
      (findEvent (run sampleStore ops) 7).map (fun ev => hasRegistrations ev) = some false) ∧
    (registeredStore.tickets.filter (fun t => t.eventId == 7)).length = 1 ∧
    putEvent registeredStore 1 Role.Organizer 7 (formFieldsOnly ageForm) =
      (registeredStore, UpdateEventResult.success sampleEvent) ∧
    (draftTicketStore.tickets.filter (fun t => t.eventId == 7)).length = 1 ∧
    (findEvent draftTicketStore 7).map (fun ev => ev.formFields) = some [] ∧
    (findEvent (putEvent draftTicketStore 1 Role.Organizer 7 (formFieldsOnly ageForm)).1 7).map
      (fun ev => ev.formFields) = some ageForm := by
  refine ⟨?_, by decide, by decide, by decide, by decide, by decide⟩
  intro ops
  rw [findEvent_map_run (fun ev => hasRegistrations ev) (fun _ _ => rfl)]
  decide

/-! ## Analytics -/

theorem teamStatus_name_ne_completed (st : TeamStatus) : (st.name == "Completed") = false := by
  cases st <;> decide

/-- C30. The figure completedTeams is 0 for every store and event, because the status
"Completed" asked for is not a status of a team; on a store with one team of the event,
which is Complete, the analytics answer totalTeams 1 and completedTeams 0. -/
theorem completed_teams_always_zero :
    (∀ (s : Store) (eventId : Nat), teamCountWithStatus s eventId "Completed" = 0) ∧
    completeTeams completeTeamStore 7 = 1 ∧
    analytics completeTeamStore 1 7 =
      AnalyticsResult.ok
        { totalRegistrations := 2, totalAttendance := 0, capacity := none,
          teamStats := some { totalTeams := 1, completedTeams := 0 },
          status := EventStatus.Published } := by
  refine ⟨?_, by decide, by decide⟩
  intro s eventId
  simp [teamCountWithStatus, teamStatus_name_ne_completed]

/-! ## The status of an event -/

theorem validTransitions_iff (a b : EventStatus) :
    (validTransitions a).contains b = true ↔ (a, b) ∈ specTransitions := by
  cases a <;> cases b <;> decide

theorem findEvent_some_id {s : Store} {id : Nat} {event : Event}
    (h : findEvent s id = some event) : event.id = id := by
  unfold findEvent at h
  have := List.find?_some h
  simpa using this

theorem find_saveEventIn (saved : Event) (es : List Event) (j : Nat) :
    (saveEventIn saved es).find? (fun e => e.id == j) =
      if j = saved.id then (es.find? (fun e => e.id == j)).map (fun _ => saved)
      else es.find? (fun e => e.id == j) := by
  induction es with
  | nil => simp [saveEventIn]
  | cons e es ih =>
    unfold saveEventIn
    by_cases h1 : e.id = saved.id
    · rw [if_pos h1]
      by_cases h2 : j = saved.id
      · simp [h1, h2]
      · have h3 : ¬ saved.id = j := fun h => h2 h.symm
        simp [h1, h2, h3]
    · rw [if_neg h1, List.find?_cons, List.find?_cons]
      by_cases h4 : e.id = j
      · have h5 : (e.id == j) = true := by simpa using h4
        have h6 : ¬ j = saved.id := fun h => h1 (h4.trans h)
        simp [h5, h6]
      · have h5 : (e.id == j) = false := by simpa using h4
        simp only [h5]
        exact ih

theorem findEvent_saveEvent {s : Store} {id : Nat} {event saved : Event}
    (h : findEvent s id = some event) (hid : saved.id = id) :
    findEvent (saveEvent s saved) id = some saved := by
  unfold findEvent saveEvent at *
  simp only []
  rw [find_saveEventIn, if_pos hid.symm, h]
  rfl

theorem findEvent_saveEvent_ne (s : Store) (saved : Event) (j : Nat) (h : j ≠ saved.id) :
    findEvent (saveEvent s saved) j = findEvent s j := by
  unfold findEvent saveEvent
  simp only []
  rw [find_saveEventIn, if_neg h]

theorem draftEdits_statusOnly (event : Event) (status : EventStatus) :
    draftEdits event (statusOnly status) = event := rfl

theorem publishedEdits_statusOnly (event : Event) (status : EventStatus) :
    publishedEdits event (statusOnly status) = event := rfl

theorem applyEdits_statusOnly (event : Event) (status : EventStatus) :
    applyEdits event (statusOnly status) = some event := by
  unfold applyEdits
  cases event.status <;> rfl

theorem editsValid_statusOnly (current status : EventStatus) :
    editsValid current (statusOnly status) = true := by
  cases current <;> rfl
theorem putEvent_statusOnly {s : Store} {userId id : Nat} {event : Event}
    (status : EventStatus) (hfound : findEvent s id = some event)
    (howner : event.organizerId = userId) (hne : status ≠ event.status) :
    putEvent s userId Role.Organizer id (statusOnly status) =
      if (validTransitions event.status).contains status = true then
        (saveEvent s (event.withStatus status),
          UpdateEventResult.success (event.withStatus status))
      else (s, UpdateEventResult.invalidTransition) := by
  have hrole : checkRole [Role.Organizer] Role.Organizer = true := by decide
  have hff : (hasRegistrations event && (statusOnly status).formFields.isSome) = false := by
    simp [statusOnly]
  have hst : (statusOnly status).status = some status := rfl
  have hne2 : ¬ event.status = status := fun h => hne h.symm
  subst howner
  unfold putEvent updateEvent
  rw [if_pos hrole, hfound]
  simp only [ne_eq, not_true_eq_false, if_false, hff, Bool.false_eq_true,
    applyEdits_statusOnly, hst, applyStatus, if_neg hne2, editsValid_statusOnly, if_true]
  by_cases ht : (validTransitions event.status).contains status = true
  · simp only [ht, if_true]
    rfl
  · simp only [ht, if_false]
    simp

theorem patchPublish_cases {s : Store} {userId id : Nat} {event : Event}
    (hfound : findEvent s id = some event) (howner : event.organizerId = userId) :
    patchPublish s userId Role.Organizer id =
      if event.status = EventStatus.Draft then
        (saveEvent s (event.withStatus EventStatus.Published),
          PublishResult.success (event.withStatus EventStatus.Published))
      else (s, PublishResult.notDraft) := by
  have hrole : checkRole [Role.Organizer] Role.Organizer = true := by decide
  subst howner
  unfold patchPublish publishEvent
  rw [if_pos hrole, hfound]
  by_cases hd : event.status = EventStatus.Draft
  · simp [hd, Event.withStatus]
  · simp [hd]

/-- C26. Event status transition table: for an event found by id and a request of its
owning Organizer that carries only a status different from the current one, the request
is answered with success, and the event is stored with the requested status, exactly when
the pair (current, requested) is in the table Draft to Published; Published to Ongoing,
Closed, Cancelled; Ongoing to Completed, Cancelled; Closed to Published, Ongoing,
Cancelled; otherwise it is answered 'Invalid status transition' and the store is unchanged,
which is the case for every request on a Completed or Cancelled event; every other event
is untouched; and the publish operation succeeds exactly when the event is a Draft. -/
theorem status_transition_table (s : Store) (userId id : Nat) (event : Event)
    (status : EventStatus) (hfound : findEvent s id = some event)
    (howner : event.organizerId = userId) (hne : status ≠ event.status) :
    ((event.status, status) ∈ specTransitions →
      putEvent s userId Role.Organizer id (statusOnly status) =
        (saveEvent s (event.withStatus status),
          UpdateEventResult.success (event.withStatus status)) ∧
      findEvent (saveEvent s (event.withStatus status)) id = some (event.withStatus status) ∧
      ∀ j, j ≠ id → findEvent (saveEvent s (event.withStatus status)) j = findEvent s j) ∧
    ((event.status, status) ∉ specTransitions →
      putEvent s userId Role.Organizer id (statusOnly status) =
        (s, UpdateEventResult.invalidTransition)) ∧
    (event.status = EventStatus.Completed ∨ event.status = EventStatus.Cancelled →
      putEvent s userId Role.Organizer id (statusOnly status) =
        (s, UpdateEventResult.invalidTransition)) ∧
    ((patchPublish s userId Role.Organizer id).2.isSuccess = true ↔
      event.status = EventStatus.Draft) ∧
    (event.status = EventStatus.Draft →
      patchPublish s userId Role.Organizer id =
        (saveEvent s (event.withStatus EventStatus.Published),
          PublishResult.success (event.withStatus EventStatus.Published))) ∧
    (event.status ≠ EventStatus.Draft →
      patchPublish s userId Role.Organizer id = (s, PublishResult.notDraft)) := by
  have hid : event.id = id := findEvent_some_id hfound
  have hput := putEvent_statusOnly status hfound howner hne
  have hpub := patchPublish_cases hfound howner
  have hout : (event.status, status) ∉ specTransitions →
      putEvent s userId Role.Organizer id (statusOnly status) =
        (s, UpdateEventResult.invalidTransition) := by
    intro h
    rw [hput, if_neg (fun hc => h ((validTransitions_iff _ _).mp hc))]
  refine ⟨?_, hout, ?_, ?_, ?_, ?_⟩
  · intro h
    refine ⟨?_, findEvent_saveEvent hfound hid, ?_⟩
    · rw [hput, if_pos ((validTransitions_iff _ _).mpr h)]
    · intro j hj
      exact findEvent_saveEvent_ne s _ j (fun hc => hj (hc.trans hid))
  · intro h
    apply hout
    rcases h with h | h <;> rw [h] <;> cases status <;> decide
  · rw [hpub]
    by_cases hd : event.status = EventStatus.Draft
    · simp [hd, PublishResult.isSuccess]
    · simp [hd, PublishResult.isSuccess]
  · intro hd
    rw [hpub, if_pos hd]
  · intro hd
    rw [hpub, if_neg hd]

/-- C26, instance: the organizer of `closedSampleStore` reopens the Closed event. -/
theorem status_transition_table_witness :
    putEvent closedSampleStore 1 Role.Organizer 7 (statusOnly EventStatus.Published) =
      (sampleStore, UpdateEventResult.success sampleEvent) ∧
    putEvent closedSampleStore 1 Role.Organizer 7 (statusOnly EventStatus.Draft) =
      (closedSampleStore, UpdateEventResult.invalidTransition) ∧
    patchPublish closedSampleStore 1 Role.Organizer 7 =
      (closedSampleStore, PublishResult.notDraft) :=
  have h := status_transition_table closedSampleStore 1 7
    (sampleEvent.withStatus EventStatus.Closed) EventStatus.Published
    (by decide) (by decide) (by decide)
  ⟨(h.1 (by decide)).1,
    by decide,
    h.2.2.2.2.2 (by decide)⟩

/-! ## Scanning a ticket -/

theorem find_checkInTicketIn (tid j : Nat) (ts : List Ticket) :
    (checkInTicketIn tid ts).find? (fun t => t.id == j) =
      if j = tid then (ts.find? (fun t => t.id == j)).map (fun t => { t with checkedIn := true })
      else ts.find? (fun t => t.id == j) := by
  induction ts with
  | nil => simp [checkInTicketIn]
  | cons t ts ih =>
    unfold checkInTicketIn
    by_cases h1 : t.id = tid
    · rw [if_pos h1]
      by_cases h2 : j = tid
      · simp [h1, h2]
      · have h3 : ¬ tid = j := fun h => h2 h.symm
        simp [h1, h2, h3]
    · rw [if_neg h1, List.find?_cons, List.find?_cons]
      by_cases h4 : t.id = j
      · have h5 : (t.id == j) = true := by simpa using h4
        have h6 : ¬ j = tid := fun h => h1 (h4.trans h)
        simp [h5, h6]
      · have h5 : (t.id == j) = false := by simpa using h4
        simp only [h5]
        exact ih

theorem checkInTicketIn_split {tid : Nat} {ts : List Ticket} {t : Ticket}
    (h : ts.find? (fun x => x.id == tid) = some t) :
    ∃ before after, ts = before ++ t :: after ∧ (∀ x ∈ before, x.id ≠ tid) ∧
      checkInTicketIn tid ts = before ++ { t with checkedIn := true } :: after := by
  induction ts with
  | nil => simp at h
  | cons x xs ih =>
    by_cases hx : x.id = tid
    · have hx2 : (x.id == tid) = true := by simpa using hx
      rw [List.find?_cons, hx2] at h
      cases h
      exact ⟨[], xs, rfl, by simp, by simp [checkInTicketIn, hx]⟩
    · have hx2 : (x.id == tid) = false := by simpa using hx
      rw [List.find?_cons, hx2] at h
      obtain ⟨before, after, h1, h2, h3⟩ := ih h
      refine ⟨x :: before, after, by simp [h1], ?_, by simp [checkInTicketIn, hx, h3]⟩
      intro y hy
      rcases List.mem_cons.mp hy with rfl | hy
      · exact hx
      · exact h2 y hy

/-- The answer of `scanTicket` by cases. -/
theorem scanTicket_cases (s : Store) (ticketId organizerId : Nat) :
    (∃ ticket event, findTicketById s ticketId = some ticket ∧
        findEvent s ticket.eventId = some event ∧ event.organizerId = organizerId ∧
        ticket.status = TicketStatus.Confirmed ∧ ticket.checkedIn = false ∧
        scanTicket s (some ticketId) organizerId =
          ({ s with tickets := checkInTicketIn ticketId s.tickets },
            ScanResult.success ticket.id ticket.userId)) ∨
    ((¬ ∃ ticket event, findTicketById s ticketId = some ticket ∧
        findEvent s ticket.eventId = some event ∧ event.organizerId = organizerId ∧
        ticket.status = TicketStatus.Confirmed ∧ ticket.checkedIn = false) ∧
      (scanTicket s (some ticketId) organizerId).1 = s ∧
      (scanTicket s (some ticketId) organizerId).2.isSuccess = false) := by
  unfold scanTicket
  cases ht : findTicketById s ticketId with
  | none => right; simp [ht, ScanResult.isSuccess]
  | some ticket =>
    cases he : findEvent s ticket.eventId with
    | none => right; simp [ht, he, ScanResult.isSuccess]
    | some event =>
      by_cases ho : event.organizerId = organizerId
      · by_cases hs : ticket.status = TicketStatus.Confirmed
        · cases hc : ticket.checkedIn with
          | true => right; simp [ht, he, ho, hs, hc, ScanResult.isSuccess]
          | false =>
            left
            exact ⟨ticket, event, rfl, he, ho, hs, hc, by simp [ht, he, ho, hs, hc]⟩
        · right; simp [ht, he, ho, hs, ScanResult.isSuccess]
      · right; simp [ht, he, ho, ScanResult.isSuccess]
theorem findTicketById_checkIn (s : Store) (tid j : Nat) :
    findTicketById { s with tickets := checkInTicketIn tid s.tickets } j =
      if j = tid then (findTicketById s j).map (fun t => { t with checkedIn := true })
      else findTicketById s j := by
  unfold findTicketById
  exact find_checkInTicketIn tid j s.tickets

theorem checkedInAlready_of_success {s : Store} {tid org : Nat}
    (h : (scanTicket s (some tid) org).2.isSuccess = true) :
    checkedInAlready (scanTicket s (some tid) org).1 tid := by
  rcases scanTicket_cases s tid org with ⟨ticket, event, ht, _, _, _, _, hr⟩ | ⟨_, _, hf⟩
  · rw [hr]
    refine ⟨{ ticket with checkedIn := true }, ?_, rfl⟩
    show findTicketById { s with tickets := checkInTicketIn tid s.tickets } tid = _
    rw [findTicketById_checkIn, if_pos rfl, ht]
    rfl
  · rw [hf] at h
    cases h

theorem checkedInAlready_step {s : Store} {tid : Nat} (h : checkedInAlready s tid)
    (c : ScanCall) : checkedInAlready (scanTicket s c.ticketId c.organizerId).1 tid := by
  cases hc : c.ticketId with
  | none => exact h
  | some j =>
    rcases scanTicket_cases s j c.organizerId with ⟨ticket, event, _, _, _, _, _, hr⟩ | ⟨_, hs, _⟩
    · rw [hr]
      obtain ⟨t, ht, hin⟩ := h
      show ∃ t, findTicketById { s with tickets := checkInTicketIn j s.tickets } tid = some t ∧ _
      rw [findTicketById_checkIn]
      by_cases hj : tid = j
      · rw [if_pos hj, ht]
        exact ⟨_, rfl, rfl⟩
      · rw [if_neg hj]
        exact ⟨t, ht, hin⟩
    · rw [hs]
      exact h

theorem no_success_of_checkedInAlready {s : Store} {tid : Nat} (h : checkedInAlready s tid)
    (org : Nat) : (scanTicket s (some tid) org).2.isSuccess = false := by
  rcases scanTicket_cases s tid org with ⟨ticket, event, ht, _, _, _, hc, _⟩ | ⟨_, _, hf⟩
  · obtain ⟨t, ht2, hin⟩ := h
    rw [ht] at ht2
    cases ht2
    rw [hc] at hin
    cases hin
  · exact hf

theorem checkIns_of_checkedInAlready (tid : Nat) (calls : List ScanCall) :
    ∀ s : Store, checkedInAlready s tid → checkIns tid s calls = 0 := by
  induction calls with
  | nil => intro s _; rfl
  | cons c cs ih =>
    intro s h
    unfold checkIns
    rw [ih _ (checkedInAlready_step h c)]
    by_cases hc : c.ticketId = some tid
    · have hf := no_success_of_checkedInAlready h c.organizerId
      rw [← hc] at hf
      simp [hf]
    · simp [hc]

theorem checkIns_le_one (tid : Nat) (calls : List ScanCall) :
    ∀ s : Store, checkIns tid s calls ≤ 1 := by
  induction calls with
  | nil => intro s; exact Nat.zero_le 1
  | cons c cs ih =>
    intro s
    unfold checkIns
    by_cases hc : c.ticketId = some tid ∧
        (scanTicket s c.ticketId c.organizerId).2.isSuccess = true
    · rw [if_pos hc]
      obtain ⟨h1, h2⟩ := hc
      rw [h1] at h2 ⊢
      rw [checkIns_of_checkedInAlready tid cs _ (checkedInAlready_of_success h2)]
    · rw [if_neg hc, Nat.zero_add]
      exact ih _

/-- C28. Ticket scan: `scanTicket` succeeds exactly when the ticket exists, its event
exists and is owned by the organizer, its status is Confirmed and it is not checked in;
on success the first ticket with that id gets `checkedIn = true` and every other ticket,
every event and every team is left as it was; on rejection the store is unchanged; and in
any sequence of scan requests at most one is a successful check-in of a given ticket. -/
theorem scan_ticket (s : Store) (ticketId organizerId : Nat) :
    ((scanTicket s (some ticketId) organizerId).2.isSuccess = true ↔
      ∃ ticket event, findTicketById s ticketId = some ticket ∧
        findEvent s ticket.eventId = some event ∧ event.organizerId = organizerId ∧
        ticket.status = TicketStatus.Confirmed ∧ ticket.checkedIn = false) ∧
    ((scanTicket s (some ticketId) organizerId).2.isSuccess = true →
      ∃ before ticket after, s.tickets = before ++ ticket :: after ∧
        (∀ t ∈ before, t.id ≠ ticketId) ∧ ticket.id = ticketId ∧
        scanTicket s (some ticketId) organizerId =
          ({ s with tickets := before ++ { ticket with checkedIn := true } :: after },
            ScanResult.success ticketId ticket.userId)) ∧
    ((scanTicket s (some ticketId) organizerId).2.isSuccess = false →
      (scanTicket s (some ticketId) organizerId).1 = s) ∧
    (∀ org2, (scanTicket s (some ticketId) organizerId).2.isSuccess = true →
      (scanTicket (scanTicket s (some ticketId) organizerId).1 (some ticketId) org2).2 =
        ScanResult.alreadyScanned ∨
      (scanTicket (scanTicket s (some ticketId) organizerId).1 (some ticketId) org2).2 =
        ScanResult.accessDenied) ∧
    ∀ calls, checkIns ticketId s calls ≤ 1 := by
  refine ⟨?_, ?_, ?_, ?_, fun calls => checkIns_le_one ticketId calls s⟩
  · rcases scanTicket_cases s ticketId organizerId with
      ⟨ticket, event, ht, he, ho, hs, hc, hr⟩ | ⟨hn, _, hf⟩
    · rw [hr]
      exact ⟨fun _ => ⟨ticket, event, ht, he, ho, hs, hc⟩, fun _ => rfl⟩
    · rw [hf]
      exact ⟨fun h => (by cases h), fun h => absurd h hn⟩
  · intro h
    rcases scanTicket_cases s ticketId organizerId with
      ⟨ticket, event, ht, he, ho, hs, hc, hr⟩ | ⟨_, _, hf⟩
    · obtain ⟨before, after, h1, h2, h3⟩ := checkInTicketIn_split ht
      have hid : ticket.id = ticketId := by
        have := List.find?_some ht
        simpa using this
      refine ⟨before, ticket, after, h1, h2, hid, ?_⟩
      rw [hr, h3, hid]
    · rw [hf] at h
      cases h
  · intro h
    rcases scanTicket_cases s ticketId organizerId with
      ⟨ticket, event, ht, he, ho, hs, hc, hr⟩ | ⟨_, hst, _⟩
    · rw [hr] at h
      cases h
    · exact hst
  · intro org2 h
    rcases scanTicket_cases s ticketId organizerId with
      ⟨ticket, event, ht, he, ho, hs, hc, hr⟩ | ⟨_, _, hf⟩
    · rw [hr]
      have hfind : findTicketById { s with tickets := checkInTicketIn ticketId s.tickets }
          ticketId = some { ticket with checkedIn := true } := by
        rw [findTicketById_checkIn, if_pos rfl, ht]
        rfl
      have hev : findEvent { s with tickets := checkInTicketIn ticketId s.tickets }
          ticket.eventId = some event := he
      unfold scanTicket
      simp only [hfind, hev, hs]
      by_cases ho2 : event.organizerId = org2
      · left; simp [ho2]
      · right; simp [ho2]
    · rw [hf] at h
      cases h

theorem checkIns_scanCalls :
    checkIns 1 completeTeamStore scanCalls = 1 ∧ checkIns 2 completeTeamStore scanCalls = 1 := by
  decide

/-! ## Guest registration -/

theorem ne_empty_of_jsLength {p : String} (h : 6 ≤ jsLength p) : p ≠ "" := by
  intro hp
  subst hp
  revert h
  decide

theorem any_filter_matches (lower : String → String) (l : List User) (e p : String) :
    (l.filter (hasEmail lower e)).any (fun user => comparePassword p user.password) =
      l.any (fun u => hasEmail lower e u && comparePassword p u.password) := by
  induction l with
  | nil => rfl
  | cons u us ih =>
    cases hu : hasEmail lower e u <;> simp [List.filter, hu, ih]

theorem storedUser_guest (lower : String → String) (s : UserStore)
    (name email password : String) :
    storedUser lower
        (newUser s name (lower email) (hashPassword password) Role.Participant false) =
      guestAccount lower s name email password := rfl

theorem createUser_guest (lower : String → String) (s : UserStore)
    (name email password : String) (hname : trimmed name ≠ "")
    (hemail : emailPattern (emailKey lower email) = true) :
    createUser lower s name (lower email) password false =
      ({ users := s.users ++ [guestAccount lower s name email password],
         nextId := s.nextId + 1 },
        RegisterUserResult.created (guestAccount lower s name email password)) := by
  have hst := storedUser_guest lower s name email password
  have hvalid : userSchemaValid lower
      (newUser s name (lower email) (hashPassword password) Role.Participant false) =
        true := by
    unfold userSchemaValid
    rw [hst]
    simp [guestAccount, hname, hemail]
  unfold createUser saveNewUser
  simp only [hvalid, if_true, hst]

theorem registerUser_guest (lower : String → String) (s : UserStore)
    (name email password : String) (hname : trimmed name ≠ "") (he : email ≠ "")
    (hemail : emailPattern (emailKey lower email) = true) (hpw : 6 ≤ jsLength password) :
    registerUser lower s name email password false =
      if s.users.any (matchesLogin lower email password) = true then
        (s, RegisterUserResult.passwordInUse)
      else
        ({ users := s.users ++ [guestAccount lower s name email password],
           nextId := s.nextId + 1 },
          RegisterUserResult.created (guestAccount lower s name email password)) := by
  have h1 : name ≠ "" := fun h => hname (by rw [h]; rfl)
  have h3 : password ≠ "" := ne_empty_of_jsLength hpw
  have h4 : ¬ jsLength password < 6 := Nat.not_lt.mpr hpw
  have h5 : ¬ (name = "" ∨ email = "" ∨ password = "") := by
    rintro (h | h | h)
    · exact h1 h
    · exact he h
    · exact h3 h
  unfold registerUser
  rw [if_neg h5, if_neg h4]
  simp only [Bool.false_eq_true, if_false, any_filter_matches]
  by_cases hany : s.users.any (matchesLogin lower email password) = true
  · rw [if_pos hany]
    unfold matchesLogin at hany
    rw [if_pos hany]
  · rw [if_neg hany]
    unfold matchesLogin at hany
    rw [if_neg hany]
    exact createUser_guest lower s name email password hname hemail

theorem any_matchesLogin_iff (lower : String → String) (l : List User)
    (email password : String) :
    l.any (matchesLogin lower email password) = true ↔
      ∃ u ∈ l, u.email = emailKey lower email ∧
        comparePassword password u.password = true := by
  simp [List.any_eq_true, matchesLogin, hasEmail, emailKey]

/-- C22 (as stated, refuted). A request with the non-empty name " ", an e-mail and a password
of 7 characters, on a collection without accounts, is answered with a server error and adds no
account; so is a request whose name is the character U+00A0, and so is a request whose e-mail
is the text "guest".  A request under the e-mail " ann@mail.com" with the password of Ann is
answered 'Password already in use', although no account has the e-mail " ann@mail.com". -/
theorem blank_name_registration :
    (" " ≠ "" ∧ "\u00a0" ≠ "" ∧ "guest@mail.com" ≠ "" ∧ 6 ≤ jsLength "secret1") ∧
    registerUser asciiLowerCase noUsers " " "guest@mail.com" "secret1" false =
      (noUsers, RegisterUserResult.serverError) ∧
    registerUser asciiLowerCase noUsers "\u00a0" "guest@mail.com" "secret1" false =
      (noUsers, RegisterUserResult.serverError) ∧
    registerUser asciiLowerCase noUsers "Ann" "guest" "secret1" false =
      (noUsers, RegisterUserResult.serverError) ∧
    oneGuest.users.filter (fun u => u.email == asciiLowerCase " ann@mail.com") = [] ∧
    registerUser asciiLowerCase oneGuest "Bob" " ann@mail.com" "secret1" false =
      (oneGuest, RegisterUserResult.passwordInUse) := by
  decide

/-- C22 (amended). Guest registration collision rule: for a guest registration request with a
name that is not blank, an e-mail that, once lower-cased and trimmed as it is stored, has the
shape `local@domain.tld` without white space, and a password of at least 6 characters (UTF-16
code units), the request is answered 'Password already in use', leaving the accounts as they
are, exactly when some existing account under the lower-cased and trimmed e-mail has a stored
credential that matches the supplied password; otherwise exactly one account is added after
the existing ones, with a fresh id, the trimmed name, that e-mail, the role Participant and
`isIIIT = false`, whether or not other accounts use that e-mail; where ids are below the
counter the new account differs from every existing one.  The method `toLowerCase` is the
parameter `lower`. -/
theorem guest_registration (lower : String → String) (s : UserStore)
    (name email password : String) (hname : trimmed name ≠ "") (he : email ≠ "")
    (hemail : emailPattern (emailKey lower email) = true) (hpw : 6 ≤ jsLength password) :
    ((registerUser lower s name email password false).2 = RegisterUserResult.passwordInUse ↔
      ∃ u ∈ s.users, u.email = emailKey lower email ∧
        comparePassword password u.password = true) ∧
    ((registerUser lower s name email password false).2 = RegisterUserResult.passwordInUse →
      (registerUser lower s name email password false).1 = s) ∧
    ((¬ ∃ u ∈ s.users, u.email = emailKey lower email ∧
        comparePassword password u.password = true) →
      registerUser lower s name email password false =
        ({ users := s.users ++ [guestAccount lower s name email password],
           nextId := s.nextId + 1 },
          RegisterUserResult.created (guestAccount lower s name email password))) ∧
    (FreshIds s → (∀ u ∈ s.users, u.id ≠ (guestAccount lower s name email password).id) ∧
      FreshIds (registerUser lower s name email password false).1) := by
  have hreg := registerUser_guest lower s name email password hname he hemail hpw
  have hiff := any_matchesLogin_iff lower s.users email password
  by_cases hany : s.users.any (matchesLogin lower email password) = true
  · rw [if_pos hany] at hreg
    rw [hreg]
    refine ⟨⟨fun _ => hiff.mp hany, fun _ => rfl⟩, fun _ => rfl,
      fun h => absurd (hiff.mp hany) h, ?_⟩
    intro hf
    exact ⟨fun u hu => Nat.ne_of_lt (hf u hu), hf⟩
  · rw [if_neg hany] at hreg
    rw [hreg]
    refine ⟨⟨fun h => (by cases h), fun h => absurd (hiff.mpr h) hany⟩,
      fun h => (by cases h), fun _ => rfl, ?_⟩
    intro hf
    refine ⟨fun u hu => Nat.ne_of_lt (hf u hu), ?_⟩
    intro u hu
    rcases List.mem_append.mp hu with hu | hu
    · exact Nat.lt_succ_of_lt (hf u hu)
    · rw [List.mem_singleton.mp hu]
      exact Nat.lt_succ_self _

/-- C22, instance of the amended statement: Bob registers as a guest under the e-mail of Ann,
sent with a leading space and capital letters, with another password and is stored as a second
account; with the password of Ann the request is refused. -/
theorem guest_registration_witness :
    (trimmed "Bob" ≠ "" ∧ " Ann@Mail.com" ≠ "" ∧
      emailPattern (emailKey asciiLowerCase " Ann@Mail.com") = true ∧
      6 ≤ jsLength "secret2") ∧
    registerUser asciiLowerCase oneGuest "Bob" " Ann@Mail.com" "secret2" false =
      ({ users := [annGuest, bobSecond], nextId := 2 },
        RegisterUserResult.created bobSecond) ∧
    (registerUser asciiLowerCase oneGuest "Bob" " Ann@Mail.com" "secret1" false).2 =
      RegisterUserResult.passwordInUse :=
  ⟨by decide,
    (guest_registration asciiLowerCase oneGuest "Bob" " Ann@Mail.com" "secret2" (by decide)
      (by decide) (by decide) (by decide)).2.2.1 (by decide),
    (guest_registration asciiLowerCase oneGuest "Bob" " Ann@Mail.com" "secret1" (by decide)
      (by decide) (by decide) (by decide)).1.mpr (by decide)⟩

/-! ## Login -/

theorem login_eq (lower : String → String) (s : UserStore) (email password : String)
    (he : email ≠ "") (hp : password ≠ "") :
    login lower s email password =
      match s.users.find? (matchesLogin lower email password) with
      | none => LoginResult.invalidCredentials
      | some u => LoginResult.success u := by
  have h5 : ¬ (email = "" ∨ password = "") := by
    rintro (h | h)
    · exact he h
    · exact hp h
  have hfind : (s.users.filter (hasEmail lower (lower email))).find?
      (fun user => comparePassword password user.password) =
        s.users.find? (matchesLogin lower email password) := by
    rw [List.find?_filter]
    congr 1
    funext u
    simp [matchesLogin]
  unfold login
  rw [if_neg h5]
  simp only [hfind]
  by_cases hl : (s.users.filter (hasEmail lower (lower email))).length = 0
  · rw [if_pos hl]
    have hnil : s.users.filter (hasEmail lower (lower email)) = [] :=
      List.length_eq_zero.mp hl
    rw [← hfind, hnil]
    rfl
  · rw [if_neg hl]

theorem find_append_new {l : List User} {p : User → Bool} {a : User}
    (hnone : l.any p = false) (ha : p a = true) : (l ++ [a]).find? p = some a := by
  have h1 : l.find? p = none := by
    rw [List.find?_eq_none]
    intro x hx hpx
    have : l.any p = true := List.any_eq_true.mpr ⟨x, hx, hpx⟩
    rw [hnone] at this
    cases this
  rw [List.find?_append, h1]
  simp [ha]

theorem registerUser_guest_created {lower : String → String} {s s1 : UserStore}
    {name email password : String} {a : User}
    (h : registerUser lower s name email password false =
      (s1, RegisterUserResult.created a)) :
    email ≠ "" ∧ password ≠ "" ∧ s.users.any (matchesLogin lower email password) = false ∧
      a = guestAccount lower s name email password ∧
      s1 = { users := s.users ++ [a], nextId := s.nextId + 1 } := by
  unfold registerUser at h
  by_cases h5 : name = "" ∨ email = "" ∨ password = ""
  · rw [if_pos h5] at h
    cases h
  · rw [if_neg h5] at h
    by_cases h4 : jsLength password < 6
    · rw [if_pos h4] at h
      cases h
    · rw [if_neg h4] at h
      simp only [Bool.false_eq_true, if_false, any_filter_matches] at h
      have hp : password ≠ "" := fun hc => h5 (Or.inr (Or.inr hc))
      have he : email ≠ "" := fun hc => h5 (Or.inr (Or.inl hc))
      cases hany : s.users.any (matchesLogin lower email password) with
      | true =>
        unfold matchesLogin at hany
        rw [if_pos hany] at h
        cases h
      | false =>
        have hany2 := hany
        unfold matchesLogin at hany2
        rw [hany2] at h
        simp only [Bool.false_eq_true, if_false] at h
        have hst := storedUser_guest lower s name email password
        unfold createUser at h
        cases hsave : saveNewUser lower s
            (newUser s name (lower email) (hashPassword password) Role.Participant false) with
        | none =>
          simp only [hsave] at h
          cases h
        | some s2 =>
          simp only [hsave] at h
          unfold saveNewUser at hsave
          split at hsave
          · cases hsave
            rw [hst] at h
            cases h
            exact ⟨he, hp, rfl, rfl, rfl⟩
          · cases hsave

theorem matchesLogin_guestAccount (lower : String → String) (s : UserStore)
    (name email password : String) :
    matchesLogin lower email password (guestAccount lower s name email password) = true := by
  simp [matchesLogin, hasEmail, comparePassword, guestAccount, hashPassword, emailKey]

/-- C23 (as stated, refuted). A login without e-mail, for which no account can match, is
answered 'Please provide email and password' and not 'Invalid credentials'; so is a login
without password.  A login under the e-mail " ann@mail.com" with the password of Ann answers
the account of Ann, although no account has the e-mail " ann@mail.com". -/
theorem login_missing_field :
    oneGuest.users.filter (hasEmail asciiLowerCase (asciiLowerCase "")) = [] ∧
    login asciiLowerCase oneGuest "" "secret1" = LoginResult.missingFields ∧
    login asciiLowerCase oneGuest "ann@mail.com" "" = LoginResult.missingFields ∧
    oneGuest.users.filter (fun u => u.email == asciiLowerCase " ann@mail.com") = [] ∧
    login asciiLowerCase oneGuest " ann@mail.com" "secret1" =
      LoginResult.success annGuest := by
  decide

/-- C23 (amended). Identity resolution: for a login request that carries an e-mail and a
password, the answer is the first account, in the order of the collection, whose e-mail is the
e-mail of the request, lower-cased and trimmed as the accounts are stored, and whose stored
credential matches the password, and it is 'Invalid credentials' exactly when no account has
both, be it that the e-mail is unknown or that the password is wrong; after two successful
guest registrations under one e-mail, which have distinct passwords, the login with the first
password answers the first account and the login with the second password the second, and the
two accounts have different ids.  The method `toLowerCase` is the parameter `lower`. -/
theorem login_resolution (lower : String → String) (s : UserStore) (email password : String)
    (he : email ≠ "") (hp : password ≠ "") :
    (∀ u, login lower s email password = LoginResult.success u ↔
      ∃ before after, s.users = before ++ u :: after ∧
        (u.email = emailKey lower email ∧ comparePassword password u.password = true) ∧
        ∀ v ∈ before,
          ¬ (v.email = emailKey lower email ∧ comparePassword password v.password = true)) ∧
    (login lower s email password = LoginResult.invalidCredentials ↔
      ∀ v ∈ s.users,
        ¬ (v.email = emailKey lower email ∧ comparePassword password v.password = true)) ∧
    (∀ (name1 name2 p1 p2 : String) (a1 a2 : User) (s1 s2 : UserStore),
      registerUser lower s name1 email p1 false = (s1, RegisterUserResult.created a1) →
      registerUser lower s1 name2 email p2 false = (s2, RegisterUserResult.created a2) →
      p1 ≠ p2 ∧ a1.id ≠ a2.id ∧ s2.users = s.users ++ [a1, a2] ∧
        login lower s2 email p1 = LoginResult.success a1 ∧
        login lower s2 email p2 = LoginResult.success a2) := by
  have hm : ∀ v : User, matchesLogin lower email password v = true ↔
      (v.email = emailKey lower email ∧ comparePassword password v.password = true) := by
    intro v
    simp [matchesLogin, hasEmail, emailKey]
  have hlog := login_eq lower s email password he hp
  refine ⟨?_, ?_, ?_⟩
  · intro u
    rw [hlog]
    cases hf : s.users.find? (matchesLogin lower email password) with
    | none =>
      simp only []
      constructor
      · intro h
        cases h
      · rintro ⟨before, after, hs, hu, _⟩
        rw [List.find?_eq_none] at hf
        exact absurd ((hm u).mpr hu) (hf u (by rw [hs]; simp))
    | some w =>
      simp only []
      rw [List.find?_eq_some] at hf
      obtain ⟨hw, before, after, hs, hb⟩ := hf
      constructor
      · intro h
        cases h
        refine ⟨before, after, hs, (hm _).mp hw, ?_⟩
        intro v hv hc
        have := hb v hv
        rw [(hm v).mpr hc] at this
        cases this
      · rintro ⟨before2, after2, hs2, hu, hb2⟩
        have hfind : s.users.find? (matchesLogin lower email password) = some u := by
          rw [List.find?_eq_some]
          refine ⟨(hm u).mpr hu, before2, after2, hs2, ?_⟩
          intro v hv
          cases hv2 : matchesLogin lower email password v with
          | false => rfl
          | true => exact absurd ((hm v).mp hv2) (hb2 v hv)
        have hfind2 : s.users.find? (matchesLogin lower email password) = some w := by
          rw [List.find?_eq_some]
          exact ⟨hw, before, after, hs, hb⟩
        rw [hfind] at hfind2
        cases hfind2
        rfl
  · rw [hlog]
    cases hf : s.users.find? (matchesLogin lower email password) with
    | none =>
      simp only [true_iff]
      rw [List.find?_eq_none] at hf
      intro v hv hc
      exact hf v hv ((hm v).mpr hc)
    | some w =>
      simp only []
      constructor
      · intro h
        cases h
      · intro h
        have hw := List.find?_some hf
        exact absurd ((hm w).mp hw) (h w (List.mem_of_find?_eq_some hf))
  · intro name1 name2 p1 p2 a1 a2 s1 s2 h1 h2
    obtain ⟨_, hp1, hany1, ha1, hs1⟩ := registerUser_guest_created h1
    obtain ⟨_, hp2, hany2, ha2, hs2⟩ := registerUser_guest_created h2
    have hm1 : matchesLogin lower email p1 a1 = true := by
      rw [ha1]
      exact matchesLogin_guestAccount lower s name1 email p1
    have hm2 : matchesLogin lower email p2 a2 = true := by
      rw [ha2]
      exact matchesLogin_guestAccount lower s1 name2 email p2
    have hu1 : s1.users = s.users ++ [a1] := by rw [hs1]
    have hu2 : s2.users = s1.users ++ [a2] := by rw [hs2]
    have hne : p1 ≠ p2 := by
      intro hc
      rw [← hc, hu1, List.any_append] at hany2
      simp [hm1] at hany2
    have hid : a1.id ≠ a2.id := by
      rw [ha1, ha2, hs1]
      exact Nat.ne_of_lt (Nat.lt_succ_self _)
    refine ⟨hne, hid, by rw [hu2, hu1]; simp, ?_, ?_⟩
    · rw [login_eq lower s2 email p1 he hp1, hu2, List.find?_append, hu1,
        find_append_new hany1 hm1]
      rfl
    · rw [login_eq lower s2 email p2 he hp2, hu2, find_append_new hany2 hm2]

/-- C23, instance of the amended statement: Ann and Bob register as guests under one e-mail,
sent with a leading space, with the passwords secret1 and secret2; each login resolves to the
account of its password. -/
theorem login_resolution_witness :
    (" ann@mail.com" ≠ "" ∧ "secret2" ≠ "") ∧
    login asciiLowerCase twoGuests " ann@mail.com" "secret1" = LoginResult.success annGuest ∧
    login asciiLowerCase twoGuests " ann@mail.com" "secret2" = LoginResult.success bobSecond ∧
    login asciiLowerCase twoGuests "ann@mail.com" "secret3" =
      LoginResult.invalidCredentials ∧
    login asciiLowerCase twoGuests "bob@mail.com" "secret1" =
      LoginResult.invalidCredentials :=
  have h := (login_resolution asciiLowerCase noUsers " ann@mail.com" "secret2" (by decide)
    (by decide)).2.2 "Ann" "Bob" "secret1" "secret2" annGuest bobSecond oneGuest twoGuests
    (by decide) (by decide)
  ⟨by decide, h.2.2.2.1, h.2.2.2.2, by decide, by decide⟩

end Felicity
